import Mathlib

/-!
# Master_BootLoader_App: serial frame codec, update session manager, boot-time committer

A shallow embedding of

* `IAP_APP/HardWare/Src/comm_proto.c` (frame receiver and sender),
* `IAP_APP/HardWare/Src/update_manager.c` (update session and deferred finisher),
* `BootLoader/HardWare/Src/Bootloader.c` (`Bootloader_CheckAndUpgrade`),

together with the properties proved about them.

Conventions.  C integers are natural numbers; a value of type `uintN_t` is a
number below `2 ^ N`, and every C expression that can leave that range is
reduced modulo `2 ^ N` where the C code truncates it.  File-scope variables
of a translation unit are the fields of one record that is passed in and
returned.  Calls into the HAL and into `FlashCV.c` are calls of the fields of
a record of primitives acting on an abstract hardware state, and each such
call is appended to a call log.
-/

set_option autoImplicit false

namespace IAP

/-! ## comm_proto.h -/

/-- First header byte of a frame (`COMM_HEAD1`). -/
def COMM_HEAD1 : Nat := 0x55
/-- Second header byte of a frame (`COMM_HEAD2`). -/
def COMM_HEAD2 : Nat := 0xAA

/-- Acknowledge command code (`CMD_ACK`). -/
def CMD_ACK : Nat := 0x06

/-- Status code `COMM_STATUS_FRAME_CRC` of `CommStatus_t`. -/
def COMM_STATUS_FRAME_CRC : Nat := 0x01

/-- Largest payload length of a frame (`COMM_MAX_PAYLOAD_LEN`). -/
def COMM_MAX_PAYLOAD_LEN : Nat := 1024

/-! ## comm_proto.c -/

/-- Receiver states (`RxState_t`). -/
inductive RxState_t
  | RX_STATE_HEAD1
  | RX_STATE_HEAD2
  | RX_STATE_CMD
  | RX_STATE_SEQ
  | RX_STATE_LEN_L
  | RX_STATE_LEN_H
  | RX_STATE_DATA
  | RX_STATE_CRC0
  | RX_STATE_CRC1
  | RX_STATE_CRC2
  | RX_STATE_CRC3
  deriving DecidableEq, Repr

open RxState_t

/-- The file-scope receiver variables of `comm_proto.c`.  `rx_buf` has
`COMM_MAX_PAYLOAD_LEN` cells and `crc_bytes` has 4. -/
structure RxCtx where
  rx_state : RxState_t
  rx_cmd : Nat
  rx_seq : Nat
  rx_len : Nat
  rx_buf : List Nat
  rx_index : Nat
  crc_bytes : List Nat
  crc_index : Nat
  deriving DecidableEq, Repr

/-- Receiver variables at program start: `rx_state` is initialised to
`RX_STATE_HEAD1`, the other statics have static storage and start at zero. -/
def RxCtx.initial : RxCtx :=
  { rx_state := RX_STATE_HEAD1
    rx_cmd := 0
    rx_seq := 0
    rx_len := 0
    rx_buf := List.replicate COMM_MAX_PAYLOAD_LEN 0
    rx_index := 0
    crc_bytes := List.replicate 4 0
    crc_index := 0 }

/-- What one call of `Comm_OnByteReceived` does besides updating the receiver
variables: it calls `Comm_HandlePacket(cmd, seq, data, len)`, where `data` is
shown as the `len` bytes the handler may read, or it transmits bytes on the
UART. -/
inductive CommEvent
  | HandlePacket (cmd seq : Nat) (data : List Nat) (len : Nat)
  | Transmit (bytes : List Nat)
  deriving DecidableEq, Repr

/-- `Comm_CalcCRC32(data, len)`: 0 for a null pointer or a zero length,
otherwise the `uint32_t` result of the CRC primitive over the first `len`
bytes of `data`.  The primitive is `FlashCV_CalcCRC`, defined in `FlashCV.c`;
`crc32` stands for it as a function of the bytes of the range it is given. -/
def Comm_CalcCRC32 (crc32 : List Nat → Nat) (data : Option (List Nat)) (len : Nat) : Nat :=
  match data with
  | none => 0
  | some d => if len = 0 then 0 else crc32 (d.take len) % 2 ^ 32

/-- `Comm_ResetRxState`. -/
def Comm_ResetRxState (s : RxCtx) : RxCtx :=
  { s with rx_state := RX_STATE_HEAD1 }

/-- `Comm_SendFrame(cmd, seq, data, len)`: the bytes handed to
`HAL_UART_Transmit`, in order (header, payload, CRC trailer).  `data` is
`none` for a null pointer. -/
def Comm_SendFrame (crc32 : List Nat → Nat) (cmd seq : Nat) (data : Option (List Nat))
    (len : Nat) : List Nat :=
  let header : List Nat :=
    [COMM_HEAD1, COMM_HEAD2, cmd, seq, (len &&& 0xFF) % 256, (len >>> 8) % 256]
  let body : List Nat :=
    match data with
    | none => []
    | some d => if len > 0 then d.take len else []
  let tmp : List Nat := [cmd, seq, header.getD 4 0, header.getD 5 0] ++ body
  let pos : Nat :=
    match data with
    | none => 4
    | some _ => if len > 0 then (4 + len) % 65536 else 4
  let crc : Nat := Comm_CalcCRC32 crc32 (some tmp) pos
  let crc_out : List Nat :=
    [(crc &&& 0xFF) % 256, ((crc >>> 8) &&& 0xFF) % 256,
     ((crc >>> 16) &&& 0xFF) % 256, ((crc >>> 24) &&& 0xFF) % 256]
  header ++ body ++ crc_out

/-- `Comm_SendAck(cmd, seq, status)`: the bytes transmitted. -/
def Comm_SendAck (crc32 : List Nat → Nat) (cmd seq status : Nat) : List Nat :=
  Comm_SendFrame crc32 CMD_ACK 0 (some [status, cmd, seq]) 3

/-- `Comm_OnByteReceived(ch)`.  A store through an index outside `rx_buf` or
`crc_bytes` is an out-of-bounds write, whose behaviour C leaves undefined (a
compiled program may overwrite a neighbouring variable, `crc_index` itself for
instance).  The model leaves such a store out and goes on: up to the first
such store it follows the program, and from that store on it shows one
possible continuation only.  `Comm_StoreInRange` states that a call makes no
such store. -/
def Comm_OnByteReceived (crc32 : List Nat → Nat) (s : RxCtx) (ch : Nat) :
    RxCtx × List CommEvent :=
  match s.rx_state with
  | RX_STATE_HEAD1 =>
    if ch = COMM_HEAD1 then ({ s with rx_state := RX_STATE_HEAD2 }, []) else (s, [])
  | RX_STATE_HEAD2 =>
    if ch = COMM_HEAD2 then ({ s with rx_state := RX_STATE_CMD }, [])
    else ({ s with rx_state := RX_STATE_HEAD1 }, [])
  | RX_STATE_CMD => ({ s with rx_cmd := ch, rx_state := RX_STATE_SEQ }, [])
  | RX_STATE_SEQ => ({ s with rx_seq := ch, rx_state := RX_STATE_LEN_L }, [])
  | RX_STATE_LEN_L => ({ s with rx_len := ch, rx_state := RX_STATE_LEN_H }, [])
  | RX_STATE_LEN_H =>
    let s1 : RxCtx := { s with rx_len := (s.rx_len ||| (ch <<< 8)) % 65536 }
    if s1.rx_len > COMM_MAX_PAYLOAD_LEN then (Comm_ResetRxState s1, [])
    else
      ({ s1 with
          rx_index := 0
          rx_state := if s1.rx_len = 0 then RX_STATE_CRC0 else RX_STATE_DATA }, [])
  | RX_STATE_DATA =>
    let s1 : RxCtx :=
      { s with rx_buf := s.rx_buf.set s.rx_index ch, rx_index := (s.rx_index + 1) % 65536 }
    if s1.rx_index ≥ s1.rx_len then ({ s1 with crc_index := 0, rx_state := RX_STATE_CRC0 }, [])
    else (s1, [])
  | RX_STATE_CRC0 | RX_STATE_CRC1 | RX_STATE_CRC2 | RX_STATE_CRC3 =>
    let s1 : RxCtx :=
      { s with
          crc_bytes := s.crc_bytes.set s.crc_index ch
          crc_index := (s.crc_index + 1) % 256 }
    if s1.crc_index ≥ 4 then
      let crc_recv : Nat :=
        (s1.crc_bytes.getD 0 0 ||| (s1.crc_bytes.getD 1 0 <<< 8)
          ||| (s1.crc_bytes.getD 2 0 <<< 16) ||| (s1.crc_bytes.getD 3 0 <<< 24)) % 2 ^ 32
      let body : List Nat := if s1.rx_len > 0 then s1.rx_buf.take s1.rx_len else []
      let tmp : List Nat :=
        [s1.rx_cmd, s1.rx_seq, (s1.rx_len &&& 0xFF) % 256, (s1.rx_len >>> 8) % 256] ++ body
      let pos : Nat := if s1.rx_len > 0 then (4 + s1.rx_len) % 65536 else 4
      let crc_calc : Nat := Comm_CalcCRC32 crc32 (some tmp) pos
      let out : List CommEvent :=
        if crc_calc = crc_recv then
          [CommEvent.HandlePacket s1.rx_cmd s1.rx_seq (s1.rx_buf.take s1.rx_len) s1.rx_len]
        else [CommEvent.Transmit (Comm_SendAck crc32 s1.rx_cmd s1.rx_seq COMM_STATUS_FRAME_CRC)]
      (Comm_ResetRxState s1, out)
    else (s1, [])

/-- Successive calls of `Comm_OnByteReceived`, one per received byte (the
calls `HAL_UART_RxCpltCallback` makes), with the events in order. -/
def Comm_FeedBytes (crc32 : List Nat → Nat) : RxCtx → List Nat → RxCtx × List CommEvent
  | s, [] => (s, [])
  | s, ch :: rest =>
    let r := Comm_OnByteReceived crc32 s ch
    let r2 := Comm_FeedBytes crc32 r.1 rest
    (r2.1, r.2 ++ r2.2)


/-! ## stm32f4xx_hal.h -/

/-- Status codes returned by the HAL (`HAL_StatusTypeDef`). -/
inductive HAL_StatusTypeDef
  | HAL_OK
  | HAL_ERROR
  | HAL_BUSY
  | HAL_TIMEOUT
  deriving DecidableEq, Repr

open HAL_StatusTypeDef

/-- Flash sector number `FLASH_SECTOR_5`. -/
def FLASH_SECTOR_5 : Nat := 5

/-! ## FlashCV.h -/

/-- Start of the application (execution) region. -/
def FLASH_APP_START_ADDR : Nat := 0x08008000
/-- Last byte of the application (execution) region. -/
def FLASH_APP_END_ADDR : Nat := 0x0801FFFF
/-- Start of the download (staging) region. -/
def FLASH_DOWNLOAD_START_ADDR : Nat := 0x08020000
/-- Last byte of the download (staging) region. -/
def FLASH_DOWNLOAD_END_ADDR : Nat := 0x0805FFFF

/-- Metadata flag: no update pending. -/
def UPGRADE_FLAG_EMPTY : Nat := 0xFFFFFFFF
/-- Metadata flag: a staged image awaits its commit. -/
def UPGRADE_FLAG_VALID : Nat := 0xA5A5A5A5
/-- Metadata flag: the staged image has been copied to the application region. -/
def UPGRADE_FLAG_DONE : Nat := 0x55AA55AA

/-- The metadata record (`BootMeta_t`); `reserved` holds the four reserved words. -/
structure BootMeta_t where
  flag : Nat
  image_size : Nat
  image_crc : Nat
  version : Nat
  reserved : List Nat
  deriving DecidableEq, Repr

/-! ## Hardware primitives and the call log -/

/-- One call into the HAL or into `FlashCV.c`, with its arguments.
`HAL_FLASH_Program` is always called with `FLASH_TYPEPROGRAM_WORD`. -/
inductive HwCall
  | HAL_FLASH_Unlock
  | HAL_FLASH_Lock
  | HAL_FLASHEx_Erase (Sector NbSectors : Nat)
  | HAL_FLASH_Program (Address Data : Nat)
  | FlashCV_ReadMeta
  | FlashCV_WriteMeta (m : BootMeta_t)
  | FlashCV_ClearMetaFlag
  | FlashCV_EraseAppArea
  | FlashCV_CopyImageToApp (img_size : Nat)
  | FlashCV_CalcCRC (start_addr length : Nat)
  | NVIC_SystemReset
  deriving DecidableEq, Repr

/-- The primitives the three translation units call but do not define (the
HAL flash driver and `FlashCV.c`), as functions of an abstract hardware state
`W`.  `HAL_FLASHEx_Erase` returns its status and the value it leaves in
`*SectorError`.  `FlashCV_ReadMeta` and `FlashCV_CalcCRC` only read. -/
structure Hw (W : Type) where
  HAL_FLASH_Unlock : W → W
  HAL_FLASH_Lock : W → W
  HAL_FLASHEx_Erase : Nat → Nat → W → HAL_StatusTypeDef × Nat × W
  HAL_FLASH_Program : Nat → Nat → W → HAL_StatusTypeDef × W
  FlashCV_ReadMeta : W → BootMeta_t
  FlashCV_WriteMeta : BootMeta_t → W → HAL_StatusTypeDef × W
  FlashCV_ClearMetaFlag : W → HAL_StatusTypeDef × W
  FlashCV_EraseAppArea : W → HAL_StatusTypeDef × W
  FlashCV_CopyImageToApp : Nat → W → HAL_StatusTypeDef × W
  FlashCV_CalcCRC : Nat → Nat → W → Nat

/-- Hardware state together with the log of the primitive calls made so far. -/
structure Sys (W : Type) where
  w : W
  calls : List HwCall

section Calls
variable {W : Type}

/-- Call `HAL_FLASH_Unlock` and log it (its status is ignored by every caller). -/
def Sys.HAL_FLASH_Unlock (H : Hw W) (m : Sys W) : Sys W :=
  { w := H.HAL_FLASH_Unlock m.w, calls := m.calls ++ [HwCall.HAL_FLASH_Unlock] }

/-- Call `HAL_FLASH_Lock` and log it. -/
def Sys.HAL_FLASH_Lock (H : Hw W) (m : Sys W) : Sys W :=
  { w := H.HAL_FLASH_Lock m.w, calls := m.calls ++ [HwCall.HAL_FLASH_Lock] }

/-- Call `HAL_FLASHEx_Erase` and log it; returns the status and `*SectorError`. -/
def Sys.HAL_FLASHEx_Erase (H : Hw W) (Sector NbSectors : Nat) (m : Sys W) :
    HAL_StatusTypeDef × Nat × Sys W :=
  let r := H.HAL_FLASHEx_Erase Sector NbSectors m.w
  (r.1, r.2.1, { w := r.2.2, calls := m.calls ++ [HwCall.HAL_FLASHEx_Erase Sector NbSectors] })

/-- Call `HAL_FLASH_Program(FLASH_TYPEPROGRAM_WORD, Address, Data)` and log it. -/
def Sys.HAL_FLASH_Program (H : Hw W) (Address Data : Nat) (m : Sys W) :
    HAL_StatusTypeDef × Sys W :=
  let r := H.HAL_FLASH_Program Address Data m.w
  (r.1, { w := r.2, calls := m.calls ++ [HwCall.HAL_FLASH_Program Address Data] })

/-- Call `FlashCV_ReadMeta` and log it. -/
def Sys.FlashCV_ReadMeta (H : Hw W) (m : Sys W) : BootMeta_t × Sys W :=
  (H.FlashCV_ReadMeta m.w, { w := m.w, calls := m.calls ++ [HwCall.FlashCV_ReadMeta] })

/-- Call `FlashCV_WriteMeta` and log it. -/
def Sys.FlashCV_WriteMeta (H : Hw W) (r : BootMeta_t) (m : Sys W) : HAL_StatusTypeDef × Sys W :=
  let x := H.FlashCV_WriteMeta r m.w
  (x.1, { w := x.2, calls := m.calls ++ [HwCall.FlashCV_WriteMeta r] })

/-- Call `FlashCV_ClearMetaFlag` and log it. -/
def Sys.FlashCV_ClearMetaFlag (H : Hw W) (m : Sys W) : HAL_StatusTypeDef × Sys W :=
  let x := H.FlashCV_ClearMetaFlag m.w
  (x.1, { w := x.2, calls := m.calls ++ [HwCall.FlashCV_ClearMetaFlag] })

/-- Call `FlashCV_CopyImageToApp` and log it. -/
def Sys.FlashCV_CopyImageToApp (H : Hw W) (img_size : Nat) (m : Sys W) :
    HAL_StatusTypeDef × Sys W :=
  let x := H.FlashCV_CopyImageToApp img_size m.w
  (x.1, { w := x.2, calls := m.calls ++ [HwCall.FlashCV_CopyImageToApp img_size] })

/-- Call `FlashCV_CalcCRC` and log it. -/
def Sys.FlashCV_CalcCRC (H : Hw W) (start_addr length : Nat) (m : Sys W) : Nat × Sys W :=
  (H.FlashCV_CalcCRC start_addr length m.w,
    { w := m.w, calls := m.calls ++ [HwCall.FlashCV_CalcCRC start_addr length] })

/-- Call `NVIC_SystemReset` and log it.  Control does not come back from it. -/
def Sys.NVIC_SystemReset (m : Sys W) : Sys W :=
  { w := m.w, calls := m.calls ++ [HwCall.NVIC_SystemReset] }

end Calls

/-- A hardware whose every flash operation succeeds and whose CRC unit always
answers `crc`; its state is the stored metadata record. -/
def simHw (crc : Nat) : Hw BootMeta_t :=
  { HAL_FLASH_Unlock := fun w => w
    HAL_FLASH_Lock := fun w => w
    HAL_FLASHEx_Erase := fun _ _ w => (HAL_OK, 0xFFFFFFFF, w)
    HAL_FLASH_Program := fun _ _ w => (HAL_OK, w)
    FlashCV_ReadMeta := fun w => w
    FlashCV_WriteMeta := fun r _ => (HAL_OK, r)
    FlashCV_ClearMetaFlag := fun w => (HAL_OK, { w with flag := UPGRADE_FLAG_DONE })
    FlashCV_EraseAppArea := fun w => (HAL_OK, w)
    FlashCV_CopyImageToApp := fun _ w => (HAL_OK, w)
    FlashCV_CalcCRC := fun _ _ _ => crc }

/-! ## update_manager.h, update_manager.c -/

/-- Session states (`UpdateState_t`). -/
inductive UpdateState_t
  | UPDATE_IDLE
  | UPDATE_RECEIVING
  | UPDATE_FINISH_REQUESTED
  | UPDATE_FINISHED
  deriving DecidableEq, Repr

open UpdateState_t

/-- The session record (`UpdateContext_t`). -/
structure UpdateContext_t where
  state : UpdateState_t
  total_size : Nat
  image_crc : Nat
  version : Nat
  received_size : Nat
  deriving DecidableEq, Repr

/-- Sub-states of the deferred finisher (`UpdateProcState_t`). -/
inductive UpdateProcState_t
  | UPROC_IDLE
  | UPROC_VERIFYING
  | UPROC_WRITE_META
  | UPROC_DONE
  deriving DecidableEq, Repr

open UpdateProcState_t

/-- The file-scope variables of `update_manager.c`. -/
structure UpdateVars where
  g_ctx : UpdateContext_t
  g_finish_request : Nat
  g_proc_state : UpdateProcState_t
  g_crc_calc : Nat
  deriving DecidableEq, Repr

section Update
variable {W : Type}

/-- `Update_EraseDownloadArea`. -/
def Update_EraseDownloadArea (H : Hw W) (m : Sys W) : HAL_StatusTypeDef × Sys W :=
  let m1 := Sys.HAL_FLASH_Unlock H m
  let r := Sys.HAL_FLASHEx_Erase H FLASH_SECTOR_5 2 m1
  let status := r.1
  let sector_error := r.2.1
  let m3 := Sys.HAL_FLASH_Lock H r.2.2
  if status ≠ HAL_OK then (status, m3)
  else if sector_error ≠ 0xFFFFFFFF then (HAL_ERROR, m3)
  else (HAL_OK, m3)

/-- `Update_Init`. -/
def Update_Init (s : UpdateVars) : UpdateVars :=
  { s with
      g_ctx := { state := UPDATE_IDLE, total_size := 0, image_crc := 0, version := 0,
                 received_size := 0 }
      g_finish_request := 0
      g_proc_state := UPROC_IDLE }

/-- `Update_GetState`. -/
def Update_GetState (s : UpdateVars) : UpdateState_t :=
  s.g_ctx.state

/-- `Update_Start(total_size, crc, version)`; the sums of the range check are
`uint32_t` sums. -/
def Update_Start (H : Hw W) (total_size crc version : Nat) (s : UpdateVars) (m : Sys W) :
    HAL_StatusTypeDef × UpdateVars × Sys W :=
  if total_size = 0 then (HAL_ERROR, s, m)
  else if (FLASH_DOWNLOAD_START_ADDR + total_size) % 2 ^ 32
      > (FLASH_DOWNLOAD_END_ADDR + 1) % 2 ^ 32 then (HAL_ERROR, s, m)
  else
    let s1 : UpdateVars :=
      { s with
          g_ctx := { state := UPDATE_RECEIVING, total_size := total_size, image_crc := crc,
                     version := version, received_size := 0 } }
    let r := Update_EraseDownloadArea H m
    if r.1 ≠ HAL_OK then
      (r.1, { s1 with g_ctx := { s1.g_ctx with state := UPDATE_IDLE } }, r.2)
    else (HAL_OK, s1, r.2)

/-- The number of bytes one iteration of the loop of `Update_ReceiveChunk`
copies: `copy = (remain >= 4) ? 4 : remain` with `remain = len - i`. -/
def Update_ReceiveChunk_copy (len i : Nat) : Nat :=
  let remain := len - i
  if remain ≥ 4 then 4 else remain

/-- The word one iteration of the loop of `Update_ReceiveChunk` programs:
`buf` starts as four bytes `0xFF`, `memcpy` overwrites its first `copy` bytes
with `data[i], data[i+1], ...`, and the word is `buf` read as a little-endian
`uint32_t`.  `data` holds at least `len` bytes. -/
def Update_ReceiveChunk_word (data : List Nat) (len i : Nat) : Nat :=
  let copy := Update_ReceiveChunk_copy len i
  let buf : List Nat :=
    (List.range 4).map (fun k => if k < copy then data.getD (i + k) 0 % 256 else 0xFF)
  buf.getD 0 0 + buf.getD 1 0 * 2 ^ 8 + buf.getD 2 0 * 2 ^ 16 + buf.getD 3 0 * 2 ^ 24

/-- The `while (i < len)` loop of `Update_ReceiveChunk`, entered with the
current `addr` and `i`.  Returns `some status` when a program operation failed
(the flash is then locked and the function returns `status`), `none` when the
loop ran to its end. -/
def Update_ReceiveChunk_loop (H : Hw W) (data : List Nat) (len : Nat) (addr i : Nat)
    (m : Sys W) : Option HAL_StatusTypeDef × Sys W :=
  if i < len then
    let r := Sys.HAL_FLASH_Program H addr (Update_ReceiveChunk_word data len i) m
    if r.1 ≠ HAL_OK then (some r.1, Sys.HAL_FLASH_Lock H r.2)
    else
      Update_ReceiveChunk_loop H data len ((addr + 4) % 2 ^ 32)
        (i + Update_ReceiveChunk_copy len i) r.2
  else (none, m)
termination_by len - i
decreasing_by
  simp only [Update_ReceiveChunk_copy, ge_iff_le]
  split <;> omega

/-- `Update_ReceiveChunk(offset, data, len)`; `data` is `none` for a null
pointer, `offset + len` is a `uint32_t` sum. -/
def Update_ReceiveChunk (H : Hw W) (offset : Nat) (data : Option (List Nat)) (len : Nat)
    (s : UpdateVars) (m : Sys W) : HAL_StatusTypeDef × UpdateVars × Sys W :=
  if s.g_ctx.state ≠ UPDATE_RECEIVING then (HAL_ERROR, s, m)
  else
    match data with
    | none => (HAL_ERROR, s, m)
    | some d =>
      if len = 0 then (HAL_ERROR, s, m)
      else if (offset + len) % 2 ^ 32 > s.g_ctx.total_size then (HAL_ERROR, s, m)
      else
        let addr := (FLASH_DOWNLOAD_START_ADDR + offset) % 2 ^ 32
        let m1 := Sys.HAL_FLASH_Unlock H m
        match Update_ReceiveChunk_loop H d len addr 0 m1 with
        | (some status, m2) => (status, s, m2)
        | (none, m2) =>
          let m3 := Sys.HAL_FLASH_Lock H m2
          let new_end := (offset + len) % 2 ^ 32
          if s.g_ctx.received_size < new_end then
            (HAL_OK, { s with g_ctx := { s.g_ctx with received_size := new_end } }, m3)
          else (HAL_OK, s, m3)

/-- `Update_RequestFinish`. -/
def Update_RequestFinish (s : UpdateVars) : HAL_StatusTypeDef × UpdateVars :=
  if s.g_ctx.state ≠ UPDATE_RECEIVING then (HAL_ERROR, s)
  else if s.g_ctx.received_size ≠ s.g_ctx.total_size then (HAL_ERROR, s)
  else
    (HAL_OK,
      { s with
          g_finish_request := 1
          g_proc_state := UPROC_VERIFYING
          g_ctx := { s.g_ctx with state := UPDATE_FINISH_REQUESTED } })

/-- `Update_ProcessInIdle`.  In `UPROC_DONE` the call ends in
`NVIC_SystemReset`, from which control does not return; the variables returned
are those at the moment of the reset. -/
def Update_ProcessInIdle (H : Hw W) (s : UpdateVars) (m : Sys W) : UpdateVars × Sys W :=
  if s.g_finish_request = 0 then (s, m)
  else
    match s.g_proc_state with
    | UPROC_VERIFYING =>
      let r := Sys.FlashCV_CalcCRC H FLASH_DOWNLOAD_START_ADDR s.g_ctx.total_size m
      let s1 : UpdateVars := { s with g_crc_calc := r.1 }
      if s1.g_crc_calc = s1.g_ctx.image_crc then ({ s1 with g_proc_state := UPROC_WRITE_META }, r.2)
      else
        ({ s1 with
            g_finish_request := 0
            g_proc_state := UPROC_IDLE
            g_ctx := { s1.g_ctx with state := UPDATE_IDLE } }, r.2)
    | UPROC_WRITE_META =>
      let record : BootMeta_t :=
        { flag := UPGRADE_FLAG_VALID, image_size := s.g_ctx.total_size,
          image_crc := s.g_ctx.image_crc, version := s.g_ctx.version, reserved := [0, 0, 0, 0] }
      let r := Sys.FlashCV_WriteMeta H record m
      if r.1 = HAL_OK then ({ s with g_proc_state := UPROC_DONE }, r.2)
      else
        ({ s with
            g_finish_request := 0
            g_proc_state := UPROC_IDLE
            g_ctx := { s.g_ctx with state := UPDATE_IDLE } }, r.2)
    | UPROC_DONE =>
      ({ s with g_ctx := { s.g_ctx with state := UPDATE_FINISHED }, g_finish_request := 0 },
        Sys.NVIC_SystemReset m)
    | UPROC_IDLE =>
      ({ s with
          g_finish_request := 0
          g_proc_state := UPROC_IDLE
          g_ctx := { s.g_ctx with state := UPDATE_IDLE } }, m)

/-- A chunk as passed to `Update_ReceiveChunk`: `(offset, data, len)`. -/
abbrev Chunk := Nat × Option (List Nat) × Nat

/-- The end of a chunk in the specification: `offset + len`, the sum of the
two numbers (not reduced to 32 bits). -/
def Spec_ChunkEnd (c : Chunk) : Nat :=
  c.1 + c.2.2

/-- The high-water mark of a list of chunks in the specification: the largest
`offset + len` among them, 0 for the empty list. -/
def Spec_HighWater (chunks : List Chunk) : Nat :=
  (chunks.map Spec_ChunkEnd).foldr max 0

/-- Successive calls of `Update_ReceiveChunk`, one per chunk of the list, all
of which return `HAL_OK`; `none` as soon as one call returns another status. -/
def Update_ReceiveChunks (H : Hw W) : List Chunk → UpdateVars → Sys W → Option (UpdateVars × Sys W)
  | [], s, m => some (s, m)
  | c :: rest, s, m =>
    let r := Update_ReceiveChunk H c.1 c.2.1 c.2.2 s m
    if r.1 = HAL_OK then Update_ReceiveChunks H rest r.2.1 r.2.2 else none

end Update

/-! ## Bootloader.c -/

section Boot
variable {W : Type}

/-- The condition of the size check of `Bootloader_CheckAndUpgrade` (the `if`
that follows the flag test); its sums are `uint32_t` sums. -/
def Bootloader_size_rejected (image_size : Nat) : Prop :=
  image_size = 0 ∨
    (FLASH_DOWNLOAD_START_ADDR + image_size) % 2 ^ 32 > (FLASH_DOWNLOAD_END_ADDR + 1) % 2 ^ 32 ∨
    (FLASH_APP_START_ADDR + image_size) % 2 ^ 32 > (FLASH_APP_END_ADDR + 1) % 2 ^ 32

instance Bootloader_size_rejected.decidable (image_size : Nat) :
    Decidable (Bootloader_size_rejected image_size) := by
  unfold Bootloader_size_rejected
  infer_instance

/-- `Bootloader_CheckAndUpgrade`. -/
def Bootloader_CheckAndUpgrade (H : Hw W) (m : Sys W) : Sys W :=
  let r0 := Sys.FlashCV_ReadMeta H m
  let record := r0.1
  if record.flag ≠ UPGRADE_FLAG_VALID then r0.2
  else if Bootloader_size_rejected record.image_size then r0.2
  else
    let r1 := Sys.FlashCV_CalcCRC H FLASH_DOWNLOAD_START_ADDR record.image_size r0.2
    if r1.1 ≠ record.image_crc then r1.2
    else
      let r2 := Sys.FlashCV_CopyImageToApp H record.image_size r1.2
      if r2.1 ≠ HAL_OK then r2.2
      else
        let r3 := Sys.FlashCV_CalcCRC H FLASH_APP_START_ADDR record.image_size r2.2
        if r3.1 ≠ record.image_crc then r3.2
        else (Sys.FlashCV_ClearMetaFlag H r3.2).2

/-- The conditions under which the committer is to flip the flag, on hardware
state `w`: the flag read is `VALID`, the size check passes, the CRC of the
download region over `image_size` bytes equals `image_crc`, the copy returns
`HAL_OK`, and the CRC of the application region after the copy equals
`image_crc`. -/
def Spec_CommitConditions (H : Hw W) (w : W) : Prop :=
  (H.FlashCV_ReadMeta w).flag = UPGRADE_FLAG_VALID ∧
    ¬ Bootloader_size_rejected (H.FlashCV_ReadMeta w).image_size ∧
    H.FlashCV_CalcCRC FLASH_DOWNLOAD_START_ADDR (H.FlashCV_ReadMeta w).image_size w =
      (H.FlashCV_ReadMeta w).image_crc ∧
    (H.FlashCV_CopyImageToApp (H.FlashCV_ReadMeta w).image_size w).1 = HAL_OK ∧
    H.FlashCV_CalcCRC FLASH_APP_START_ADDR (H.FlashCV_ReadMeta w).image_size
        (H.FlashCV_CopyImageToApp (H.FlashCV_ReadMeta w).image_size w).2 =
      (H.FlashCV_ReadMeta w).image_crc

end Boot

/-! ## Wire layout of the specification -/

/-- The four bytes of a 32-bit value, least significant first. -/
def Spec_le32 (c : Nat) : List Nat :=
  [c % 256, c / 2 ^ 8 % 256, c / 2 ^ 16 % 256, c / 2 ^ 24 % 256]

/-- The frame layout of the specification: `0x55 0xAA cmd seq len(2, LE)
payload crc32(4, LE)`, the CRC taken over `cmd, seq, len, payload`. -/
def Spec_Frame (crc32 : List Nat → Nat) (cmd seq : Nat) (payload : List Nat) : List Nat :=
  [0x55, 0xAA, cmd, seq, payload.length % 256, payload.length / 256] ++ payload ++
    Spec_le32 (crc32 ([cmd, seq, payload.length % 256, payload.length / 256] ++ payload) % 2 ^ 32)


/-! ## Sequences of calls of the update manager -/

/-- The file-scope variables of `update_manager.c` at program start: static
storage, so every variable is zero (`UPDATE_IDLE`, `UPROC_IDLE`).
`Update_Init` sets the same values, leaving `g_crc_calc` as it is. -/
def UpdateVars.initial : UpdateVars :=
  { g_ctx := { state := UPDATE_IDLE, total_size := 0, image_crc := 0, version := 0,
               received_size := 0 }
    g_finish_request := 0
    g_proc_state := UPROC_IDLE
    g_crc_calc := 0 }

/-- One call of a public operation of `update_manager.c`, with its arguments. -/
inductive UpdateOp
  | Start (total_size crc version : Nat)
  | ReceiveChunk (offset : Nat) (data : Option (List Nat)) (len : Nat)
  | RequestFinish
  | ProcessInIdle

section UpdateRuns
variable {W : Type}

/-- The effect of one call on the variables and on the hardware, whatever
status it returns. -/
def Update_step (H : Hw W) (op : UpdateOp) (x : UpdateVars × Sys W) : UpdateVars × Sys W :=
  match op with
  | UpdateOp.Start total_size crc version => (Update_Start H total_size crc version x.1 x.2).2
  | UpdateOp.ReceiveChunk offset data len => (Update_ReceiveChunk H offset data len x.1 x.2).2
  | UpdateOp.RequestFinish => ((Update_RequestFinish x.1).2, x.2)
  | UpdateOp.ProcessInIdle => Update_ProcessInIdle H x.1 x.2

/-- The calls of a list made one after the other, in any order and with any
arguments.  (Calls listed after the reset of `UPROC_DONE` are calls the
device cannot make; such lists are not excluded.) -/
def Update_run (H : Hw W) : List UpdateOp → UpdateVars × Sys W → UpdateVars × Sys W
  | [], x => x
  | op :: rest, x => Update_run H rest (Update_step H op x)

/-- No call of `Update_RequestFinish` in the run of `ops` from `x` returns
`HAL_OK`. -/
def Update_noFinishSucceeds (H : Hw W) : List UpdateOp → UpdateVars × Sys W → Prop
  | [], _ => True
  | op :: rest, x =>
    (op = UpdateOp.RequestFinish → (Update_RequestFinish x.1).1 ≠ HAL_OK) ∧
      Update_noFinishSucceeds H rest (Update_step H op x)

/-- The list contains no call of `Update_Start`. -/
def Update_noStart : List UpdateOp → Prop
  | [] => True
  | UpdateOp.Start _ _ _ :: _ => False
  | _ :: rest => Update_noStart rest

end UpdateRuns

/-! ## Receiver invariants -/

/-- Index safety of the payload buffer: `rx_buf` keeps its
`COMM_MAX_PAYLOAD_LEN` cells, and while the receiver is in `RX_STATE_DATA`
(the only state in which `Comm_OnByteReceived` stores into `rx_buf`, at
`rx_index`) the index is below the frame length, itself at most
`COMM_MAX_PAYLOAD_LEN`. -/
def Comm_RxBufSafe (s : RxCtx) : Prop :=
  s.rx_buf.length = COMM_MAX_PAYLOAD_LEN ∧
    (s.rx_state = RX_STATE_DATA → s.rx_index < s.rx_len ∧ s.rx_len ≤ COMM_MAX_PAYLOAD_LEN)

/-- The bytes `p` contain `COMM_HEAD1` directly followed by `COMM_HEAD2`
nowhere (wording of the specification: "no adjacent pair 0x55, 0xAA"). -/
def Spec_NoHeadPair (p : List Nat) : Prop :=
  ¬ [COMM_HEAD1, COMM_HEAD2] <:+: p

/-- Decision procedure for `Spec_NoHeadPair`. -/
instance Spec_NoHeadPair.decidable (p : List Nat) : Decidable (Spec_NoHeadPair p) := by
  unfold Spec_NoHeadPair
  exact inferInstance

/-! ## Chunk layout of the specification -/

/-- The byte the specification places at position `p` of a chunk of `len`
bytes: `data[p]` inside the chunk, the fill value `0xFF` behind it. -/
def Spec_ChunkByte (data : List Nat) (len p : Nat) : Nat :=
  if p < len then data.getD p 0 else 0xFF

/-- The `k`-th word of a chunk in the specification: the 32-bit word whose
little-endian bytes are the bytes at positions `4k .. 4k+3`. -/
def Spec_ChunkWord (data : List Nat) (len k : Nat) : Nat :=
  Spec_ChunkByte data len (4 * k) + Spec_ChunkByte data len (4 * k + 1) * 2 ^ 8 +
    Spec_ChunkByte data len (4 * k + 2) * 2 ^ 16 + Spec_ChunkByte data len (4 * k + 3) * 2 ^ 24

/-- The `k`-th word-program operation of a chunk in the specification: word
`k` at address `0x08020000 + offset + 4k`, a 32-bit address. -/
def Spec_ChunkProgram (offset : Nat) (data : List Nat) (len k : Nat) : HwCall :=
  HwCall.HAL_FLASH_Program ((0x08020000 + offset + 4 * k) % 2 ^ 32) (Spec_ChunkWord data len k)

/-- A hardware whose flash erase, program and metadata operations all report
`HAL_ERROR` and change nothing; its CRC unit always answers `crc`. -/
def failHw (crc : Nat) : Hw BootMeta_t :=
  { HAL_FLASH_Unlock := fun w => w
    HAL_FLASH_Lock := fun w => w
    HAL_FLASHEx_Erase := fun _ _ w => (HAL_ERROR, 0, w)
    HAL_FLASH_Program := fun _ _ w => (HAL_ERROR, w)
    FlashCV_ReadMeta := fun w => w
    FlashCV_WriteMeta := fun _ w => (HAL_ERROR, w)
    FlashCV_ClearMetaFlag := fun w => (HAL_ERROR, w)
    FlashCV_EraseAppArea := fun w => (HAL_ERROR, w)
    FlashCV_CopyImageToApp := fun _ w => (HAL_ERROR, w)
    FlashCV_CalcCRC := fun _ _ _ => crc }

/-! ## The copy step of the commit -/

/-- The two steps of the commit that act on the execution region, named as
in the specification. -/
inductive Spec_CommitStep
  | EraseExecutionRegion
  | CopyStagingToExecution (size : Nat)
  deriving DecidableEq, Repr

section CommitModel
variable {W : Type}

/-- Modelled from the spec: the body of `FlashCV_CopyImageToApp`, defined in
`FlashCV.c`, which is not part of the sources at hand (`FlashCV.h` declares it
and `FlashCV_EraseAppArea`; `Bootloader_CheckAndUpgrade` calls only the
former).  Step 4 of the boot-time committer reads "Erase the execution region,
then copy `image_size` bytes from staging to execution", and the erase
"returns the underlying erase status, not an illusion of success": the
function calls `FlashCV_EraseAppArea`, returns its status when it is not
`HAL_OK`, and otherwise copies `img_size` bytes (`copy`, the word-aligned
programming of the execution region) and returns the status of the copy.  The
state is the hardware state with the list of the steps taken so far. -/
def Spec_FlashCV_CopyImageToApp (H : Hw W) (copy : Nat → W → HAL_StatusTypeDef × W)
    (img_size : Nat) (x : W × List Spec_CommitStep) :
    HAL_StatusTypeDef × (W × List Spec_CommitStep) :=
  let e := H.FlashCV_EraseAppArea x.1
  if e.1 ≠ HAL_OK then (e.1, (e.2, x.2 ++ [Spec_CommitStep.EraseExecutionRegion]))
  else
    let c := copy img_size e.2
    (c.1, (c.2, x.2 ++ [Spec_CommitStep.EraseExecutionRegion,
      Spec_CommitStep.CopyStagingToExecution img_size]))

/-- The hardware `H` with `FlashCV_CopyImageToApp` given by
`Spec_FlashCV_CopyImageToApp`; every other primitive is that of `H` and
leaves the list of steps alone, except `FlashCV_EraseAppArea`, which records
its step. -/
def Spec_CommitHw (H : Hw W) (copy : Nat → W → HAL_StatusTypeDef × W) :
    Hw (W × List Spec_CommitStep) :=
  { HAL_FLASH_Unlock := fun x => (H.HAL_FLASH_Unlock x.1, x.2)
    HAL_FLASH_Lock := fun x => (H.HAL_FLASH_Lock x.1, x.2)
    HAL_FLASHEx_Erase := fun a b x =>
      ((H.HAL_FLASHEx_Erase a b x.1).1, (H.HAL_FLASHEx_Erase a b x.1).2.1,
        ((H.HAL_FLASHEx_Erase a b x.1).2.2, x.2))
    HAL_FLASH_Program := fun a d x =>
      ((H.HAL_FLASH_Program a d x.1).1, ((H.HAL_FLASH_Program a d x.1).2, x.2))
    FlashCV_ReadMeta := fun x => H.FlashCV_ReadMeta x.1
    FlashCV_WriteMeta := fun r x =>
      ((H.FlashCV_WriteMeta r x.1).1, ((H.FlashCV_WriteMeta r x.1).2, x.2))
    FlashCV_ClearMetaFlag := fun x =>
      ((H.FlashCV_ClearMetaFlag x.1).1, ((H.FlashCV_ClearMetaFlag x.1).2, x.2))
    FlashCV_EraseAppArea := fun x =>
      ((H.FlashCV_EraseAppArea x.1).1,
        ((H.FlashCV_EraseAppArea x.1).2, x.2 ++ [Spec_CommitStep.EraseExecutionRegion]))
    FlashCV_CopyImageToApp := Spec_FlashCV_CopyImageToApp H copy
    FlashCV_CalcCRC := fun a n x => H.FlashCV_CalcCRC a n x.1 }

end CommitModel

section PendingFinish
variable {W : Type}

/-- A finish request for the image `(T, C, V)` is pending: the deferred
finisher is armed, the state is `UPDATE_FINISH_REQUESTED`, the session holds
`total_size = T`, `image_crc = C`, `version = V`, and the sub-state is
`UPROC_VERIFYING`, or `UPROC_WRITE_META` with the CRC of the first `T` bytes
of the download region equal to `C` on the present hardware state. -/
def Update_Pending (H : Hw W) (T C V : Nat) (x : UpdateVars × Sys W) : Prop :=
  x.1.g_finish_request ≠ 0 ∧ x.1.g_ctx.state = UPDATE_FINISH_REQUESTED ∧
    x.1.g_ctx.total_size = T ∧ x.1.g_ctx.image_crc = C ∧ x.1.g_ctx.version = V ∧
    (x.1.g_proc_state = UPROC_VERIFYING ∨
      (x.1.g_proc_state = UPROC_WRITE_META ∧
        H.FlashCV_CalcCRC FLASH_DOWNLOAD_START_ADDR T x.2.w = C))

end PendingFinish

/-! ## Stores within the receiver arrays -/

/-- The call of `Comm_OnByteReceived` made in `s` stores within the arrays:
in `RX_STATE_DATA` the index `rx_index` is inside `rx_buf`, and in the trailer
states `crc_index` is inside `crc_bytes`.  The other states store into no
array.  Outside this condition the C program writes out of bounds and its
behaviour is undefined; `Comm_OnByteReceived` then only shows the variables
with the store left out. -/
def Comm_StoreInRange (s : RxCtx) : Prop :=
  (s.rx_state = RX_STATE_DATA → s.rx_index < COMM_MAX_PAYLOAD_LEN) ∧
    (s.rx_state = RX_STATE_CRC0 ∨ s.rx_state = RX_STATE_CRC1 ∨ s.rx_state = RX_STATE_CRC2 ∨
      s.rx_state = RX_STATE_CRC3 → s.crc_index < 4)

/-- Decision procedure for `Comm_StoreInRange`. -/
instance Comm_StoreInRange.decidable (s : RxCtx) : Decidable (Comm_StoreInRange s) := by
  unfold Comm_StoreInRange
  exact inferInstance

/-- Every call of `Comm_OnByteReceived` made while the bytes are fed from `s`
stores within the arrays. -/
def Comm_FeedInRange (crc32 : List Nat → Nat) : RxCtx → List Nat → Prop
  | _, [] => True
  | s, ch :: rest =>
    Comm_StoreInRange s ∧ Comm_FeedInRange crc32 (Comm_OnByteReceived crc32 s ch).1 rest

/-- Decision procedure for `Comm_FeedInRange`. -/
instance Comm_FeedInRange.decidable (crc32 : List Nat → Nat) :
    ∀ (s : RxCtx) (bytes : List Nat), Decidable (Comm_FeedInRange crc32 s bytes)
  | _, [] => isTrue trivial
  | s, ch :: rest =>
    have : Decidable (Comm_FeedInRange crc32 (Comm_OnByteReceived crc32 s ch).1 rest) :=
      Comm_FeedInRange.decidable crc32 _ rest
    inferInstanceAs (Decidable (Comm_StoreInRange s ∧
      Comm_FeedInRange crc32 (Comm_OnByteReceived crc32 s ch).1 rest))

/-! # Theorems -/

/-! ## Arithmetic of byte splitting -/

/-- Or-ing a value shifted left by `k` onto a value below `2 ^ k` adds them. -/
theorem or_shiftLeft_eq_add (a b k : Nat) (h : a < 2 ^ k) : a ||| (b <<< k) = a + b * 2 ^ k := by
  rw [Nat.shiftLeft_eq, Nat.or_comm, Nat.mul_comm b, ← Nat.mul_add_lt_is_or h b]
  omega

/-- Masking with `0xFF` keeps the low byte. -/
theorem and_255 (n : Nat) : n &&& 0xFF = n % 256 :=
  Nat.and_pow_two_sub_one_eq_mod n 8

/-- A 16-bit value is recovered from its low and high bytes, as `LEN_L` and
`LEN_H` are recombined by the receiver. -/
theorem u16_join_split (n : Nat) (h : n < 65536) :
    (((n &&& 0xFF) % 256) ||| (((n >>> 8) % 256) <<< 8)) % 65536 = n := by
  rw [and_255, Nat.shiftRight_eq_div_pow, or_shiftLeft_eq_add _ _ 8 (by omega)]
  omega

/-- A 32-bit value is recovered from the four trailer bytes the sender emits,
as the receiver recombines them into `crc_recv`. -/
theorem u32_join_split (c : Nat) (h : c < 2 ^ 32) :
    (((c &&& 0xFF) % 256) ||| ((((c >>> 8) &&& 0xFF) % 256) <<< 8)
      ||| ((((c >>> 16) &&& 0xFF) % 256) <<< 16)
      ||| ((((c >>> 24) &&& 0xFF) % 256) <<< 24)) % 2 ^ 32 = c := by
  simp only [and_255, Nat.shiftRight_eq_div_pow]
  rw [or_shiftLeft_eq_add _ _ 8 (by omega), or_shiftLeft_eq_add _ _ 16 (by omega),
    or_shiftLeft_eq_add _ _ 24 (by omega)]
  omega

/-! ## Frame receiver -/

/-- Feeding `xs ++ ys` is feeding `xs`, then `ys` from the state reached. -/
theorem Comm_FeedBytes_append (crc32 : List Nat → Nat) (xs ys : List Nat) :
    ∀ s : RxCtx, Comm_FeedBytes crc32 s (xs ++ ys) =
      ((Comm_FeedBytes crc32 (Comm_FeedBytes crc32 s xs).1 ys).1,
        (Comm_FeedBytes crc32 s xs).2 ++ (Comm_FeedBytes crc32 (Comm_FeedBytes crc32 s xs).1 ys).2) := by
  induction xs with
  | nil => intro s; simp [Comm_FeedBytes]
  | cons x xs ih => intro s; simp [Comm_FeedBytes, ih, List.append_assoc]

/-- A run that raises no event can be dropped from the front of a longer run,
which then continues from the state reached. -/
theorem Comm_FeedBytes_skip (crc32 : List Nat → Nat) (xs : List Nat) (s s1 : RxCtx)
    (h1 : Comm_FeedBytes crc32 s xs = (s1, [])) (ys : List Nat) :
    Comm_FeedBytes crc32 s (xs ++ ys) = Comm_FeedBytes crc32 s1 ys := by
  rw [Comm_FeedBytes_append, h1]
  simp only [List.nil_append]

/-- Payload phase: in `RX_STATE_DATA` with `rx_index + |xs| = rx_len`, feeding the
non-empty `xs` stores it behind the bytes already received and moves to the trailer. -/
theorem Comm_FeedBytes_data (crc32 : List Nat → Nat) (xs : List Nat) :
    ∀ s : RxCtx, s.rx_state = RX_STATE_DATA → xs ≠ [] →
      s.rx_index + xs.length = s.rx_len → s.rx_len ≤ s.rx_buf.length → s.rx_len < 65536 →
      ∃ buf : List Nat, buf.length = s.rx_buf.length ∧
        buf.take s.rx_len = s.rx_buf.take s.rx_index ++ xs ∧
        Comm_FeedBytes crc32 s xs =
          ({ s with rx_buf := buf, rx_index := s.rx_len, crc_index := 0,
                    rx_state := RX_STATE_CRC0 }, []) := by
  induction xs with
  | nil => intro s _ h; exact absurd rfl h
  | cons x rest ih =>
    intro s hst _ hlen hbuf h16
    simp only [List.length_cons] at hlen
    have hmod : (s.rx_index + 1) % 65536 = s.rx_index + 1 := Nat.mod_eq_of_lt (by omega)
    have htake : (s.rx_buf.set s.rx_index x).take (s.rx_index + 1) =
        s.rx_buf.take s.rx_index ++ [x] := by
      rw [List.set_eq_take_append_cons_drop, if_pos (show s.rx_index < s.rx_buf.length by omega)]
      rw [List.take_append_eq_append_take]
      simp [List.length_take, Nat.min_eq_left (show s.rx_index ≤ s.rx_buf.length by omega)]
    cases rest with
    | nil =>
      simp only [List.length_nil] at hlen
      refine ⟨s.rx_buf.set s.rx_index x, by simp, ?_, ?_⟩
      · rw [← hlen]; simpa using htake
      · have hlen1 : s.rx_index + 1 = s.rx_len := by omega
        simp [Comm_FeedBytes, Comm_OnByteReceived, hst, hlen1, Nat.mod_eq_of_lt h16]
    | cons y rest2 =>
      simp only [List.length_cons] at hlen
      have hstep : Comm_OnByteReceived crc32 s x =
          ({ s with rx_buf := s.rx_buf.set s.rx_index x, rx_index := s.rx_index + 1 }, []) := by
        simp [Comm_OnByteReceived, hst, hmod]
        omega
      obtain ⟨buf, hb1, hb2, hb3⟩ := ih
        { s with rx_buf := s.rx_buf.set s.rx_index x, rx_index := s.rx_index + 1 }
        hst (by simp) (by simp only [List.length_cons]; omega) (by simpa using hbuf) h16
      refine ⟨buf, by simpa using hb1, ?_, ?_⟩
      · rw [hb2]; simp only []; rw [htake]; simp
      · rw [Comm_FeedBytes, hstep]
        simp only [hb3, List.append_nil]

/-- The decision `Comm_OnByteReceived` takes once the trailer is complete, for
receiver variables `s` and the four trailer bytes received. -/
theorem Comm_FeedBytes_trailer (crc32 : List Nat → Nat) (s : RxCtx) (c0 c1 c2 c3 : Nat)
    (hst : s.rx_state = RX_STATE_CRC0) (hci : s.crc_index = 0) (hcb : s.crc_bytes.length = 4) :
    Comm_FeedBytes crc32 s [c0, c1, c2, c3] =
      ({ s with crc_bytes := [c0, c1, c2, c3], crc_index := 4, rx_state := RX_STATE_HEAD1 },
        if Comm_CalcCRC32 crc32
            (some ([s.rx_cmd, s.rx_seq, (s.rx_len &&& 0xFF) % 256, (s.rx_len >>> 8) % 256] ++
              (if s.rx_len > 0 then s.rx_buf.take s.rx_len else [])))
            (if s.rx_len > 0 then (4 + s.rx_len) % 65536 else 4) =
            (c0 ||| (c1 <<< 8) ||| (c2 <<< 16) ||| (c3 <<< 24)) % 2 ^ 32 then
          [CommEvent.HandlePacket s.rx_cmd s.rx_seq (s.rx_buf.take s.rx_len) s.rx_len]
        else [CommEvent.Transmit (Comm_SendAck crc32 s.rx_cmd s.rx_seq COMM_STATUS_FRAME_CRC)]) := by
  rcases s with ⟨st, cmd, seq, len, buf, idx, cb, ci⟩
  simp only at hst hci hcb
  subst hst hci
  rcases cb with _ | ⟨a, _ | ⟨b, _ | ⟨c, _ | ⟨d, _ | ⟨e, t⟩⟩⟩⟩⟩ <;> simp at hcb
  simp [Comm_FeedBytes, Comm_OnByteReceived, Comm_ResetRxState]


/-- The bytes `Comm_SendFrame` emits for a non-null payload of at most
`COMM_MAX_PAYLOAD_LEN` bytes sent in full. -/
theorem Comm_SendFrame_bytes (crc32 : List Nat → Nat) (cmd seq : Nat) (payload : List Nat)
    (hlen : payload.length ≤ COMM_MAX_PAYLOAD_LEN) :
    Comm_SendFrame crc32 cmd seq (some payload) payload.length =
      [COMM_HEAD1, COMM_HEAD2, cmd, seq, (payload.length &&& 0xFF) % 256,
        (payload.length >>> 8) % 256] ++
      (payload ++
        [((crc32 ([cmd, seq, (payload.length &&& 0xFF) % 256, (payload.length >>> 8) % 256]
              ++ payload) % 2 ^ 32) &&& 0xFF) % 256,
         (((crc32 ([cmd, seq, (payload.length &&& 0xFF) % 256, (payload.length >>> 8) % 256]
              ++ payload) % 2 ^ 32) >>> 8) &&& 0xFF) % 256,
         (((crc32 ([cmd, seq, (payload.length &&& 0xFF) % 256, (payload.length >>> 8) % 256]
              ++ payload) % 2 ^ 32) >>> 16) &&& 0xFF) % 256,
         (((crc32 ([cmd, seq, (payload.length &&& 0xFF) % 256, (payload.length >>> 8) % 256]
              ++ payload) % 2 ^ 32) >>> 24) &&& 0xFF) % 256]) := by
  have hbody : (if payload.length > 0 then payload.take payload.length else []) = payload := by
    cases payload <;> simp
  have hpos : (if payload.length > 0 then (4 + payload.length) % 65536 else 4) =
      4 + payload.length := by
    have hn : payload.length ≤ 1024 := hlen
    split <;> omega
  have htk : ∀ a b c d : Nat,
      List.take (4 + payload.length) (a :: b :: c :: d :: payload) = a :: b :: c :: d :: payload := by
    intro a b c d
    apply List.take_of_length_le
    simp only [List.length_cons]
    omega
  simp only [Comm_SendFrame, hbody, hpos, Comm_CalcCRC32]
  simp [htk]

/-- Header phase: from `RX_STATE_HEAD1`, the six header bytes of a frame whose
length field encodes `n ≤ COMM_MAX_PAYLOAD_LEN`. -/
theorem Comm_FeedBytes_header (crc32 : List Nat → Nat) (s : RxCtx) (cmd seq n : Nat)
    (hst : s.rx_state = RX_STATE_HEAD1) (hn : n ≤ COMM_MAX_PAYLOAD_LEN) :
    Comm_FeedBytes crc32 s
        [COMM_HEAD1, COMM_HEAD2, cmd, seq, (n &&& 0xFF) % 256, (n >>> 8) % 256] =
      ({ s with rx_cmd := cmd, rx_seq := seq, rx_len := n, rx_index := 0,
                rx_state := if n = 0 then RX_STATE_CRC0 else RX_STATE_DATA }, []) := by
  have hj := u16_join_split n (by unfold COMM_MAX_PAYLOAD_LEN at hn; omega)
  have hn' : ¬ n > COMM_MAX_PAYLOAD_LEN := by omega
  simp [Comm_FeedBytes, Comm_OnByteReceived, hst, hj, hn']


/-- A frame emitted by `Comm_SendFrame`, fed to a receiver that waits in
`RX_STATE_HEAD1` with intact buffers (and `crc_index = 0` when the payload is
empty), is dispatched once and unchanged to `Comm_HandlePacket`. -/
theorem Comm_FeedBytes_frame (crc32 : List Nat → Nat) (s : RxCtx) (cmd seq : Nat)
    (payload : List Nat) (hst : s.rx_state = RX_STATE_HEAD1)
    (hci : payload = [] → s.crc_index = 0) (hcb : s.crc_bytes.length = 4)
    (hbuf : s.rx_buf.length = COMM_MAX_PAYLOAD_LEN)
    (hlen : payload.length ≤ COMM_MAX_PAYLOAD_LEN) :
    ∃ s2 : RxCtx,
      Comm_FeedBytes crc32 s (Comm_SendFrame crc32 cmd seq (some payload) payload.length) =
        (s2, [CommEvent.HandlePacket cmd seq payload payload.length]) ∧
      s2.rx_state = RX_STATE_HEAD1 ∧ s2.crc_index = 4 ∧ s2.crc_bytes.length = 4 ∧
      s2.rx_buf.length = COMM_MAX_PAYLOAD_LEN := by
  have hn : payload.length ≤ 1024 := hlen
  have hn16 : payload.length < 65536 := by omega
  rw [Comm_SendFrame_bytes crc32 cmd seq payload hlen]
  have hhead := Comm_FeedBytes_header crc32 s cmd seq payload.length hst hlen
  have h32 : ∀ c : Nat,
      ((c % 4294967296 &&& 255) % 256 ||| (((c % 4294967296) >>> 8 &&& 255) % 256) <<< 8 |||
        (((c % 4294967296) >>> 16 &&& 255) % 256) <<< 16 |||
        (((c % 4294967296) >>> 24 &&& 255) % 256) <<< 24) % 4294967296 = c % 4294967296 :=
    fun c => u32_join_split (c % 2 ^ 32) (Nat.mod_lt _ (by norm_num))
  have hpos : (4 + payload.length) % 65536 = 4 + payload.length := Nat.mod_eq_of_lt (by omega)
  have htk : ∀ a b c d : Nat,
      List.take (4 + payload.length) (a :: b :: c :: d :: payload) = a :: b :: c :: d :: payload := by
    intro a b c d
    apply List.take_of_length_le
    simp only [List.length_cons]
    omega
  by_cases hp : payload = []
  · have hc0 : s.crc_index = 0 := hci hp
    subst hp
    simp only [List.length_nil, if_true, List.nil_append] at hhead ⊢
    have ht := fun c0 c1 c2 c3 : Nat => Comm_FeedBytes_trailer crc32
      { s with rx_cmd := cmd, rx_seq := seq, rx_len := 0, rx_index := 0,
               rx_state := RX_STATE_CRC0 } c0 c1 c2 c3 rfl hc0 hcb
    rw [Comm_FeedBytes_skip crc32 _ _ _ hhead, ht, if_pos]
    · exact ⟨_, Prod.ext rfl (by simp), rfl, rfl, rfl, hbuf⟩
    · simp [Comm_CalcCRC32, h32]
  · have hpos0 : payload.length ≠ 0 := fun h => hp (List.length_eq_zero.mp h)
    simp only [if_neg hpos0] at hhead
    obtain ⟨buf, hb1, hb2, hb3⟩ := Comm_FeedBytes_data crc32 payload
      { s with rx_cmd := cmd, rx_seq := seq, rx_len := payload.length, rx_index := 0,
               rx_state := RX_STATE_DATA }
      rfl hp (by simp) (by simpa [hbuf] using hlen) hn16
    simp only [List.take_zero, List.nil_append] at hb2
    dsimp only at hb1 hb3
    have ht := fun c0 c1 c2 c3 : Nat => Comm_FeedBytes_trailer crc32
      { s with rx_cmd := cmd, rx_seq := seq, rx_len := payload.length, rx_buf := buf,
               rx_index := payload.length, crc_index := 0, rx_state := RX_STATE_CRC0 }
      c0 c1 c2 c3 rfl rfl hcb
    rw [Comm_FeedBytes_skip crc32 _ _ _ hhead, Comm_FeedBytes_skip crc32 _ _ _ hb3, ht, if_pos]
    · exact ⟨_, Prod.ext rfl (by simp [hb2]), rfl, rfl, rfl, hb1.trans hbuf⟩
    · simp [Comm_CalcCRC32, hb2, hpos, htk, h32, hpos0, Nat.pos_of_ne_zero hpos0]

/-- C1 (frame round-trip on a fresh receiver).  For every `cmd`, `seq` and
payload of at most `COMM_MAX_PAYLOAD_LEN` bytes, `Comm_SendFrame` emits the
frame layout of the specification, and feeding those bytes one by one to
`Comm_OnByteReceived`, starting from the initial receiver variables, calls
`Comm_HandlePacket` exactly once, with `(cmd, seq, payload, len)`, transmits
nothing (no CRC-error acknowledgment) and leaves the receiver in
`RX_STATE_HEAD1`. -/
theorem frame_round_trip (crc32 : List Nat → Nat) (cmd seq : Nat) (payload : List Nat)
    (_hcmd : cmd < 256) (_hseq : seq < 256) (_hpay : ∀ b ∈ payload, b < 256)
    (hlen : payload.length ≤ COMM_MAX_PAYLOAD_LEN) :
    Comm_SendFrame crc32 cmd seq (some payload) payload.length =
        Spec_Frame crc32 cmd seq payload ∧
      (Comm_FeedBytes crc32 RxCtx.initial
          (Comm_SendFrame crc32 cmd seq (some payload) payload.length)).2 =
        [CommEvent.HandlePacket cmd seq payload payload.length] ∧
      (Comm_FeedBytes crc32 RxCtx.initial
          (Comm_SendFrame crc32 cmd seq (some payload) payload.length)).1.rx_state =
        RX_STATE_HEAD1 := by
  refine ⟨?_, ?_⟩
  · have hn : payload.length ≤ 1024 := hlen
    rw [Comm_SendFrame_bytes crc32 cmd seq payload hlen]
    have h1 : payload.length / 2 ^ 8 % 256 = payload.length / 256 := by omega
    simp only [Spec_Frame, Spec_le32, and_255, Nat.shiftRight_eq_div_pow, h1, COMM_HEAD1,
      COMM_HEAD2, Nat.mod_mod, List.append_assoc]
  · obtain ⟨s', h, hst, _⟩ := Comm_FeedBytes_frame crc32 RxCtx.initial cmd seq payload rfl
      (fun _ => rfl) (by simp [RxCtx.initial]) (by simp [RxCtx.initial]) hlen
    rw [h]
    exact ⟨rfl, hst⟩

/-- Witness for C1: the frame `cmd = 3`, `seq = 7`, payload `[0, 0, 0, 0, 0xAB]`
under a sample checksum. -/
theorem frame_round_trip_witness :
    Comm_SendFrame (fun l => l.sum * 16777259 + 5) 3 7 (some [0, 0, 0, 0, 0xAB]) 5 =
        Spec_Frame (fun l => l.sum * 16777259 + 5) 3 7 [0, 0, 0, 0, 0xAB] ∧
      (Comm_FeedBytes (fun l => l.sum * 16777259 + 5) RxCtx.initial
          (Comm_SendFrame (fun l => l.sum * 16777259 + 5) 3 7 (some [0, 0, 0, 0, 0xAB]) 5)).2 =
        [CommEvent.HandlePacket 3 7 [0, 0, 0, 0, 0xAB] 5] ∧
      (Comm_FeedBytes (fun l => l.sum * 16777259 + 5) RxCtx.initial
          (Comm_SendFrame (fun l => l.sum * 16777259 + 5) 3 7 (some [0, 0, 0, 0, 0xAB]) 5)).1.rx_state =
        RX_STATE_HEAD1 :=
  frame_round_trip (fun l => l.sum * 16777259 + 5) 3 7 [0, 0, 0, 0, 0xAB] (by decide) (by decide)
    (by decide) (by decide)

/-- C2 (update completeness gate).  For every value of the session variables,
`Update_RequestFinish` returns `HAL_OK` exactly when the state is
`UPDATE_RECEIVING` and `received_size = total_size`; on `HAL_OK` the state
becomes `UPDATE_FINISH_REQUESTED`, the armed flag is 1, the sub-state is
`UPROC_VERIFYING` and nothing else changes; on any other status (in
particular whenever `received_size ≠ total_size`, where the status is
`HAL_ERROR`) no variable changes. -/
theorem Update_RequestFinish_gate (s : UpdateVars) :
    ((Update_RequestFinish s).1 = HAL_OK ↔
        s.g_ctx.state = UPDATE_RECEIVING ∧ s.g_ctx.received_size = s.g_ctx.total_size) ∧
      ((Update_RequestFinish s).1 = HAL_OK →
        (Update_RequestFinish s).2 =
          { s with
              g_finish_request := 1
              g_proc_state := UPROC_VERIFYING
              g_ctx := { s.g_ctx with state := UPDATE_FINISH_REQUESTED } }) ∧
      ((Update_RequestFinish s).1 ≠ HAL_OK →
        (Update_RequestFinish s).1 = HAL_ERROR ∧ (Update_RequestFinish s).2 = s) ∧
      (s.g_ctx.received_size ≠ s.g_ctx.total_size →
        (Update_RequestFinish s).1 = HAL_ERROR ∧ (Update_RequestFinish s).2 = s) := by
  unfold Update_RequestFinish
  by_cases h1 : s.g_ctx.state = UPDATE_RECEIVING <;>
    by_cases h2 : s.g_ctx.received_size = s.g_ctx.total_size <;> simp [h1, h2]

/-! ## The 32-bit range checks -/

/-- What the size check of `Bootloader_CheckAndUpgrade` rejects among the
32-bit sizes: 0 and the sizes above the application capacity `0x18000` up to
`0xF7FF7FFF`.  From `0xF7FF8000` on both sums wrap around and the size is let
through. -/
theorem Bootloader_size_rejected_iff (n : Nat) (h : n < 2 ^ 32) :
    Bootloader_size_rejected n ↔ n = 0 ∨ (0x18000 < n ∧ n < 0xF7FF8000) := by
  unfold Bootloader_size_rejected FLASH_DOWNLOAD_START_ADDR FLASH_DOWNLOAD_END_ADDR
    FLASH_APP_START_ADDR FLASH_APP_END_ADDR
  omega

/-- What the capacity check of `Update_Start` rejects among the nonzero 32-bit
sizes: those above the download capacity `0x40000` up to `0xF7FDFFFF`.  From
`0xF7FE0000` on the sum wraps around and the size is let through. -/
theorem Update_Start_rejected_iff (n : Nat) (h : n < 2 ^ 32) :
    (FLASH_DOWNLOAD_START_ADDR + n) % 2 ^ 32 > (FLASH_DOWNLOAD_END_ADDR + 1) % 2 ^ 32 ↔
      0x40000 < n ∧ n < 0xF7FE0000 := by
  unfold FLASH_DOWNLOAD_START_ADDR FLASH_DOWNLOAD_END_ADDR
  omega

/-! ## Boot-time committer -/

/-- The record `Bootloader_CheckAndUpgrade` reads and the four conditions it
tests after the flag test, on hardware state `w`: the size check passes, the
CRC of the download region matches, the copy returns `HAL_OK`, and the CRC of
the application region after the copy matches. -/
theorem Bootloader_CheckAndUpgrade_cases {W : Type} (H : Hw W) (m : Sys W) :
    (H.FlashCV_ReadMeta m.w).flag ≠ UPGRADE_FLAG_VALID ∧
        Bootloader_CheckAndUpgrade H m =
          { w := m.w, calls := m.calls ++ [HwCall.FlashCV_ReadMeta] } ∨
      (H.FlashCV_ReadMeta m.w).flag = UPGRADE_FLAG_VALID ∧
        Bootloader_size_rejected (H.FlashCV_ReadMeta m.w).image_size ∧
        Bootloader_CheckAndUpgrade H m =
          { w := m.w, calls := m.calls ++ [HwCall.FlashCV_ReadMeta] } ∨
      (H.FlashCV_ReadMeta m.w).flag = UPGRADE_FLAG_VALID ∧
        ¬ Bootloader_size_rejected (H.FlashCV_ReadMeta m.w).image_size ∧
        H.FlashCV_CalcCRC FLASH_DOWNLOAD_START_ADDR (H.FlashCV_ReadMeta m.w).image_size m.w ≠
          (H.FlashCV_ReadMeta m.w).image_crc ∧
        Bootloader_CheckAndUpgrade H m =
          { w := m.w
            calls := m.calls ++ [HwCall.FlashCV_ReadMeta,
              HwCall.FlashCV_CalcCRC FLASH_DOWNLOAD_START_ADDR
                (H.FlashCV_ReadMeta m.w).image_size] } ∨
      (H.FlashCV_ReadMeta m.w).flag = UPGRADE_FLAG_VALID ∧
        ¬ Bootloader_size_rejected (H.FlashCV_ReadMeta m.w).image_size ∧
        H.FlashCV_CalcCRC FLASH_DOWNLOAD_START_ADDR (H.FlashCV_ReadMeta m.w).image_size m.w =
          (H.FlashCV_ReadMeta m.w).image_crc ∧
        (H.FlashCV_CopyImageToApp (H.FlashCV_ReadMeta m.w).image_size m.w).1 ≠ HAL_OK ∧
        Bootloader_CheckAndUpgrade H m =
          { w := (H.FlashCV_CopyImageToApp (H.FlashCV_ReadMeta m.w).image_size m.w).2
            calls := m.calls ++ [HwCall.FlashCV_ReadMeta,
              HwCall.FlashCV_CalcCRC FLASH_DOWNLOAD_START_ADDR
                (H.FlashCV_ReadMeta m.w).image_size,
              HwCall.FlashCV_CopyImageToApp (H.FlashCV_ReadMeta m.w).image_size] } ∨
      (H.FlashCV_ReadMeta m.w).flag = UPGRADE_FLAG_VALID ∧
        ¬ Bootloader_size_rejected (H.FlashCV_ReadMeta m.w).image_size ∧
        H.FlashCV_CalcCRC FLASH_DOWNLOAD_START_ADDR (H.FlashCV_ReadMeta m.w).image_size m.w =
          (H.FlashCV_ReadMeta m.w).image_crc ∧
        (H.FlashCV_CopyImageToApp (H.FlashCV_ReadMeta m.w).image_size m.w).1 = HAL_OK ∧
        H.FlashCV_CalcCRC FLASH_APP_START_ADDR (H.FlashCV_ReadMeta m.w).image_size
            (H.FlashCV_CopyImageToApp (H.FlashCV_ReadMeta m.w).image_size m.w).2 ≠
          (H.FlashCV_ReadMeta m.w).image_crc ∧
        Bootloader_CheckAndUpgrade H m =
          { w := (H.FlashCV_CopyImageToApp (H.FlashCV_ReadMeta m.w).image_size m.w).2
            calls := m.calls ++ [HwCall.FlashCV_ReadMeta,
              HwCall.FlashCV_CalcCRC FLASH_DOWNLOAD_START_ADDR
                (H.FlashCV_ReadMeta m.w).image_size,
              HwCall.FlashCV_CopyImageToApp (H.FlashCV_ReadMeta m.w).image_size,
              HwCall.FlashCV_CalcCRC FLASH_APP_START_ADDR
                (H.FlashCV_ReadMeta m.w).image_size] } ∨
      (H.FlashCV_ReadMeta m.w).flag = UPGRADE_FLAG_VALID ∧
        ¬ Bootloader_size_rejected (H.FlashCV_ReadMeta m.w).image_size ∧
        H.FlashCV_CalcCRC FLASH_DOWNLOAD_START_ADDR (H.FlashCV_ReadMeta m.w).image_size m.w =
          (H.FlashCV_ReadMeta m.w).image_crc ∧
        (H.FlashCV_CopyImageToApp (H.FlashCV_ReadMeta m.w).image_size m.w).1 = HAL_OK ∧
        H.FlashCV_CalcCRC FLASH_APP_START_ADDR (H.FlashCV_ReadMeta m.w).image_size
            (H.FlashCV_CopyImageToApp (H.FlashCV_ReadMeta m.w).image_size m.w).2 =
          (H.FlashCV_ReadMeta m.w).image_crc ∧
        Bootloader_CheckAndUpgrade H m =
          { w := (H.FlashCV_ClearMetaFlag
              (H.FlashCV_CopyImageToApp (H.FlashCV_ReadMeta m.w).image_size m.w).2).2
            calls := m.calls ++ [HwCall.FlashCV_ReadMeta,
              HwCall.FlashCV_CalcCRC FLASH_DOWNLOAD_START_ADDR
                (H.FlashCV_ReadMeta m.w).image_size,
              HwCall.FlashCV_CopyImageToApp (H.FlashCV_ReadMeta m.w).image_size,
              HwCall.FlashCV_CalcCRC FLASH_APP_START_ADDR
                (H.FlashCV_ReadMeta m.w).image_size,
              HwCall.FlashCV_ClearMetaFlag] } := by
  unfold Bootloader_CheckAndUpgrade
  simp only [Sys.FlashCV_ReadMeta, Sys.FlashCV_CalcCRC, Sys.FlashCV_CopyImageToApp,
    Sys.FlashCV_ClearMetaFlag]
  by_cases h1 : (H.FlashCV_ReadMeta m.w).flag = UPGRADE_FLAG_VALID
  · by_cases h2 : Bootloader_size_rejected (H.FlashCV_ReadMeta m.w).image_size
    · simp [h1, h2]
    · by_cases h3 : H.FlashCV_CalcCRC FLASH_DOWNLOAD_START_ADDR
          (H.FlashCV_ReadMeta m.w).image_size m.w = (H.FlashCV_ReadMeta m.w).image_crc
      · by_cases h4 : (H.FlashCV_CopyImageToApp (H.FlashCV_ReadMeta m.w).image_size m.w).1
            = HAL_OK
        · by_cases h5 : H.FlashCV_CalcCRC FLASH_APP_START_ADDR
              (H.FlashCV_ReadMeta m.w).image_size
              (H.FlashCV_CopyImageToApp (H.FlashCV_ReadMeta m.w).image_size m.w).2
              = (H.FlashCV_ReadMeta m.w).image_crc
          · simp [h1, h2, h3, h4, h5]
          · simp [h1, h2, h3, h4, h5]
        · simp [h1, h2, h3, h4]
      · simp [h1, h2, h3]
  · simp [h1]

/-- C3 (the flag is flipped only after full verification).  For every
hardware (every outcome of the flash and CRC primitives) and every stored
record, the calls one run of `Bootloader_CheckAndUpgrade` adds to the log
contain `FlashCV_ClearMetaFlag` if and only if the flag is `VALID`, the size
check passed, the CRC of the download region matched, the copy returned
`HAL_OK` and the CRC of the application region matched; the run never calls
`FlashCV_WriteMeta`; and when the conditions fail, no metadata-writing
primitive has acted on the hardware state: it is the initial one or the one
left by the copy, so on a hardware whose copy leaves the stored record alone
the record read back is the one read at the start. -/
theorem Bootloader_flag_flipped_iff_verified {W : Type} (H : Hw W) (m : Sys W) :
    ∃ run : List HwCall,
      (Bootloader_CheckAndUpgrade H m).calls = m.calls ++ run ∧
      (HwCall.FlashCV_ClearMetaFlag ∈ run ↔ Spec_CommitConditions H m.w) ∧
      (∀ r : BootMeta_t, HwCall.FlashCV_WriteMeta r ∉ run) ∧
      (Spec_CommitConditions H m.w →
        (Bootloader_CheckAndUpgrade H m).w =
          (H.FlashCV_ClearMetaFlag
            (H.FlashCV_CopyImageToApp (H.FlashCV_ReadMeta m.w).image_size m.w).2).2) ∧
      (¬ Spec_CommitConditions H m.w →
        (Bootloader_CheckAndUpgrade H m).w = m.w ∨
        (Bootloader_CheckAndUpgrade H m).w =
          (H.FlashCV_CopyImageToApp (H.FlashCV_ReadMeta m.w).image_size m.w).2) ∧
      ((∀ (n : Nat) (w : W),
          H.FlashCV_ReadMeta (H.FlashCV_CopyImageToApp n w).2 = H.FlashCV_ReadMeta w) →
        ¬ Spec_CommitConditions H m.w →
        H.FlashCV_ReadMeta (Bootloader_CheckAndUpgrade H m).w = H.FlashCV_ReadMeta m.w) := by
  unfold Spec_CommitConditions
  rcases Bootloader_CheckAndUpgrade_cases H m with
    ⟨h1, h⟩ | ⟨h1, h2, h⟩ | ⟨h1, h2, h3, h⟩ | ⟨h1, h2, h3, h4, h⟩ | ⟨h1, h2, h3, h4, h5, h⟩ |
    ⟨h1, h2, h3, h4, h5, h⟩
  all_goals
    rw [h]
    refine ⟨_, rfl, ?_⟩
    simp [h1]
  all_goals
    simp_all

/-- C4 (corruption abort).  When the flag read is `VALID`, the size passes
the size check and the CRC of the download region over `image_size` bytes
differs from `image_crc`, one run of `Bootloader_CheckAndUpgrade` makes
exactly two calls, the metadata read and that CRC computation: no erase, no
copy, no metadata write, and the hardware state is the one it started from. -/
theorem Bootloader_corruption_abort {W : Type} (H : Hw W) (m : Sys W)
    (hflag : (H.FlashCV_ReadMeta m.w).flag = UPGRADE_FLAG_VALID)
    (hsize : ¬ Bootloader_size_rejected (H.FlashCV_ReadMeta m.w).image_size)
    (hcrc : H.FlashCV_CalcCRC FLASH_DOWNLOAD_START_ADDR (H.FlashCV_ReadMeta m.w).image_size m.w ≠
      (H.FlashCV_ReadMeta m.w).image_crc) :
    (Bootloader_CheckAndUpgrade H m).w = m.w ∧
      (Bootloader_CheckAndUpgrade H m).calls =
        m.calls ++ [HwCall.FlashCV_ReadMeta,
          HwCall.FlashCV_CalcCRC FLASH_DOWNLOAD_START_ADDR (H.FlashCV_ReadMeta m.w).image_size] ∧
      H.FlashCV_ReadMeta (Bootloader_CheckAndUpgrade H m).w = H.FlashCV_ReadMeta m.w := by
  rcases Bootloader_CheckAndUpgrade_cases H m with
    ⟨h1, _⟩ | ⟨_, h2, _⟩ | ⟨_, _, _, h⟩ | ⟨_, _, h3, _⟩ | ⟨_, _, h3, _⟩ | ⟨_, _, h3, _⟩
  · exact absurd hflag h1
  · exact absurd h2 hsize
  · rw [h]; exact ⟨rfl, rfl, rfl⟩
  · exact absurd h3 hcrc
  · exact absurd h3 hcrc
  · exact absurd h3 hcrc

/-- Witness for C4: a `VALID` record of 1024 bytes with `image_crc = 8` on a
hardware whose CRC unit answers 9. -/
theorem Bootloader_corruption_abort_witness :
    (Bootloader_CheckAndUpgrade (simHw 9)
        { w := { flag := UPGRADE_FLAG_VALID, image_size := 1024, image_crc := 8, version := 1,
                 reserved := [0, 0, 0, 0] }, calls := [] }).w =
        { flag := UPGRADE_FLAG_VALID, image_size := 1024, image_crc := 8, version := 1,
          reserved := [0, 0, 0, 0] } ∧
      (Bootloader_CheckAndUpgrade (simHw 9)
        { w := { flag := UPGRADE_FLAG_VALID, image_size := 1024, image_crc := 8, version := 1,
                 reserved := [0, 0, 0, 0] }, calls := [] }).calls =
        [] ++ [HwCall.FlashCV_ReadMeta,
          HwCall.FlashCV_CalcCRC FLASH_DOWNLOAD_START_ADDR 1024] ∧
      (simHw 9).FlashCV_ReadMeta (Bootloader_CheckAndUpgrade (simHw 9)
        { w := { flag := UPGRADE_FLAG_VALID, image_size := 1024, image_crc := 8, version := 1,
                 reserved := [0, 0, 0, 0] }, calls := [] }).w =
        { flag := UPGRADE_FLAG_VALID, image_size := 1024, image_crc := 8, version := 1,
          reserved := [0, 0, 0, 0] } :=
  Bootloader_corruption_abort (simHw 9)
    { w := { flag := UPGRADE_FLAG_VALID, image_size := 1024, image_crc := 8, version := 1,
             reserved := [0, 0, 0, 0] }, calls := [] }
    rfl (by decide) (by decide)

/-- C5, evaluated at the failing input.  The record has flag `VALID` and
`image_size = 0xF7FF8000`, which is nonzero, below `2 ^ 32` and larger than
both the download capacity `0x40000` and the application capacity `0x18000`;
both 32-bit sums of the size check wrap around, the check lets the size pass,
and on a hardware whose CRC unit answers `image_crc` the run copies the image
and flips the flag. -/
theorem Bootloader_size_check_wraps :
    (0xF7FF8000 : Nat) ≠ 0 ∧ (0xF7FF8000 : Nat) < 2 ^ 32 ∧
      (0xF7FF8000 : Nat) > FLASH_DOWNLOAD_END_ADDR + 1 - FLASH_DOWNLOAD_START_ADDR ∧
      (0xF7FF8000 : Nat) > FLASH_APP_END_ADDR + 1 - FLASH_APP_START_ADDR ∧
      ¬ Bootloader_size_rejected 0xF7FF8000 ∧
      (Bootloader_CheckAndUpgrade (simHw 9)
        { w := { flag := UPGRADE_FLAG_VALID, image_size := 0xF7FF8000, image_crc := 9,
                 version := 1, reserved := [0, 0, 0, 0] }, calls := [] }).calls =
        [HwCall.FlashCV_ReadMeta,
          HwCall.FlashCV_CalcCRC FLASH_DOWNLOAD_START_ADDR 0xF7FF8000,
          HwCall.FlashCV_CopyImageToApp 0xF7FF8000,
          HwCall.FlashCV_CalcCRC FLASH_APP_START_ADDR 0xF7FF8000,
          HwCall.FlashCV_ClearMetaFlag] ∧
      (Bootloader_CheckAndUpgrade (simHw 9)
        { w := { flag := UPGRADE_FLAG_VALID, image_size := 0xF7FF8000, image_crc := 9,
                 version := 1, reserved := [0, 0, 0, 0] }, calls := [] }).w.flag =
        UPGRADE_FLAG_DONE := by
  decide

/-- C6 (no pending update, no flash write).  When the flag read is not
`VALID` (`EMPTY`, `DONE` or any other value), one run of
`Bootloader_CheckAndUpgrade` makes the metadata read and no other call, and
the hardware state is the one it started from. -/
theorem Bootloader_no_pending_update {W : Type} (H : Hw W) (m : Sys W)
    (hflag : (H.FlashCV_ReadMeta m.w).flag ≠ UPGRADE_FLAG_VALID) :
    (Bootloader_CheckAndUpgrade H m).w = m.w ∧
      (Bootloader_CheckAndUpgrade H m).calls = m.calls ++ [HwCall.FlashCV_ReadMeta] := by
  rcases Bootloader_CheckAndUpgrade_cases H m with
    ⟨_, h⟩ | ⟨h1, _⟩ | ⟨h1, _⟩ | ⟨h1, _⟩ | ⟨h1, _⟩ | ⟨h1, _⟩
  · rw [h]; exact ⟨rfl, rfl⟩
  all_goals exact absurd h1 hflag

/-- Witness for C6: the boot that follows a commit.  The first run flips the
flag of a verified record to `DONE`; the second run, started on the hardware
state the first one left, only reads the metadata. -/
theorem Bootloader_no_pending_update_witness :
    (Bootloader_CheckAndUpgrade (simHw 9)
        (Bootloader_CheckAndUpgrade (simHw 9)
          { w := { flag := UPGRADE_FLAG_VALID, image_size := 1024, image_crc := 9, version := 1,
                   reserved := [0, 0, 0, 0] }, calls := [] })).w =
        (Bootloader_CheckAndUpgrade (simHw 9)
          { w := { flag := UPGRADE_FLAG_VALID, image_size := 1024, image_crc := 9, version := 1,
                   reserved := [0, 0, 0, 0] }, calls := [] }).w ∧
      (Bootloader_CheckAndUpgrade (simHw 9)
        (Bootloader_CheckAndUpgrade (simHw 9)
          { w := { flag := UPGRADE_FLAG_VALID, image_size := 1024, image_crc := 9, version := 1,
                   reserved := [0, 0, 0, 0] }, calls := [] })).calls =
        (Bootloader_CheckAndUpgrade (simHw 9)
          { w := { flag := UPGRADE_FLAG_VALID, image_size := 1024, image_crc := 9, version := 1,
                   reserved := [0, 0, 0, 0] }, calls := [] }).calls ++ [HwCall.FlashCV_ReadMeta] :=
  Bootloader_no_pending_update (simHw 9)
    (Bootloader_CheckAndUpgrade (simHw 9)
      { w := { flag := UPGRADE_FLAG_VALID, image_size := 1024, image_crc := 9, version := 1,
               reserved := [0, 0, 0, 0] }, calls := [] })
    (by decide)

/-! ## Update session manager -/

/-- The loop of `Update_ReceiveChunk` reports `some status` only for a status
other than `HAL_OK`. -/
theorem Update_ReceiveChunk_loop_status {W : Type} (H : Hw W) (data : List Nat) (len : Nat)
    (addr i : Nat) (m : Sys W) (st : HAL_StatusTypeDef)
    (h : (Update_ReceiveChunk_loop H data len addr i m).1 = some st) : st ≠ HAL_OK := by
  induction addr, i, m using Update_ReceiveChunk_loop.induct H data len with
  | case1 addr i m hi r hr =>
    rw [Update_ReceiveChunk_loop, if_pos hi] at h
    simp only [] at h
    rw [if_pos hr] at h
    simp only [Option.some.injEq] at h
    exact h ▸ hr
  | case2 addr i m hi r hr ih =>
    rw [Update_ReceiveChunk_loop, if_pos hi] at h
    simp only [] at h
    rw [if_neg hr] at h
    exact ih h
  | case3 addr i m hi =>
    rw [Update_ReceiveChunk_loop, if_neg hi] at h
    simp at h


/-- The three ways a call of `Update_ReceiveChunk` ends: it returns
`HAL_ERROR` at one of its checks, touching nothing; a program operation fails
and its status is returned, the session unchanged; or the loop runs to its end
and `received_size` is raised to the maximum of its old value and `new_end`. -/
theorem Update_ReceiveChunk_cases {W : Type} (H : Hw W) (offset : Nat)
    (data : Option (List Nat)) (len : Nat) (s : UpdateVars) (m : Sys W) :
    ((s.g_ctx.state ≠ UPDATE_RECEIVING ∨ data = none ∨ len = 0 ∨
          (offset + len) % 2 ^ 32 > s.g_ctx.total_size) ∧
        Update_ReceiveChunk H offset data len s m = (HAL_ERROR, s, m)) ∨
      (∃ d : List Nat, data = some d ∧ s.g_ctx.state = UPDATE_RECEIVING ∧ len ≠ 0 ∧
        (offset + len) % 2 ^ 32 ≤ s.g_ctx.total_size ∧
        ((∃ (st : HAL_StatusTypeDef) (m2 : Sys W),
            Update_ReceiveChunk_loop H d len ((FLASH_DOWNLOAD_START_ADDR + offset) % 2 ^ 32) 0
              (Sys.HAL_FLASH_Unlock H m) = (some st, m2) ∧
            st ≠ HAL_OK ∧ Update_ReceiveChunk H offset data len s m = (st, s, m2)) ∨
          (∃ m2 : Sys W,
            Update_ReceiveChunk_loop H d len ((FLASH_DOWNLOAD_START_ADDR + offset) % 2 ^ 32) 0
              (Sys.HAL_FLASH_Unlock H m) = (none, m2) ∧
            Update_ReceiveChunk H offset data len s m =
              (HAL_OK,
                { s with g_ctx := { s.g_ctx with
                    received_size := max s.g_ctx.received_size ((offset + len) % 2 ^ 32) } },
                Sys.HAL_FLASH_Lock H m2)))) := by
  unfold Update_ReceiveChunk
  by_cases h1 : s.g_ctx.state = UPDATE_RECEIVING
  swap
  · exact Or.inl ⟨Or.inl h1, by rw [if_pos h1]⟩
  rw [if_neg (not_not.mpr h1)]
  cases data with
  | none => exact Or.inl ⟨Or.inr (Or.inl rfl), rfl⟩
  | some d =>
    simp only []
    by_cases h2 : len = 0
    · exact Or.inl ⟨Or.inr (Or.inr (Or.inl h2)), by rw [if_pos h2]⟩
    rw [if_neg h2]
    by_cases h3 : (offset + len) % 2 ^ 32 > s.g_ctx.total_size
    · exact Or.inl ⟨Or.inr (Or.inr (Or.inr h3)), by rw [if_pos h3]⟩
    rw [if_neg h3]
    refine Or.inr ⟨d, rfl, h1, h2, Nat.le_of_not_lt h3, ?_⟩
    generalize hl : Update_ReceiveChunk_loop H d len
      ((FLASH_DOWNLOAD_START_ADDR + offset) % 2 ^ 32) 0 (Sys.HAL_FLASH_Unlock H m) = r
    rcases r with ⟨_ | st, m2⟩
    · refine Or.inr ⟨m2, rfl, ?_⟩
      simp only []
      by_cases h4 : s.g_ctx.received_size < (offset + len) % 2 ^ 32
      · rw [if_pos h4, Nat.max_eq_right (Nat.le_of_lt h4)]
      · rw [if_neg h4, Nat.max_eq_left (Nat.le_of_not_lt h4)]
    · exact Or.inl ⟨st, m2, rfl,
        Update_ReceiveChunk_loop_status H d len _ _ _ st (by rw [hl]), rfl⟩

/-- A call of `Update_ReceiveChunk` that returns `HAL_OK` raises
`received_size` to the maximum of its old value and `new_end`, and changes no
other variable of the session. -/
theorem Update_ReceiveChunk_ok {W : Type} (H : Hw W) (offset : Nat) (data : Option (List Nat))
    (len : Nat) (s : UpdateVars) (m : Sys W)
    (h : (Update_ReceiveChunk H offset data len s m).1 = HAL_OK) :
    (Update_ReceiveChunk H offset data len s m).2.1 =
      { s with g_ctx := { s.g_ctx with
          received_size := max s.g_ctx.received_size ((offset + len) % 2 ^ 32) } } := by
  rcases Update_ReceiveChunk_cases H offset data len s m with
    ⟨_, he⟩ | ⟨d, _, _, _, _, ⟨st, m2, _, hst, he⟩ | ⟨m2, _, he⟩⟩
  · rw [he] at h; cases h
  · rw [he] at h; exact absurd h hst
  · rw [he]

/-- The three ways a call of `Update_Start` ends: it returns `HAL_ERROR` at
one of its two checks, touching nothing; the erase fails, its status is
returned and the state is `UPDATE_IDLE`; or the erase succeeds and the state
is `UPDATE_RECEIVING`. -/
theorem Update_Start_cases {W : Type} (H : Hw W) (total_size crc version : Nat)
    (s : UpdateVars) (m : Sys W) :
    ((total_size = 0 ∨
          (FLASH_DOWNLOAD_START_ADDR + total_size) % 2 ^ 32
            > (FLASH_DOWNLOAD_END_ADDR + 1) % 2 ^ 32) ∧
        Update_Start H total_size crc version s m = (HAL_ERROR, s, m)) ∨
      (total_size ≠ 0 ∧
        (FLASH_DOWNLOAD_START_ADDR + total_size) % 2 ^ 32
          ≤ (FLASH_DOWNLOAD_END_ADDR + 1) % 2 ^ 32 ∧
        (Update_EraseDownloadArea H m).1 ≠ HAL_OK ∧
        Update_Start H total_size crc version s m =
          ((Update_EraseDownloadArea H m).1,
            { s with g_ctx := { state := UPDATE_IDLE, total_size := total_size,
                                image_crc := crc, version := version, received_size := 0 } },
            (Update_EraseDownloadArea H m).2)) ∨
      (total_size ≠ 0 ∧
        (FLASH_DOWNLOAD_START_ADDR + total_size) % 2 ^ 32
          ≤ (FLASH_DOWNLOAD_END_ADDR + 1) % 2 ^ 32 ∧
        (Update_EraseDownloadArea H m).1 = HAL_OK ∧
        Update_Start H total_size crc version s m =
          (HAL_OK,
            { s with g_ctx := { state := UPDATE_RECEIVING, total_size := total_size,
                                image_crc := crc, version := version, received_size := 0 } },
            (Update_EraseDownloadArea H m).2)) := by
  unfold Update_Start
  by_cases h1 : total_size = 0
  · exact Or.inl ⟨Or.inl h1, by rw [if_pos h1]⟩
  rw [if_neg h1]
  by_cases h2 : (FLASH_DOWNLOAD_START_ADDR + total_size) % 2 ^ 32
      > (FLASH_DOWNLOAD_END_ADDR + 1) % 2 ^ 32
  · exact Or.inl ⟨Or.inr h2, by rw [if_pos h2]⟩
  rw [if_neg h2]
  simp only []
  by_cases h3 : (Update_EraseDownloadArea H m).1 = HAL_OK
  · exact Or.inr (Or.inr ⟨h1, Nat.le_of_not_lt h2, h3, by rw [if_neg (not_not.mpr h3)]⟩)
  · exact Or.inr (Or.inl ⟨h1, Nat.le_of_not_lt h2, h3, by rw [if_pos h3]⟩)

/-- Every chunk of a list contributes at most the high-water mark of the list. -/
theorem Spec_HighWater_ge (chunks : List Chunk) (c : Chunk) (h : c ∈ chunks) :
    Spec_ChunkEnd c ≤ Spec_HighWater chunks := by
  induction chunks with
  | nil => cases h
  | cons d rest ih =>
    simp only [Spec_HighWater, List.map_cons, List.foldr_cons]
    rcases List.mem_cons.mp h with rfl | h
    · exact Nat.le_max_left _ _
    · exact Nat.le_trans (ih h) (Nat.le_max_right _ _)

/-- The high-water mark of a list is below every bound of its chunks. -/
theorem Spec_HighWater_le (chunks : List Chunk) (b : Nat)
    (h : ∀ c ∈ chunks, Spec_ChunkEnd c ≤ b) : Spec_HighWater chunks ≤ b := by
  induction chunks with
  | nil => exact Nat.zero_le b
  | cons d rest ih =>
    simp only [Spec_HighWater, List.map_cons, List.foldr_cons]
    exact Nat.max_le.mpr ⟨h d (List.mem_cons_self d rest),
      ih (fun c hc => h c (List.mem_cons_of_mem d hc))⟩

/-- Two lists with the same chunks, in any order and with any repetitions,
have the same high-water mark. -/
theorem Spec_HighWater_congr (chunks chunks2 : List Chunk)
    (h : ∀ c : Chunk, c ∈ chunks ↔ c ∈ chunks2) :
    Spec_HighWater chunks = Spec_HighWater chunks2 :=
  Nat.le_antisymm
    (Spec_HighWater_le chunks _ (fun c hc => Spec_HighWater_ge chunks2 c ((h c).mp hc)))
    (Spec_HighWater_le chunks2 _ (fun c hc => Spec_HighWater_ge chunks c ((h c).mpr hc)))

/-- A run of chunks that all return `HAL_OK` changes no variable of the
session other than `received_size`. -/
theorem Update_ReceiveChunks_frame {W : Type} (H : Hw W) (chunks : List Chunk) :
    ∀ (s : UpdateVars) (m : Sys W) (s2 : UpdateVars) (m2 : Sys W),
      Update_ReceiveChunks H chunks s m = some (s2, m2) →
      ∃ r : Nat, s2 = { s with g_ctx := { s.g_ctx with received_size := r } } := by
  induction chunks with
  | nil =>
    intro s m s2 m2 h
    simp only [Update_ReceiveChunks, Option.some.injEq, Prod.mk.injEq] at h
    exact ⟨s.g_ctx.received_size, by rw [← h.1]⟩
  | cons c rest ih =>
    intro s m s2 m2 h
    rw [Update_ReceiveChunks] at h
    by_cases hok : (Update_ReceiveChunk H c.1 c.2.1 c.2.2 s m).1 = HAL_OK
    · rw [if_pos hok] at h
      obtain ⟨r, hr⟩ := ih _ _ _ _ h
      rw [Update_ReceiveChunk_ok H _ _ _ s m hok] at hr
      exact ⟨r, hr⟩
    · rw [if_neg hok] at h
      cases h

/-- A run of chunks that all return `HAL_OK` and whose ends `offset + len`
are all below `2 ^ 32` raises `received_size` to the maximum of its old value
and the high-water mark of the chunks, and changes no other variable of the
session. -/
theorem Update_ReceiveChunks_ok {W : Type} (H : Hw W) (chunks : List Chunk) :
    ∀ (s : UpdateVars) (m : Sys W) (s2 : UpdateVars) (m2 : Sys W),
      (∀ c ∈ chunks, Spec_ChunkEnd c < 2 ^ 32) →
      Update_ReceiveChunks H chunks s m = some (s2, m2) →
      s2 = { s with g_ctx := { s.g_ctx with
              received_size := max s.g_ctx.received_size (Spec_HighWater chunks) } } := by
  induction chunks with
  | nil =>
    intro s m s2 m2 _ h
    simp only [Update_ReceiveChunks, Option.some.injEq, Prod.mk.injEq] at h
    rw [← h.1]
    simp [Spec_HighWater]
  | cons c rest ih =>
    intro s m s2 m2 hlt h
    rw [Update_ReceiveChunks] at h
    by_cases hok : (Update_ReceiveChunk H c.1 c.2.1 c.2.2 s m).1 = HAL_OK
    · rw [if_pos hok] at h
      have hc : (c.1 + c.2.2) % 2 ^ 32 = c.1 + c.2.2 :=
        Nat.mod_eq_of_lt (hlt c (List.mem_cons_self c rest))
      rw [ih _ _ _ _ (fun x hx => hlt x (List.mem_cons_of_mem c hx)) h,
        Update_ReceiveChunk_ok H _ _ _ s m hok, hc]
      simp only [Spec_HighWater, List.map_cons, List.foldr_cons, Spec_ChunkEnd, Nat.max_assoc]
    · rw [if_neg hok] at h
      cases h

/-- A call of `Update_RequestFinish` that returns `HAL_OK` started in
`UPDATE_RECEIVING` with `received_size = total_size`, and arms the deferred
finisher. -/
theorem Update_RequestFinish_ok (s s3 : UpdateVars)
    (h : Update_RequestFinish s = (HAL_OK, s3)) :
    s.g_ctx.state = UPDATE_RECEIVING ∧ s.g_ctx.received_size = s.g_ctx.total_size ∧
      s3 = { s with
              g_finish_request := 1
              g_proc_state := UPROC_VERIFYING
              g_ctx := { s.g_ctx with state := UPDATE_FINISH_REQUESTED } } := by
  unfold Update_RequestFinish at h
  by_cases h1 : s.g_ctx.state = UPDATE_RECEIVING
  · by_cases h2 : s.g_ctx.received_size = s.g_ctx.total_size
    · rw [if_neg (not_not.mpr h1), if_neg (not_not.mpr h2)] at h
      exact ⟨h1, h2, (Prod.mk.inj h).2.symm⟩
    · rw [if_neg (not_not.mpr h1), if_pos h2] at h
      cases h
  · rw [if_pos h1] at h
    cases h

/-- C7, evaluated at the failing input.  `total_size = 0xF7FE0000` is below
`2 ^ 32` and larger than the download capacity `0x40000`; the 32-bit sum
`FLASH_DOWNLOAD_START_ADDR + total_size` wraps around to 0, the range check of
`Update_Start` lets the size pass, the download region is erased and, the
erase succeeding, `HAL_OK` is returned with the session in `UPDATE_RECEIVING`
for that size. -/
theorem Update_Start_size_check_wraps (s : UpdateVars) (m : Sys BootMeta_t) :
    (0xF7FE0000 : Nat) < 2 ^ 32 ∧
      (0xF7FE0000 : Nat) > FLASH_DOWNLOAD_END_ADDR + 1 - FLASH_DOWNLOAD_START_ADDR ∧
      (FLASH_DOWNLOAD_START_ADDR + 0xF7FE0000) % 2 ^ 32 = 0 ∧
      (Update_Start (simHw 9) 0xF7FE0000 9 7 s m).1 = HAL_OK ∧
      (Update_Start (simHw 9) 0xF7FE0000 9 7 s m).2.1.g_ctx =
        { state := UPDATE_RECEIVING, total_size := 0xF7FE0000, image_crc := 9, version := 7,
          received_size := 0 } ∧
      (Update_Start (simHw 9) 0xF7FE0000 9 7 s m).2.2.calls =
        m.calls ++ [HwCall.HAL_FLASH_Unlock, HwCall.HAL_FLASHEx_Erase FLASH_SECTOR_5 2,
          HwCall.HAL_FLASH_Lock] := by
  refine ⟨by decide, by decide, by decide, ?_, ?_, ?_⟩ <;>
    simp [Update_Start, Update_EraseDownloadArea, Sys.HAL_FLASH_Unlock, Sys.HAL_FLASHEx_Erase,
      Sys.HAL_FLASH_Lock, simHw, FLASH_DOWNLOAD_START_ADDR, FLASH_DOWNLOAD_END_ADDR]

/-- C8, evaluated at the failing input.  The session is in `UPDATE_RECEIVING`
with `total_size = 100`; the chunk has `offset = 0xFFFFFFFF` and `len = 2`, so
the integer sum `offset + len` exceeds `total_size`, but the 32-bit sum is 1.
`Update_ReceiveChunk` passes its range check, programs one word, at address
`0x0801FFFF` (the last byte of the application region), returns `HAL_OK` and
sets `received_size` to 1. -/
theorem Update_ReceiveChunk_range_check_wraps :
    (0xFFFFFFFF : Nat) < 2 ^ 32 ∧ (0xFFFFFFFF : Nat) + 2 > 100 ∧
      (Update_ReceiveChunk (simHw 9) 0xFFFFFFFF (some [1, 2]) 2
        { g_ctx := { state := UPDATE_RECEIVING, total_size := 100, image_crc := 9, version := 7,
                     received_size := 0 },
          g_finish_request := 0, g_proc_state := UPROC_IDLE, g_crc_calc := 0 }
        { w := { flag := UPGRADE_FLAG_EMPTY, image_size := 0, image_crc := 0, version := 0,
                 reserved := [0, 0, 0, 0] }, calls := [] }).1 = HAL_OK ∧
      (Update_ReceiveChunk (simHw 9) 0xFFFFFFFF (some [1, 2]) 2
        { g_ctx := { state := UPDATE_RECEIVING, total_size := 100, image_crc := 9, version := 7,
                     received_size := 0 },
          g_finish_request := 0, g_proc_state := UPROC_IDLE, g_crc_calc := 0 }
        { w := { flag := UPGRADE_FLAG_EMPTY, image_size := 0, image_crc := 0, version := 0,
                 reserved := [0, 0, 0, 0] }, calls := [] }).2.1.g_ctx.received_size = 1 ∧
      (Update_ReceiveChunk (simHw 9) 0xFFFFFFFF (some [1, 2]) 2
        { g_ctx := { state := UPDATE_RECEIVING, total_size := 100, image_crc := 9, version := 7,
                     received_size := 0 },
          g_finish_request := 0, g_proc_state := UPROC_IDLE, g_crc_calc := 0 }
        { w := { flag := UPGRADE_FLAG_EMPTY, image_size := 0, image_crc := 0, version := 0,
                 reserved := [0, 0, 0, 0] }, calls := [] }).2.2.calls =
        [HwCall.HAL_FLASH_Unlock, HwCall.HAL_FLASH_Program 0x0801FFFF 0xFFFF0201,
          HwCall.HAL_FLASH_Lock] := by
  refine ⟨by decide, by decide, ?_, ?_, ?_⟩ <;>
    simp [Update_ReceiveChunk, Update_ReceiveChunk_loop, Update_ReceiveChunk_word,
      Update_ReceiveChunk_copy, Sys.HAL_FLASH_Program, Sys.HAL_FLASH_Unlock, Sys.HAL_FLASH_Lock,
      simHw, FLASH_DOWNLOAD_START_ADDR]

/-- The high-water-mark rule for chunks whose end `offset + len` is below
`2 ^ 32`.  A call of `Update_Start` that returns `HAL_OK` leaves the state
`UPDATE_RECEIVING` and `received_size = 0`.  A call of
`Update_ReceiveChunk(offset, data, len)` with `offset + len < 2 ^ 32` that
returns `HAL_OK`, from any session, sets `received_size` to the maximum of its
old value and `offset + len` and changes no other variable.  Hence after a
successful start, any list of such chunks that all succeed leaves
`received_size` equal to the largest `offset + len` among them (0 for no
chunk), every other variable as the start left it; and a second successful run
from the same start with the same chunks in another order, or with some of
them repeated, ends with the same `received_size`. -/
theorem high_water_mark_in_range {W : Type} (H : Hw W) (total_size crc version : Nat)
    (s0 s1 : UpdateVars) (m0 m1 : Sys W)
    (c : Chunk) (s sc : UpdateVars) (m mc : Sys W)
    (chunks chunks2 : List Chunk) (s2 s3 : UpdateVars) (m2 m1b m3 : Sys W)
    (hstart : Update_Start H total_size crc version s0 m0 = (HAL_OK, s1, m1))
    (hc32 : c.1 + c.2.2 < 2 ^ 32)
    (hchunk : Update_ReceiveChunk H c.1 c.2.1 c.2.2 s m = (HAL_OK, sc, mc))
    (h32 : ∀ x ∈ chunks, Spec_ChunkEnd x < 2 ^ 32)
    (hrun : Update_ReceiveChunks H chunks s1 m1 = some (s2, m2))
    (hrun2 : Update_ReceiveChunks H chunks2 s1 m1b = some (s3, m3))
    (hsame : ∀ x : Chunk, x ∈ chunks ↔ x ∈ chunks2) :
    s1.g_ctx = { state := UPDATE_RECEIVING, total_size := total_size, image_crc := crc,
                 version := version, received_size := 0 } ∧
      sc = { s with g_ctx := { s.g_ctx with
              received_size := max s.g_ctx.received_size (c.1 + c.2.2) } } ∧
      s2 = { s1 with g_ctx := { s1.g_ctx with received_size := Spec_HighWater chunks } } ∧
      s3.g_ctx.received_size = s2.g_ctx.received_size := by
  have h1 : s1.g_ctx =
      { state := UPDATE_RECEIVING, total_size := total_size, image_crc := crc,
        version := version, received_size := 0 } := by
    rcases Update_Start_cases H total_size crc version s0 m0 with
      ⟨_, he⟩ | ⟨_, _, hne, he⟩ | ⟨_, _, _, he⟩
    · rw [he] at hstart; cases hstart
    · rw [he] at hstart
      exact absurd (congrArg Prod.fst hstart) hne
    · rw [he] at hstart
      rw [← (Prod.mk.inj (Prod.mk.inj hstart).2).1]
  have hc := Update_ReceiveChunk_ok H c.1 c.2.1 c.2.2 s m (by rw [hchunk])
  rw [hchunk, Nat.mod_eq_of_lt hc32] at hc
  have h2 := Update_ReceiveChunks_ok H chunks s1 m1 s2 m2 h32 hrun
  have h3 := Update_ReceiveChunks_ok H chunks2 s1 m1b s3 m3
    (fun x hx => h32 x ((hsame x).mpr hx)) hrun2
  have h0 : s1.g_ctx.received_size = 0 := by rw [h1]
  rw [h0, Nat.zero_max] at h2 h3
  refine ⟨h1, hc, h2, ?_⟩
  rw [h2, h3, Spec_HighWater_congr chunks chunks2 hsame]

/-- An instance of the rule: after `Update_Start(2, 9, 7)` on the simulated
hardware, the chunks `(1, [0xCD], 1)` and `(0, [0xAB], 1)` arrive out of order
in one run, and in order with the first one retransmitted in the other; both
runs end with `received_size = 2`. -/
theorem high_water_mark_in_range_witness :
    (⟨⟨UPDATE_RECEIVING, 2, 9, 7, 0⟩, 0, UPROC_IDLE, 0⟩ : UpdateVars).g_ctx =
        { state := UPDATE_RECEIVING, total_size := 2, image_crc := 9, version := 7,
          received_size := 0 } ∧
      (⟨⟨UPDATE_RECEIVING, 2, 9, 7, 1⟩, 0, UPROC_IDLE, 0⟩ : UpdateVars) =
        { (⟨⟨UPDATE_RECEIVING, 2, 9, 7, 0⟩, 0, UPROC_IDLE, 0⟩ : UpdateVars) with
          g_ctx := { (⟨UPDATE_RECEIVING, 2, 9, 7, 0⟩ : UpdateContext_t) with
            received_size := max 0 (0 + 1) } } ∧
      (⟨⟨UPDATE_RECEIVING, 2, 9, 7, 2⟩, 0, UPROC_IDLE, 0⟩ : UpdateVars) =
        { (⟨⟨UPDATE_RECEIVING, 2, 9, 7, 0⟩, 0, UPROC_IDLE, 0⟩ : UpdateVars) with
          g_ctx := { (⟨UPDATE_RECEIVING, 2, 9, 7, 0⟩ : UpdateContext_t) with
            received_size := Spec_HighWater [(1, some [0xCD], 1), (0, some [0xAB], 1)] } } ∧
      (⟨⟨UPDATE_RECEIVING, 2, 9, 7, 2⟩, 0, UPROC_IDLE, 0⟩ : UpdateVars).g_ctx.received_size =
        (⟨⟨UPDATE_RECEIVING, 2, 9, 7, 2⟩, 0, UPROC_IDLE, 0⟩ : UpdateVars).g_ctx.received_size :=
  high_water_mark_in_range (simHw 9) 2 9 7
    ⟨⟨UPDATE_IDLE, 0, 0, 0, 0⟩, 0, UPROC_IDLE, 0⟩
    ⟨⟨UPDATE_RECEIVING, 2, 9, 7, 0⟩, 0, UPROC_IDLE, 0⟩
    ⟨⟨UPGRADE_FLAG_EMPTY, 0, 0, 0, [0, 0, 0, 0]⟩, []⟩
    ⟨⟨UPGRADE_FLAG_EMPTY, 0, 0, 0, [0, 0, 0, 0]⟩,
      [HwCall.HAL_FLASH_Unlock, HwCall.HAL_FLASHEx_Erase 5 2, HwCall.HAL_FLASH_Lock]⟩
    (0, some [0xAB], 1)
    ⟨⟨UPDATE_RECEIVING, 2, 9, 7, 0⟩, 0, UPROC_IDLE, 0⟩
    ⟨⟨UPDATE_RECEIVING, 2, 9, 7, 1⟩, 0, UPROC_IDLE, 0⟩
    ⟨⟨UPGRADE_FLAG_EMPTY, 0, 0, 0, [0, 0, 0, 0]⟩, []⟩
    ⟨⟨UPGRADE_FLAG_EMPTY, 0, 0, 0, [0, 0, 0, 0]⟩,
      [HwCall.HAL_FLASH_Unlock, HwCall.HAL_FLASH_Program 0x08020000 0xFFFFFFAB,
        HwCall.HAL_FLASH_Lock]⟩
    [(1, some [0xCD], 1), (0, some [0xAB], 1)]
    [(0, some [0xAB], 1), (1, some [0xCD], 1), (0, some [0xAB], 1)]
    ⟨⟨UPDATE_RECEIVING, 2, 9, 7, 2⟩, 0, UPROC_IDLE, 0⟩
    ⟨⟨UPDATE_RECEIVING, 2, 9, 7, 2⟩, 0, UPROC_IDLE, 0⟩
    ⟨⟨UPGRADE_FLAG_EMPTY, 0, 0, 0, [0, 0, 0, 0]⟩,
      [HwCall.HAL_FLASH_Unlock, HwCall.HAL_FLASHEx_Erase 5 2, HwCall.HAL_FLASH_Lock,
        HwCall.HAL_FLASH_Unlock, HwCall.HAL_FLASH_Program 0x08020001 0xFFFFFFCD,
        HwCall.HAL_FLASH_Lock,
        HwCall.HAL_FLASH_Unlock, HwCall.HAL_FLASH_Program 0x08020000 0xFFFFFFAB,
        HwCall.HAL_FLASH_Lock]⟩
    ⟨⟨UPGRADE_FLAG_EMPTY, 0, 0, 0, [0, 0, 0, 0]⟩, []⟩
    ⟨⟨UPGRADE_FLAG_EMPTY, 0, 0, 0, [0, 0, 0, 0]⟩,
      [HwCall.HAL_FLASH_Unlock, HwCall.HAL_FLASH_Program 0x08020000 0xFFFFFFAB,
        HwCall.HAL_FLASH_Lock,
        HwCall.HAL_FLASH_Unlock, HwCall.HAL_FLASH_Program 0x08020001 0xFFFFFFCD,
        HwCall.HAL_FLASH_Lock,
        HwCall.HAL_FLASH_Unlock, HwCall.HAL_FLASH_Program 0x08020000 0xFFFFFFAB,
        HwCall.HAL_FLASH_Lock]⟩
    (by rfl)
    (by decide)
    (by simp [Update_ReceiveChunk, Update_ReceiveChunk_loop, Update_ReceiveChunk_word,
          Update_ReceiveChunk_copy, Sys.HAL_FLASH_Program, Sys.HAL_FLASH_Unlock,
          Sys.HAL_FLASH_Lock, simHw, FLASH_DOWNLOAD_START_ADDR])
    (by decide)
    (by simp [Update_ReceiveChunks, Update_ReceiveChunk, Update_ReceiveChunk_loop,
          Update_ReceiveChunk_word, Update_ReceiveChunk_copy, Sys.HAL_FLASH_Program,
          Sys.HAL_FLASH_Unlock, Sys.HAL_FLASH_Lock, simHw, FLASH_DOWNLOAD_START_ADDR])
    (by simp [Update_ReceiveChunks, Update_ReceiveChunk, Update_ReceiveChunk_loop,
          Update_ReceiveChunk_word, Update_ReceiveChunk_copy, Sys.HAL_FLASH_Program,
          Sys.HAL_FLASH_Unlock, Sys.HAL_FLASH_Lock, simHw, FLASH_DOWNLOAD_START_ADDR])
    (by intro x; simp only [List.mem_cons, List.mem_singleton, List.not_mem_nil]; tauto)

/-- C9, evaluated at the failing input, on a hardware whose operations all
succeed.  `Update_Start(100, 9, 7)` returns `HAL_OK` and leaves
`UPDATE_RECEIVING` with `received_size = 0`.  The chunk `offset = 0xFFFFFFFC`,
`len = 8` then passes the range check, whose 32-bit sum `offset + len` is 4,
two words are programmed and `Update_ReceiveChunk` returns `HAL_OK`; but
`received_size` becomes 4, the 32-bit sum, not the maximum of the previous
value 0 and `offset + len = 0x100000004`, the high-water mark of this
chunk. -/
theorem high_water_mark_wraps :
    Update_Start (simHw 9) 100 9 7
        { g_ctx := { state := UPDATE_IDLE, total_size := 0, image_crc := 0, version := 0,
                     received_size := 0 },
          g_finish_request := 0, g_proc_state := UPROC_IDLE, g_crc_calc := 0 }
        { w := { flag := UPGRADE_FLAG_EMPTY, image_size := 0, image_crc := 0, version := 0,
                 reserved := [0, 0, 0, 0] }, calls := [] } =
        (HAL_OK,
          { g_ctx := { state := UPDATE_RECEIVING, total_size := 100, image_crc := 9,
                       version := 7, received_size := 0 },
            g_finish_request := 0, g_proc_state := UPROC_IDLE, g_crc_calc := 0 },
          { w := { flag := UPGRADE_FLAG_EMPTY, image_size := 0, image_crc := 0, version := 0,
                   reserved := [0, 0, 0, 0] },
            calls := [HwCall.HAL_FLASH_Unlock, HwCall.HAL_FLASHEx_Erase FLASH_SECTOR_5 2,
              HwCall.HAL_FLASH_Lock] }) ∧
      Update_ReceiveChunk (simHw 9) 0xFFFFFFFC (some [1, 2, 3, 4, 5, 6, 7, 8]) 8
        { g_ctx := { state := UPDATE_RECEIVING, total_size := 100, image_crc := 9,
                     version := 7, received_size := 0 },
          g_finish_request := 0, g_proc_state := UPROC_IDLE, g_crc_calc := 0 }
        { w := { flag := UPGRADE_FLAG_EMPTY, image_size := 0, image_crc := 0, version := 0,
                 reserved := [0, 0, 0, 0] },
          calls := [HwCall.HAL_FLASH_Unlock, HwCall.HAL_FLASHEx_Erase FLASH_SECTOR_5 2,
            HwCall.HAL_FLASH_Lock] } =
        (HAL_OK,
          { g_ctx := { state := UPDATE_RECEIVING, total_size := 100, image_crc := 9,
                       version := 7, received_size := 4 },
            g_finish_request := 0, g_proc_state := UPROC_IDLE, g_crc_calc := 0 },
          { w := { flag := UPGRADE_FLAG_EMPTY, image_size := 0, image_crc := 0, version := 0,
                   reserved := [0, 0, 0, 0] },
            calls := [HwCall.HAL_FLASH_Unlock, HwCall.HAL_FLASHEx_Erase FLASH_SECTOR_5 2,
              HwCall.HAL_FLASH_Lock, HwCall.HAL_FLASH_Unlock,
              HwCall.HAL_FLASH_Program 0x0801FFFC 0x04030201,
              HwCall.HAL_FLASH_Program 0x08020000 0x08070605, HwCall.HAL_FLASH_Lock] }) ∧
      max 0 (0xFFFFFFFC + 8) = 0x100000004 ∧
      Spec_HighWater [(0xFFFFFFFC, some [1, 2, 3, 4, 5, 6, 7, 8], 8)] = 0x100000004 ∧
      (4 : Nat) ≠ 0x100000004 := by
  refine ⟨?_, ?_, by decide, by decide, by decide⟩ <;>
    simp [Update_Start, Update_EraseDownloadArea, Update_ReceiveChunk,
      Update_ReceiveChunk_loop, Update_ReceiveChunk_word, Update_ReceiveChunk_copy,
      Sys.HAL_FLASH_Program, Sys.HAL_FLASH_Unlock, Sys.HAL_FLASH_Lock, Sys.HAL_FLASHEx_Erase,
      simHw, FLASH_DOWNLOAD_START_ADDR, FLASH_DOWNLOAD_END_ADDR, FLASH_SECTOR_5]

/-- C10 (deferred processing, success path).  From the variables a successful
`Update_RequestFinish` leaves, if the CRC of the download region over
`total_size` bytes equals `image_crc` and the metadata write succeeds, three
consecutive calls of `Update_ProcessInIdle` do the following.  The first
computes the CRC, writes nothing and moves to `UPROC_WRITE_META`.  The second
makes exactly one call, `FlashCV_WriteMeta`, with the record `flag = VALID`,
`image_size = total_size`, the session's `image_crc` and `version`, reserved
words 0, and moves to `UPROC_DONE`.  The third sets the state to
`UPDATE_FINISHED`, clears the armed flag and calls `NVIC_SystemReset`, the
only reset of the three calls.  When the session came from a successful
`Update_Start(total_size, crc, version)` followed by successful chunks, the
three session values are the ones given to `Update_Start`. -/
theorem deferred_processing_success {W : Type} (H : Hw W) (s2 s3 : UpdateVars) (m : Sys W)
    (hfin : Update_RequestFinish s2 = (HAL_OK, s3))
    (hcrc : H.FlashCV_CalcCRC FLASH_DOWNLOAD_START_ADDR s2.g_ctx.total_size m.w =
      s2.g_ctx.image_crc)
    (hwr : (H.FlashCV_WriteMeta
      { flag := UPGRADE_FLAG_VALID, image_size := s2.g_ctx.total_size,
        image_crc := s2.g_ctx.image_crc, version := s2.g_ctx.version,
        reserved := [0, 0, 0, 0] } m.w).1 = HAL_OK) :
    ((Update_ProcessInIdle H s3 m).2.w = m.w ∧
        (Update_ProcessInIdle H s3 m).2.calls =
          m.calls ++ [HwCall.FlashCV_CalcCRC FLASH_DOWNLOAD_START_ADDR s2.g_ctx.total_size] ∧
        (Update_ProcessInIdle H s3 m).1 =
          { s3 with g_crc_calc := s2.g_ctx.image_crc, g_proc_state := UPROC_WRITE_META }) ∧
      ((Update_ProcessInIdle H (Update_ProcessInIdle H s3 m).1
            (Update_ProcessInIdle H s3 m).2).2.w =
          (H.FlashCV_WriteMeta
            { flag := UPGRADE_FLAG_VALID, image_size := s2.g_ctx.total_size,
              image_crc := s2.g_ctx.image_crc, version := s2.g_ctx.version,
              reserved := [0, 0, 0, 0] } m.w).2 ∧
        (Update_ProcessInIdle H (Update_ProcessInIdle H s3 m).1
            (Update_ProcessInIdle H s3 m).2).2.calls =
          (Update_ProcessInIdle H s3 m).2.calls ++
            [HwCall.FlashCV_WriteMeta
              { flag := UPGRADE_FLAG_VALID, image_size := s2.g_ctx.total_size,
                image_crc := s2.g_ctx.image_crc, version := s2.g_ctx.version,
                reserved := [0, 0, 0, 0] }] ∧
        (Update_ProcessInIdle H (Update_ProcessInIdle H s3 m).1
            (Update_ProcessInIdle H s3 m).2).1 =
          { s3 with g_crc_calc := s2.g_ctx.image_crc, g_proc_state := UPROC_DONE }) ∧
      ((Update_ProcessInIdle H
            (Update_ProcessInIdle H (Update_ProcessInIdle H s3 m).1
              (Update_ProcessInIdle H s3 m).2).1
            (Update_ProcessInIdle H (Update_ProcessInIdle H s3 m).1
              (Update_ProcessInIdle H s3 m).2).2).2.calls =
          (Update_ProcessInIdle H (Update_ProcessInIdle H s3 m).1
            (Update_ProcessInIdle H s3 m).2).2.calls ++ [HwCall.NVIC_SystemReset] ∧
        (Update_ProcessInIdle H
            (Update_ProcessInIdle H (Update_ProcessInIdle H s3 m).1
              (Update_ProcessInIdle H s3 m).2).1
            (Update_ProcessInIdle H (Update_ProcessInIdle H s3 m).1
              (Update_ProcessInIdle H s3 m).2).2).1 =
          { s3 with
              g_crc_calc := s2.g_ctx.image_crc
              g_proc_state := UPROC_DONE
              g_finish_request := 0
              g_ctx := { s2.g_ctx with state := UPDATE_FINISHED } }) ∧
      (∀ (total_size crc version : Nat) (s0 s1 : UpdateVars) (m0 m1 ma : Sys W)
          (chunks : List Chunk),
        Update_Start H total_size crc version s0 m0 = (HAL_OK, s1, m1) →
        Update_ReceiveChunks H chunks s1 m1 = some (s2, ma) →
        s2.g_ctx.total_size = total_size ∧ s2.g_ctx.image_crc = crc ∧
          s2.g_ctx.version = version) := by
  have hs3 : s3 = { s2 with
      g_finish_request := 1
      g_proc_state := UPROC_VERIFYING
      g_ctx := { s2.g_ctx with state := UPDATE_FINISH_REQUESTED } } := by
    exact (Update_RequestFinish_ok s2 s3 hfin).2.2
  have p1 : Update_ProcessInIdle H s3 m =
      ({ s3 with g_crc_calc := s2.g_ctx.image_crc, g_proc_state := UPROC_WRITE_META },
        { w := m.w
          calls := m.calls ++
            [HwCall.FlashCV_CalcCRC FLASH_DOWNLOAD_START_ADDR s2.g_ctx.total_size] }) := by
    subst hs3
    simp [Update_ProcessInIdle, Sys.FlashCV_CalcCRC, hcrc]
  have p2 : Update_ProcessInIdle H (Update_ProcessInIdle H s3 m).1
        (Update_ProcessInIdle H s3 m).2 =
      ({ s3 with g_crc_calc := s2.g_ctx.image_crc, g_proc_state := UPROC_DONE },
        { w := (H.FlashCV_WriteMeta
            { flag := UPGRADE_FLAG_VALID, image_size := s2.g_ctx.total_size,
              image_crc := s2.g_ctx.image_crc, version := s2.g_ctx.version,
              reserved := [0, 0, 0, 0] } m.w).2
          calls := (Update_ProcessInIdle H s3 m).2.calls ++
            [HwCall.FlashCV_WriteMeta
              { flag := UPGRADE_FLAG_VALID, image_size := s2.g_ctx.total_size,
                image_crc := s2.g_ctx.image_crc, version := s2.g_ctx.version,
                reserved := [0, 0, 0, 0] }] }) := by
    rw [p1]
    subst hs3
    simp [Update_ProcessInIdle, Sys.FlashCV_WriteMeta, hwr]
  have p3 : Update_ProcessInIdle H
        (Update_ProcessInIdle H (Update_ProcessInIdle H s3 m).1
          (Update_ProcessInIdle H s3 m).2).1
        (Update_ProcessInIdle H (Update_ProcessInIdle H s3 m).1
          (Update_ProcessInIdle H s3 m).2).2 =
      ({ s3 with
          g_crc_calc := s2.g_ctx.image_crc
          g_proc_state := UPROC_DONE
          g_finish_request := 0
          g_ctx := { s2.g_ctx with state := UPDATE_FINISHED } },
        { w := (Update_ProcessInIdle H (Update_ProcessInIdle H s3 m).1
            (Update_ProcessInIdle H s3 m).2).2.w
          calls := (Update_ProcessInIdle H (Update_ProcessInIdle H s3 m).1
            (Update_ProcessInIdle H s3 m).2).2.calls ++ [HwCall.NVIC_SystemReset] }) := by
    rw [p2]
    subst hs3
    simp [Update_ProcessInIdle, Sys.NVIC_SystemReset]
  refine ⟨?_, ?_, ?_, ?_⟩
  · rw [p1]; exact ⟨rfl, rfl, rfl⟩
  · rw [p2]; exact ⟨rfl, rfl, rfl⟩
  · rw [p3]; exact ⟨rfl, rfl⟩
  · intro total_size crc version s0 s1 m0 m1 ma chunks hstart hrun
    have h1 : s1.g_ctx =
        { state := UPDATE_RECEIVING, total_size := total_size, image_crc := crc,
          version := version, received_size := 0 } := by
      rcases Update_Start_cases H total_size crc version s0 m0 with
        ⟨_, he⟩ | ⟨_, _, hne, he⟩ | ⟨_, _, _, he⟩
      · rw [he] at hstart; cases hstart
      · rw [he] at hstart
        exact absurd (congrArg Prod.fst hstart) hne
      · rw [he] at hstart
        rw [← (Prod.mk.inj (Prod.mk.inj hstart).2).1]
    obtain ⟨r, h2⟩ := Update_ReceiveChunks_frame H chunks s1 m1 s2 ma hrun
    rw [h2, h1]
    exact ⟨rfl, rfl, rfl⟩

/-- Witness for C10: a complete 2-byte session (`total_size = 2`,
`image_crc = 9`, `version = 7`) on the simulated hardware whose CRC unit
answers 9. -/
theorem deferred_processing_success_witness :
    ((Update_ProcessInIdle (simHw 9)
          ⟨⟨UPDATE_FINISH_REQUESTED, 2, 9, 7, 2⟩, 1, UPROC_VERIFYING, 0⟩
          ⟨⟨UPGRADE_FLAG_EMPTY, 0, 0, 0, [0, 0, 0, 0]⟩, []⟩).2.w =
          ⟨UPGRADE_FLAG_EMPTY, 0, 0, 0, [0, 0, 0, 0]⟩ ∧
        (Update_ProcessInIdle (simHw 9)
          ⟨⟨UPDATE_FINISH_REQUESTED, 2, 9, 7, 2⟩, 1, UPROC_VERIFYING, 0⟩
          ⟨⟨UPGRADE_FLAG_EMPTY, 0, 0, 0, [0, 0, 0, 0]⟩, []⟩).2.calls =
          [] ++ [HwCall.FlashCV_CalcCRC FLASH_DOWNLOAD_START_ADDR 2] ∧
        (Update_ProcessInIdle (simHw 9)
          ⟨⟨UPDATE_FINISH_REQUESTED, 2, 9, 7, 2⟩, 1, UPROC_VERIFYING, 0⟩
          ⟨⟨UPGRADE_FLAG_EMPTY, 0, 0, 0, [0, 0, 0, 0]⟩, []⟩).1 =
          ⟨⟨UPDATE_FINISH_REQUESTED, 2, 9, 7, 2⟩, 1, UPROC_WRITE_META, 9⟩) ∧
      ((Update_ProcessInIdle (simHw 9)
          (Update_ProcessInIdle (simHw 9)
            ⟨⟨UPDATE_FINISH_REQUESTED, 2, 9, 7, 2⟩, 1, UPROC_VERIFYING, 0⟩
            ⟨⟨UPGRADE_FLAG_EMPTY, 0, 0, 0, [0, 0, 0, 0]⟩, []⟩).1
          (Update_ProcessInIdle (simHw 9)
            ⟨⟨UPDATE_FINISH_REQUESTED, 2, 9, 7, 2⟩, 1, UPROC_VERIFYING, 0⟩
            ⟨⟨UPGRADE_FLAG_EMPTY, 0, 0, 0, [0, 0, 0, 0]⟩, []⟩).2).2.w =
          ⟨UPGRADE_FLAG_VALID, 2, 9, 7, [0, 0, 0, 0]⟩ ∧
        (Update_ProcessInIdle (simHw 9)
          (Update_ProcessInIdle (simHw 9)
            ⟨⟨UPDATE_FINISH_REQUESTED, 2, 9, 7, 2⟩, 1, UPROC_VERIFYING, 0⟩
            ⟨⟨UPGRADE_FLAG_EMPTY, 0, 0, 0, [0, 0, 0, 0]⟩, []⟩).1
          (Update_ProcessInIdle (simHw 9)
            ⟨⟨UPDATE_FINISH_REQUESTED, 2, 9, 7, 2⟩, 1, UPROC_VERIFYING, 0⟩
            ⟨⟨UPGRADE_FLAG_EMPTY, 0, 0, 0, [0, 0, 0, 0]⟩, []⟩).2).2.calls =
          (Update_ProcessInIdle (simHw 9)
            ⟨⟨UPDATE_FINISH_REQUESTED, 2, 9, 7, 2⟩, 1, UPROC_VERIFYING, 0⟩
            ⟨⟨UPGRADE_FLAG_EMPTY, 0, 0, 0, [0, 0, 0, 0]⟩, []⟩).2.calls ++
            [HwCall.FlashCV_WriteMeta ⟨UPGRADE_FLAG_VALID, 2, 9, 7, [0, 0, 0, 0]⟩] ∧
        (Update_ProcessInIdle (simHw 9)
          (Update_ProcessInIdle (simHw 9)
            ⟨⟨UPDATE_FINISH_REQUESTED, 2, 9, 7, 2⟩, 1, UPROC_VERIFYING, 0⟩
            ⟨⟨UPGRADE_FLAG_EMPTY, 0, 0, 0, [0, 0, 0, 0]⟩, []⟩).1
          (Update_ProcessInIdle (simHw 9)
            ⟨⟨UPDATE_FINISH_REQUESTED, 2, 9, 7, 2⟩, 1, UPROC_VERIFYING, 0⟩
            ⟨⟨UPGRADE_FLAG_EMPTY, 0, 0, 0, [0, 0, 0, 0]⟩, []⟩).2).1 =
          ⟨⟨UPDATE_FINISH_REQUESTED, 2, 9, 7, 2⟩, 1, UPROC_DONE, 9⟩) ∧
      ((Update_ProcessInIdle (simHw 9)
          (Update_ProcessInIdle (simHw 9)
            (Update_ProcessInIdle (simHw 9)
              ⟨⟨UPDATE_FINISH_REQUESTED, 2, 9, 7, 2⟩, 1, UPROC_VERIFYING, 0⟩
              ⟨⟨UPGRADE_FLAG_EMPTY, 0, 0, 0, [0, 0, 0, 0]⟩, []⟩).1
            (Update_ProcessInIdle (simHw 9)
              ⟨⟨UPDATE_FINISH_REQUESTED, 2, 9, 7, 2⟩, 1, UPROC_VERIFYING, 0⟩
              ⟨⟨UPGRADE_FLAG_EMPTY, 0, 0, 0, [0, 0, 0, 0]⟩, []⟩).2).1
          (Update_ProcessInIdle (simHw 9)
            (Update_ProcessInIdle (simHw 9)
              ⟨⟨UPDATE_FINISH_REQUESTED, 2, 9, 7, 2⟩, 1, UPROC_VERIFYING, 0⟩
              ⟨⟨UPGRADE_FLAG_EMPTY, 0, 0, 0, [0, 0, 0, 0]⟩, []⟩).1
            (Update_ProcessInIdle (simHw 9)
              ⟨⟨UPDATE_FINISH_REQUESTED, 2, 9, 7, 2⟩, 1, UPROC_VERIFYING, 0⟩
              ⟨⟨UPGRADE_FLAG_EMPTY, 0, 0, 0, [0, 0, 0, 0]⟩, []⟩).2).2).2.calls =
          (Update_ProcessInIdle (simHw 9)
            (Update_ProcessInIdle (simHw 9)
              ⟨⟨UPDATE_FINISH_REQUESTED, 2, 9, 7, 2⟩, 1, UPROC_VERIFYING, 0⟩
              ⟨⟨UPGRADE_FLAG_EMPTY, 0, 0, 0, [0, 0, 0, 0]⟩, []⟩).1
            (Update_ProcessInIdle (simHw 9)
              ⟨⟨UPDATE_FINISH_REQUESTED, 2, 9, 7, 2⟩, 1, UPROC_VERIFYING, 0⟩
              ⟨⟨UPGRADE_FLAG_EMPTY, 0, 0, 0, [0, 0, 0, 0]⟩, []⟩).2).2.calls ++
            [HwCall.NVIC_SystemReset] ∧
        (Update_ProcessInIdle (simHw 9)
          (Update_ProcessInIdle (simHw 9)
            (Update_ProcessInIdle (simHw 9)
              ⟨⟨UPDATE_FINISH_REQUESTED, 2, 9, 7, 2⟩, 1, UPROC_VERIFYING, 0⟩
              ⟨⟨UPGRADE_FLAG_EMPTY, 0, 0, 0, [0, 0, 0, 0]⟩, []⟩).1
            (Update_ProcessInIdle (simHw 9)
              ⟨⟨UPDATE_FINISH_REQUESTED, 2, 9, 7, 2⟩, 1, UPROC_VERIFYING, 0⟩
              ⟨⟨UPGRADE_FLAG_EMPTY, 0, 0, 0, [0, 0, 0, 0]⟩, []⟩).2).1
          (Update_ProcessInIdle (simHw 9)
            (Update_ProcessInIdle (simHw 9)
              ⟨⟨UPDATE_FINISH_REQUESTED, 2, 9, 7, 2⟩, 1, UPROC_VERIFYING, 0⟩
              ⟨⟨UPGRADE_FLAG_EMPTY, 0, 0, 0, [0, 0, 0, 0]⟩, []⟩).1
            (Update_ProcessInIdle (simHw 9)
              ⟨⟨UPDATE_FINISH_REQUESTED, 2, 9, 7, 2⟩, 1, UPROC_VERIFYING, 0⟩
              ⟨⟨UPGRADE_FLAG_EMPTY, 0, 0, 0, [0, 0, 0, 0]⟩, []⟩).2).2).1 =
          ⟨⟨UPDATE_FINISHED, 2, 9, 7, 2⟩, 0, UPROC_DONE, 9⟩) :=
  ⟨(deferred_processing_success (simHw 9)
      ⟨⟨UPDATE_RECEIVING, 2, 9, 7, 2⟩, 0, UPROC_IDLE, 0⟩
      ⟨⟨UPDATE_FINISH_REQUESTED, 2, 9, 7, 2⟩, 1, UPROC_VERIFYING, 0⟩
      ⟨⟨UPGRADE_FLAG_EMPTY, 0, 0, 0, [0, 0, 0, 0]⟩, []⟩ (by rfl) (by rfl) (by rfl)).1,
    (deferred_processing_success (simHw 9)
      ⟨⟨UPDATE_RECEIVING, 2, 9, 7, 2⟩, 0, UPROC_IDLE, 0⟩
      ⟨⟨UPDATE_FINISH_REQUESTED, 2, 9, 7, 2⟩, 1, UPROC_VERIFYING, 0⟩
      ⟨⟨UPGRADE_FLAG_EMPTY, 0, 0, 0, [0, 0, 0, 0]⟩, []⟩ (by rfl) (by rfl) (by rfl)).2.1,
    (deferred_processing_success (simHw 9)
      ⟨⟨UPDATE_RECEIVING, 2, 9, 7, 2⟩, 0, UPROC_IDLE, 0⟩
      ⟨⟨UPDATE_FINISH_REQUESTED, 2, 9, 7, 2⟩, 1, UPROC_VERIFYING, 0⟩
      ⟨⟨UPGRADE_FLAG_EMPTY, 0, 0, 0, [0, 0, 0, 0]⟩, []⟩ (by rfl) (by rfl) (by rfl)).2.2.1⟩


/-! ## Deferred processing -/

/-- With the armed flag clear, `Update_ProcessInIdle` changes nothing. -/
theorem Update_ProcessInIdle_unarmed {W : Type} (H : Hw W) (s : UpdateVars) (m : Sys W)
    (h : s.g_finish_request = 0) : Update_ProcessInIdle H s m = (s, m) := by
  unfold Update_ProcessInIdle
  rw [if_pos h]

/-- `Update_Start` leaves the armed flag, the sub-state and `g_crc_calc` as they are. -/
theorem Update_Start_frame {W : Type} (H : Hw W) (total_size crc version : Nat)
    (s : UpdateVars) (m : Sys W) :
    (Update_Start H total_size crc version s m).2.1.g_finish_request = s.g_finish_request ∧
      (Update_Start H total_size crc version s m).2.1.g_proc_state = s.g_proc_state ∧
      (Update_Start H total_size crc version s m).2.1.g_crc_calc = s.g_crc_calc := by
  rcases Update_Start_cases H total_size crc version s m with
    ⟨_, he⟩ | ⟨_, _, _, he⟩ | ⟨_, _, _, he⟩ <;> rw [he] <;> exact ⟨rfl, rfl, rfl⟩

/-- `Update_ReceiveChunk` changes at most `received_size`. -/
theorem Update_ReceiveChunk_frame {W : Type} (H : Hw W) (offset : Nat)
    (data : Option (List Nat)) (len : Nat) (s : UpdateVars) (m : Sys W) :
    (Update_ReceiveChunk H offset data len s m).2.1 = s ∨
      (Update_ReceiveChunk H offset data len s m).2.1 =
        { s with g_ctx := { s.g_ctx with
            received_size := max s.g_ctx.received_size ((offset + len) % 2 ^ 32) } } := by
  rcases Update_ReceiveChunk_cases H offset data len s m with
    ⟨_, he⟩ | ⟨d, _, _, _, _, ⟨st, m2, _, _, he⟩ | ⟨m2, _, he⟩⟩
  · rw [he]; exact Or.inl rfl
  · rw [he]; exact Or.inl rfl
  · rw [he]; exact Or.inr rfl

/-- A call other than a successful `Update_RequestFinish` leaves a clear armed
flag clear. -/
theorem Update_step_unarmed {W : Type} (H : Hw W) (op : UpdateOp) (x : UpdateVars × Sys W)
    (h : x.1.g_finish_request = 0)
    (hop : op = UpdateOp.RequestFinish → (Update_RequestFinish x.1).1 ≠ HAL_OK) :
    (Update_step H op x).1.g_finish_request = 0 := by
  cases op with
  | Start t c v =>
    simp only [Update_step]
    rw [(Update_Start_frame H t c v x.1 x.2).1, h]
  | ReceiveChunk o d l =>
    simp only [Update_step]
    rcases Update_ReceiveChunk_frame H o d l x.1 x.2 with he | he <;> rw [he] <;> exact h
  | RequestFinish =>
    simp only [Update_step]
    have hne := hop rfl
    unfold Update_RequestFinish at hne ⊢
    by_cases h1 : x.1.g_ctx.state = UPDATE_RECEIVING
    · by_cases h2 : x.1.g_ctx.received_size = x.1.g_ctx.total_size
      · simp [h1, h2] at hne
      · simp [h1, h2, h]
    · simp [h1, h]
  | ProcessInIdle =>
    simp only [Update_step]
    rw [Update_ProcessInIdle_unarmed H x.1 x.2 h]
    exact h

/-- A run in which no `Update_RequestFinish` succeeds leaves a clear armed flag
clear. -/
theorem Update_run_unarmed {W : Type} (H : Hw W) (ops : List UpdateOp) :
    ∀ x : UpdateVars × Sys W, x.1.g_finish_request = 0 → Update_noFinishSucceeds H ops x →
      (Update_run H ops x).1.g_finish_request = 0 := by
  induction ops with
  | nil => intro x h _; exact h
  | cons op rest ih =>
    intro x h hno
    exact ih _ (Update_step_unarmed H op x h hno.1) hno.2

/-- C11 (deferred processing, abort path).  Armed in `UPROC_VERIFYING` with a
CRC of the download region different from `image_crc`, `Update_ProcessInIdle`
only computes the CRC (no metadata write, no reset), clears the armed flag and
returns the sub-state to `UPROC_IDLE` and the session to `UPDATE_IDLE`.  Armed
in `UPROC_WRITE_META` with a failing metadata write, it makes that one call
(no reset) and aborts to the same variables.  With the armed flag clear it
changes nothing; and after either abort, whatever calls follow, as long as no
`Update_RequestFinish` among them succeeds, the armed flag stays clear and a
call of `Update_ProcessInIdle` changes nothing. -/
theorem deferred_processing_abort {W : Type} (H : Hw W) (s : UpdateVars) (m : Sys W) :
    (s.g_finish_request ≠ 0 → s.g_proc_state = UPROC_VERIFYING →
        H.FlashCV_CalcCRC FLASH_DOWNLOAD_START_ADDR s.g_ctx.total_size m.w ≠ s.g_ctx.image_crc →
        Update_ProcessInIdle H s m =
          ({ s with
              g_crc_calc := H.FlashCV_CalcCRC FLASH_DOWNLOAD_START_ADDR s.g_ctx.total_size m.w
              g_finish_request := 0
              g_proc_state := UPROC_IDLE
              g_ctx := { s.g_ctx with state := UPDATE_IDLE } },
            { w := m.w
              calls := m.calls ++
                [HwCall.FlashCV_CalcCRC FLASH_DOWNLOAD_START_ADDR s.g_ctx.total_size] })) ∧
      (s.g_finish_request ≠ 0 → s.g_proc_state = UPROC_WRITE_META →
        (H.FlashCV_WriteMeta
          { flag := UPGRADE_FLAG_VALID, image_size := s.g_ctx.total_size,
            image_crc := s.g_ctx.image_crc, version := s.g_ctx.version,
            reserved := [0, 0, 0, 0] } m.w).1 ≠ HAL_OK →
        Update_ProcessInIdle H s m =
          ({ s with
              g_finish_request := 0
              g_proc_state := UPROC_IDLE
              g_ctx := { s.g_ctx with state := UPDATE_IDLE } },
            { w := (H.FlashCV_WriteMeta
                { flag := UPGRADE_FLAG_VALID, image_size := s.g_ctx.total_size,
                  image_crc := s.g_ctx.image_crc, version := s.g_ctx.version,
                  reserved := [0, 0, 0, 0] } m.w).2
              calls := m.calls ++
                [HwCall.FlashCV_WriteMeta
                  { flag := UPGRADE_FLAG_VALID, image_size := s.g_ctx.total_size,
                    image_crc := s.g_ctx.image_crc, version := s.g_ctx.version,
                    reserved := [0, 0, 0, 0] }] })) ∧
      (s.g_finish_request = 0 → Update_ProcessInIdle H s m = (s, m)) ∧
      (∀ ops : List UpdateOp, (Update_ProcessInIdle H s m).1.g_finish_request = 0 →
        Update_noFinishSucceeds H ops (Update_ProcessInIdle H s m) →
        (Update_run H ops (Update_ProcessInIdle H s m)).1.g_finish_request = 0 ∧
        Update_ProcessInIdle H (Update_run H ops (Update_ProcessInIdle H s m)).1
            (Update_run H ops (Update_ProcessInIdle H s m)).2 =
          Update_run H ops (Update_ProcessInIdle H s m)) := by
  refine ⟨?_, ?_, Update_ProcessInIdle_unarmed H s m, ?_⟩
  · intro ha hp hc
    simp [Update_ProcessInIdle, Sys.FlashCV_CalcCRC, ha, hp, hc]
  · intro ha hp hw
    simp [Update_ProcessInIdle, Sys.FlashCV_WriteMeta, ha, hp, hw]
  · intro ops h0 hno
    have h := Update_run_unarmed H ops _ h0 hno
    exact ⟨h, Update_ProcessInIdle_unarmed H _ _ h⟩

/-! ## Oversize frames and the payload buffer -/

/-- One byte keeps the payload buffer index-safe. -/
theorem Comm_OnByteReceived_safe (crc32 : List Nat → Nat) (s : RxCtx) (ch : Nat)
    (h : Comm_RxBufSafe s) : Comm_RxBufSafe (Comm_OnByteReceived crc32 s ch).1 := by
  obtain ⟨hb, hd⟩ := h
  unfold Comm_RxBufSafe Comm_OnByteReceived
  cases hst : s.rx_state
  case RX_STATE_HEAD1 => by_cases hc : ch = COMM_HEAD1 <;> simp [hc, hb, hst]
  case RX_STATE_HEAD2 => by_cases hc : ch = COMM_HEAD2 <;> simp [hc, hb]
  case RX_STATE_CMD => simp [hb]
  case RX_STATE_SEQ => simp [hb]
  case RX_STATE_LEN_L => simp [hb]
  case RX_STATE_LEN_H =>
    by_cases hc : (s.rx_len ||| (ch <<< 8)) % 65536 > COMM_MAX_PAYLOAD_LEN
    · simp [hc, hb, Comm_ResetRxState]
    · by_cases h0 : (s.rx_len ||| (ch <<< 8)) % 65536 = 0
      · simp [hc, hb, h0]
      · simp only [hc, if_false, hb, true_and, h0]
        intro _
        exact ⟨Nat.pos_of_ne_zero h0, Nat.le_of_not_lt hc⟩
  case RX_STATE_DATA =>
    have hd2 := hd hst
    by_cases hc : (s.rx_index + 1) % 65536 ≥ s.rx_len
    · simp [hc, hb]
    · simp only [hc, if_false, List.length_set, hb, true_and]
      intro _
      exact ⟨Nat.lt_of_not_le hc, hd2.2⟩
  all_goals
    by_cases hc : (s.crc_index + 1) % 256 ≥ 4
    · simp [hc, hb, Comm_ResetRxState]
    · simp [hc, hb, hst]

/-- Any bytes keep the payload buffer index-safe. -/
theorem Comm_FeedBytes_safe (crc32 : List Nat → Nat) (bytes : List Nat) :
    ∀ s : RxCtx, Comm_RxBufSafe s → Comm_RxBufSafe (Comm_FeedBytes crc32 s bytes).1 := by
  induction bytes with
  | nil => intro s h; exact h
  | cons ch rest ih =>
    intro s h
    simp only [Comm_FeedBytes]
    exact ih _ (Comm_OnByteReceived_safe crc32 s ch h)

/-- C12 (oversize rejection).  From any receiver waiting in `RX_STATE_HEAD1`,
for every command, sequence number and pair of length bytes `lo`, `hi` whose
little-endian value `lo + 256 * hi` exceeds `COMM_MAX_PAYLOAD_LEN`, the header
`HEAD1, HEAD2, cmd, seq, lo, hi` leaves the receiver in `RX_STATE_HEAD1` right
after the high length byte, with `rx_buf` as it was and no event (no handler
call, no acknowledgement).  And in every state reached from the initial one by
any bytes, `rx_buf` has its `COMM_MAX_PAYLOAD_LEN` cells and, in
`RX_STATE_DATA`, where the next byte is stored at `rx_index`, that index is
below `COMM_MAX_PAYLOAD_LEN`. -/
theorem oversize_rejection (crc32 : List Nat → Nat) (s : RxCtx) (cmd seq lo hi : Nat)
    (bytes : List Nat) (hst : s.rx_state = RX_STATE_HEAD1) (hlo : lo < 256) (hhi : hi < 256)
    (hlen : lo + 256 * hi > COMM_MAX_PAYLOAD_LEN) :
    Comm_FeedBytes crc32 s [COMM_HEAD1, COMM_HEAD2, cmd, seq, lo, hi] =
        ({ s with rx_cmd := cmd, rx_seq := seq, rx_len := lo + 256 * hi,
                  rx_state := RX_STATE_HEAD1 }, []) ∧
      (Comm_FeedBytes crc32 RxCtx.initial bytes).1.rx_buf.length = COMM_MAX_PAYLOAD_LEN ∧
      ((Comm_FeedBytes crc32 RxCtx.initial bytes).1.rx_state = RX_STATE_DATA →
        (Comm_FeedBytes crc32 RxCtx.initial bytes).1.rx_index < COMM_MAX_PAYLOAD_LEN) := by
  have hj : (lo ||| (hi <<< 8)) % 65536 = lo + 256 * hi := by
    rw [or_shiftLeft_eq_add lo hi 8 (by omega)]
    omega
  have hinit : Comm_RxBufSafe RxCtx.initial :=
    ⟨by simp [RxCtx.initial], fun h => by simp [RxCtx.initial] at h⟩
  have hs := Comm_FeedBytes_safe crc32 bytes RxCtx.initial hinit
  refine ⟨?_, hs.1, fun hd => Nat.lt_of_lt_of_le (hs.2 hd).1 (hs.2 hd).2⟩
  simp [Comm_FeedBytes, Comm_OnByteReceived, hst, hj, hlen, Comm_ResetRxState]

theorem oversize_rejection_witness :
    Comm_FeedBytes (fun l => l.sum) RxCtx.initial [COMM_HEAD1, COMM_HEAD2, 2, 7, 1, 4] =
        ({ RxCtx.initial with rx_cmd := 2, rx_seq := 7, rx_len := 1 + 256 * 4,
                              rx_state := RX_STATE_HEAD1 }, []) ∧
      (Comm_FeedBytes (fun l => l.sum) RxCtx.initial [0x55, 0xAA, 2, 7, 2, 0, 9]).1.rx_buf.length
        = COMM_MAX_PAYLOAD_LEN ∧
      ((Comm_FeedBytes (fun l => l.sum) RxCtx.initial [0x55, 0xAA, 2, 7, 2, 0, 9]).1.rx_state
          = RX_STATE_DATA →
        (Comm_FeedBytes (fun l => l.sum) RxCtx.initial [0x55, 0xAA, 2, 7, 2, 0, 9]).1.rx_index
          < COMM_MAX_PAYLOAD_LEN) :=
  oversize_rejection (fun l => l.sum) RxCtx.initial 2 7 1 4 [0x55, 0xAA, 2, 7, 2, 0, 9]
    rfl (by decide) (by decide) (by decide)

/-! ## Bytes before a frame -/

/-- Scanning bytes without a header pair, from `RX_STATE_HEAD1`: only
`rx_state` changes, no event occurs, and the receiver is in `RX_STATE_HEAD1`,
or in `RX_STATE_HEAD2` with `COMM_HEAD1` as the last byte. -/
theorem Comm_FeedBytes_scan (crc32 : List Nat → Nat) (s : RxCtx)
    (hst : s.rx_state = RX_STATE_HEAD1) (g : List Nat) :
    Spec_NoHeadPair g →
      ∃ st : RxState_t, Comm_FeedBytes crc32 s g = ({ s with rx_state := st }, []) ∧
        (st = RX_STATE_HEAD1 ∨ (st = RX_STATE_HEAD2 ∧ ∃ g1, g = g1 ++ [COMM_HEAD1])) := by
  induction g using List.reverseRecOn with
  | nil =>
    intro _
    refine ⟨RX_STATE_HEAD1, ?_, Or.inl rfl⟩
    rw [← hst]
    rfl
  | append_singleton g x ih =>
    intro hno
    have hno1 : Spec_NoHeadPair g := fun h => hno (List.IsInfix.trans h (List.infix_append' [] g [x]))
    obtain ⟨st, he, hcase⟩ := ih hno1
    rw [Comm_FeedBytes_skip crc32 _ _ _ he]
    rcases hcase with h1 | ⟨h2, g1, hg⟩
    · subst h1
      by_cases hx : x = COMM_HEAD1
      · refine ⟨RX_STATE_HEAD2, ?_, Or.inr ⟨rfl, g, by rw [hx]⟩⟩
        simp [Comm_FeedBytes, Comm_OnByteReceived, hx]
      · refine ⟨RX_STATE_HEAD1, ?_, Or.inl rfl⟩
        simp [Comm_FeedBytes, Comm_OnByteReceived, hx]
    · subst h2
      have hx : x ≠ COMM_HEAD2 := by
        intro hx
        apply hno
        rw [hg, hx, List.append_assoc]
        exact ⟨g1, [], by simp⟩
      refine ⟨RX_STATE_HEAD1, ?_, Or.inl rfl⟩
      simp [Comm_FeedBytes, Comm_OnByteReceived, hx]

/-- An even number of `COMM_HEAD1` bytes takes the receiver from
`RX_STATE_HEAD1` back to `RX_STATE_HEAD1`: the second of each two is consumed
in `RX_STATE_HEAD2` and is not examined again. -/
theorem Comm_FeedBytes_head1_pairs (crc32 : List Nat → Nat) (s : RxCtx)
    (hst : s.rx_state = RX_STATE_HEAD1) (k : Nat) :
    Comm_FeedBytes crc32 s (List.replicate (2 * k) COMM_HEAD1) = (s, []) := by
  induction k with
  | zero => rfl
  | succ n ih =>
    have h2 : 2 * (n + 1) = 2 * n + 2 := by omega
    have hs : ({ s with rx_state := RX_STATE_HEAD1 } : RxCtx) = s := by rw [← hst]
    rw [h2, List.replicate_add, Comm_FeedBytes_skip crc32 _ _ _ ih]
    simp [Comm_FeedBytes, Comm_OnByteReceived, hst, List.replicate, COMM_HEAD1, COMM_HEAD2, hs]

/-- C13, counterexample.  The preamble `0x55 0x55` ends with `COMM_HEAD1` and
contains no adjacent pair `0x55, 0xAA`; followed by `HEAD2, cmd, seq, len,
payload, CRC` of the valid frame `cmd = 3`, `seq = 7`, payload `[0xAB]`, it
leads the initial receiver to no event at all: the second `0x55` is consumed
in `RX_STATE_HEAD2`, which returns to `RX_STATE_HEAD1` without examining it
as a possible `COMM_HEAD1`, and the frame is lost. -/
theorem stray_byte_resilience_counterexample :
    [0x55, 0x55].getLast? = some COMM_HEAD1 ∧ Spec_NoHeadPair [0x55, 0x55] ∧
      (Comm_SendFrame (fun l => l.sum * 16777259 + 5) 3 7 (some [0xAB]) 1).tail =
        [0xAA, 3, 7, 1, 0, 0xAB, 151, 30, 0, 182] ∧
      (Comm_FeedBytes (fun l => l.sum * 16777259 + 5) RxCtx.initial
        ([0x55, 0x55] ++
          (Comm_SendFrame (fun l => l.sum * 16777259 + 5) 3 7 (some [0xAB]) 1).tail)).2 = [] ∧
      (Comm_FeedBytes (fun l => l.sum * 16777259 + 5) RxCtx.initial
        ([0x55] ++
          (Comm_SendFrame (fun l => l.sum * 16777259 + 5) 3 7 (some [0xAB]) 1).tail)).2 =
        [CommEvent.HandlePacket 3 7 [0xAB] 1] := by
  refine ⟨by decide, by decide, by decide, by decide, by decide⟩

/-- C13, amended (stray-byte resilience).  For every valid frame and every
preamble that contains no adjacent pair `0x55, 0xAA` and ends with an odd
number of consecutive `COMM_HEAD1` bytes (`g` not ending in `COMM_HEAD1`,
followed by `2 * k + 1` of them), feeding the preamble and then `HEAD2, cmd,
seq, len, payload, CRC` (the frame without its first byte, which the preamble
supplies) to the initial receiver calls `Comm_HandlePacket` exactly once,
with exactly that frame, transmits nothing and ends in `RX_STATE_HEAD1`. -/
theorem stray_byte_resilience (crc32 : List Nat → Nat) (cmd seq : Nat) (payload : List Nat)
    (g : List Nat) (k : Nat) (hlen : payload.length ≤ COMM_MAX_PAYLOAD_LEN)
    (hno : Spec_NoHeadPair (g ++ List.replicate (2 * k + 1) COMM_HEAD1))
    (hlast : g.getLast? ≠ some COMM_HEAD1) :
    Comm_SendFrame crc32 cmd seq (some payload) payload.length =
        COMM_HEAD1 :: (Comm_SendFrame crc32 cmd seq (some payload) payload.length).tail ∧
      (Comm_FeedBytes crc32 RxCtx.initial
        (g ++ List.replicate (2 * k + 1) COMM_HEAD1 ++
          (Comm_SendFrame crc32 cmd seq (some payload) payload.length).tail)).2 =
        [CommEvent.HandlePacket cmd seq payload payload.length] ∧
      (Comm_FeedBytes crc32 RxCtx.initial
        (g ++ List.replicate (2 * k + 1) COMM_HEAD1 ++
          (Comm_SendFrame crc32 cmd seq (some payload) payload.length).tail)).1.rx_state =
        RX_STATE_HEAD1 := by
  have hfr : Comm_SendFrame crc32 cmd seq (some payload) payload.length =
      COMM_HEAD1 :: (Comm_SendFrame crc32 cmd seq (some payload) payload.length).tail := by
    rw [Comm_SendFrame_bytes crc32 cmd seq payload hlen]
    rfl
  have hbytes : g ++ List.replicate (2 * k + 1) COMM_HEAD1 ++
        (Comm_SendFrame crc32 cmd seq (some payload) payload.length).tail =
      g ++ (List.replicate (2 * k) COMM_HEAD1 ++
        Comm_SendFrame crc32 cmd seq (some payload) payload.length) := by
    conv => rhs; rw [hfr]
    rw [List.replicate_succ']
    simp only [List.append_assoc, List.singleton_append]
  have hno1 : Spec_NoHeadPair g :=
    fun h => hno (List.IsInfix.trans h (List.infix_append' [] g _))
  obtain ⟨st, he, hcase⟩ := Comm_FeedBytes_scan crc32 RxCtx.initial rfl g hno1
  have hst : st = RX_STATE_HEAD1 := by
    rcases hcase with h1 | ⟨_, g1, hg⟩
    · exact h1
    · exact absurd (by rw [hg]; simp) hlast
  subst hst
  have he1 : Comm_FeedBytes crc32 RxCtx.initial g = (RxCtx.initial, []) := he
  obtain ⟨s2, h, hs2, _⟩ := Comm_FeedBytes_frame crc32 RxCtx.initial cmd seq payload rfl
    (fun _ => rfl) (by simp [RxCtx.initial]) (by simp [RxCtx.initial]) hlen
  refine ⟨hfr, ?_⟩
  rw [hbytes, Comm_FeedBytes_skip crc32 _ _ _ he1,
    Comm_FeedBytes_skip crc32 _ _ _ (Comm_FeedBytes_head1_pairs crc32 RxCtx.initial rfl k), h]
  exact ⟨rfl, hs2⟩

theorem stray_byte_resilience_witness :
    Comm_SendFrame (fun l => l.sum * 16777259 + 5) 3 7 (some [0xAB]) [0xAB].length =
        COMM_HEAD1 ::
          (Comm_SendFrame (fun l => l.sum * 16777259 + 5) 3 7 (some [0xAB]) [0xAB].length).tail ∧
      (Comm_FeedBytes (fun l => l.sum * 16777259 + 5) RxCtx.initial
        ([0xAA, 9] ++ List.replicate (2 * 1 + 1) COMM_HEAD1 ++
          (Comm_SendFrame (fun l => l.sum * 16777259 + 5) 3 7 (some [0xAB])
            [0xAB].length).tail)).2 =
        [CommEvent.HandlePacket 3 7 [0xAB] [0xAB].length] ∧
      (Comm_FeedBytes (fun l => l.sum * 16777259 + 5) RxCtx.initial
        ([0xAA, 9] ++ List.replicate (2 * 1 + 1) COMM_HEAD1 ++
          (Comm_SendFrame (fun l => l.sum * 16777259 + 5) 3 7 (some [0xAB])
            [0xAB].length).tail)).1.rx_state =
        RX_STATE_HEAD1 :=
  stray_byte_resilience (fun l => l.sum * 16777259 + 5) 3 7 [0xAB] [0xAA, 9] 1 (by decide)
    (by decide) (by decide)

/-! ## The CRC decision -/

/-- A complete frame with any four trailer bytes, fed to a receiver that waits
in `RX_STATE_HEAD1` with intact buffers (and `crc_index = 0` when the payload
is empty): the payload is dispatched when the trailer carries the CRC of
`cmd, seq, len, payload`, a CRC-error acknowledgement is transmitted when it
does not. -/
theorem Comm_FeedBytes_frame_trailer (crc32 : List Nat → Nat) (s : RxCtx) (cmd seq : Nat)
    (payload : List Nat) (t0 t1 t2 t3 : Nat) (hst : s.rx_state = RX_STATE_HEAD1)
    (hci : payload = [] → s.crc_index = 0) (hcb : s.crc_bytes.length = 4)
    (hbuf : s.rx_buf.length = COMM_MAX_PAYLOAD_LEN)
    (hlen : payload.length ≤ COMM_MAX_PAYLOAD_LEN) :
    ∃ s2 : RxCtx,
      Comm_FeedBytes crc32 s
          ([COMM_HEAD1, COMM_HEAD2, cmd, seq, (payload.length &&& 0xFF) % 256,
              (payload.length >>> 8) % 256] ++ (payload ++ [t0, t1, t2, t3])) =
        (s2,
          if crc32 ([cmd, seq, (payload.length &&& 0xFF) % 256, (payload.length >>> 8) % 256]
                ++ payload) % 2 ^ 32 =
              (t0 ||| (t1 <<< 8) ||| (t2 <<< 16) ||| (t3 <<< 24)) % 2 ^ 32 then
            [CommEvent.HandlePacket cmd seq payload payload.length]
          else [CommEvent.Transmit (Comm_SendAck crc32 cmd seq COMM_STATUS_FRAME_CRC)]) ∧
      s2.rx_state = RX_STATE_HEAD1 ∧ s2.crc_index = 4 ∧ s2.crc_bytes.length = 4 ∧
      s2.rx_buf.length = COMM_MAX_PAYLOAD_LEN := by
  have hn : payload.length ≤ 1024 := hlen
  have hn16 : payload.length < 65536 := by omega
  have hhead := Comm_FeedBytes_header crc32 s cmd seq payload.length hst hlen
  have hpos : (4 + payload.length) % 65536 = 4 + payload.length := Nat.mod_eq_of_lt (by omega)
  have htk : ∀ a b c d : Nat,
      List.take (4 + payload.length) (a :: b :: c :: d :: payload) = a :: b :: c :: d :: payload := by
    intro a b c d
    apply List.take_of_length_le
    simp only [List.length_cons]
    omega
  by_cases hp : payload = []
  · have hc0 : s.crc_index = 0 := hci hp
    subst hp
    simp only [List.length_nil, if_true, List.nil_append] at hhead ⊢
    have ht := Comm_FeedBytes_trailer crc32
      { s with rx_cmd := cmd, rx_seq := seq, rx_len := 0, rx_index := 0,
               rx_state := RX_STATE_CRC0 } t0 t1 t2 t3 rfl hc0 hcb
    have hcalc : Comm_CalcCRC32 crc32
        (some ([cmd, seq, (0 &&& 0xFF) % 256, (0 >>> 8) % 256] ++
          (if 0 > 0 then s.rx_buf.take 0 else []))) (if 0 > 0 then (4 + 0) % 65536 else 4) =
        crc32 [cmd, seq, (0 &&& 0xFF) % 256, (0 >>> 8) % 256] % 2 ^ 32 := by
      simp [Comm_CalcCRC32]
    dsimp only at ht
    rw [hcalc] at ht
    rw [Comm_FeedBytes_skip crc32 _ _ _ hhead, ht]
    exact ⟨_, Prod.ext rfl (by simp), rfl, rfl, rfl, hbuf⟩
  · have hpos0 : payload.length ≠ 0 := fun h => hp (List.length_eq_zero.mp h)
    simp only [if_neg hpos0] at hhead
    obtain ⟨buf, hb1, hb2, hb3⟩ := Comm_FeedBytes_data crc32 payload
      { s with rx_cmd := cmd, rx_seq := seq, rx_len := payload.length, rx_index := 0,
               rx_state := RX_STATE_DATA }
      rfl hp (by simp) (by simpa [hbuf] using hlen) hn16
    simp only [List.take_zero, List.nil_append] at hb2
    dsimp only at hb1 hb2 hb3
    have ht := Comm_FeedBytes_trailer crc32
      { s with rx_cmd := cmd, rx_seq := seq, rx_len := payload.length, rx_buf := buf,
               rx_index := payload.length, crc_index := 0, rx_state := RX_STATE_CRC0 }
      t0 t1 t2 t3 rfl rfl hcb
    dsimp only at ht
    have hcalc : Comm_CalcCRC32 crc32
        (some ([cmd, seq, (payload.length &&& 0xFF) % 256, (payload.length >>> 8) % 256] ++
          (if payload.length > 0 then buf.take payload.length else [])))
          (if payload.length > 0 then (4 + payload.length) % 65536 else 4) =
        crc32 ([cmd, seq, (payload.length &&& 0xFF) % 256, (payload.length >>> 8) % 256]
          ++ payload) % 2 ^ 32 := by
      simp [Comm_CalcCRC32, hb2, hpos, htk, hpos0, Nat.pos_of_ne_zero hpos0]
    rw [hcalc, hb2] at ht
    rw [Comm_FeedBytes_skip crc32 _ _ _ hhead, Comm_FeedBytes_skip crc32 _ _ _ hb3, ht]
    exact ⟨_, rfl, rfl, rfl, rfl, hb1.trans hbuf⟩

/-- Four bytes joined as the receiver joins the trailer are split again by
`Spec_le32`. -/
theorem Spec_le32_join (t0 t1 t2 t3 : Nat) (h0 : t0 < 256) (h1 : t1 < 256) (h2 : t2 < 256)
    (h3 : t3 < 256) :
    Spec_le32 ((t0 ||| (t1 <<< 8) ||| (t2 <<< 16) ||| (t3 <<< 24)) % 2 ^ 32) =
      [t0, t1, t2, t3] := by
  rw [or_shiftLeft_eq_add _ _ 8 (by omega), or_shiftLeft_eq_add _ _ 16 (by omega),
    or_shiftLeft_eq_add _ _ 24 (by omega)]
  simp only [Spec_le32, List.cons.injEq, and_true]
  omega

/-- The acknowledgement `Comm_SendAck` transmits is the frame of the
specification with command `CMD_ACK`, sequence number 0 and payload
`status, cmd, seq`. -/
theorem Comm_SendAck_bytes (crc32 : List Nat → Nat) (cmd seq status : Nat) :
    Comm_SendAck crc32 cmd seq status = Spec_Frame crc32 0x06 0 [status, cmd, seq] := by
  have h := Comm_SendFrame_bytes crc32 CMD_ACK 0 [status, cmd, seq]
    (by simp [COMM_MAX_PAYLOAD_LEN])
  simp only [List.length_cons, List.length_nil] at h
  unfold Comm_SendAck
  rw [h]
  simp [Spec_Frame, Spec_le32, and_255, Nat.shiftRight_eq_div_pow, COMM_HEAD1, COMM_HEAD2,
    CMD_ACK]

/-- C14 (CRC mismatch).  For every `cmd`, `seq`, payload of at most
`COMM_MAX_PAYLOAD_LEN` bytes and four trailer bytes that differ from the
little-endian CRC of `cmd, seq, len, payload`, feeding the header, the payload
and that trailer to the initial receiver calls no handler and transmits
exactly one frame: command `CMD_ACK` (0x06), sequence number 0, payload
`0x01, cmd, seq`; the receiver ends in `RX_STATE_HEAD1`. -/
theorem crc_mismatch (crc32 : List Nat → Nat) (cmd seq : Nat) (payload : List Nat)
    (t0 t1 t2 t3 : Nat) (hlen : payload.length ≤ COMM_MAX_PAYLOAD_LEN)
    (h0 : t0 < 256) (h1 : t1 < 256) (h2 : t2 < 256) (h3 : t3 < 256)
    (hne : [t0, t1, t2, t3] ≠
      Spec_le32 (crc32 ([cmd, seq, payload.length % 256, payload.length / 256] ++ payload)
        % 2 ^ 32)) :
    (Comm_FeedBytes crc32 RxCtx.initial
        ([0x55, 0xAA, cmd, seq, payload.length % 256, payload.length / 256] ++ payload ++
          [t0, t1, t2, t3])).2 =
        [CommEvent.Transmit (Spec_Frame crc32 0x06 0 [0x01, cmd, seq])] ∧
      (Comm_FeedBytes crc32 RxCtx.initial
        ([0x55, 0xAA, cmd, seq, payload.length % 256, payload.length / 256] ++ payload ++
          [t0, t1, t2, t3])).1.rx_state = RX_STATE_HEAD1 := by
  have hn : payload.length ≤ 1024 := hlen
  obtain ⟨s2, h, hst, _⟩ := Comm_FeedBytes_frame_trailer crc32 RxCtx.initial cmd seq payload
    t0 t1 t2 t3 rfl (fun _ => rfl) (by simp [RxCtx.initial]) (by simp [RxCtx.initial]) hlen
  have hlo : (payload.length &&& 0xFF) % 256 = payload.length % 256 := by
    rw [and_255, Nat.mod_mod]
  have hhi : (payload.length >>> 8) % 256 = payload.length / 256 := by
    rw [Nat.shiftRight_eq_div_pow]
    omega
  rw [hlo, hhi] at h
  have hcond : ¬ crc32 ([cmd, seq, payload.length % 256, payload.length / 256] ++ payload)
      % 2 ^ 32 = (t0 ||| (t1 <<< 8) ||| (t2 <<< 16) ||| (t3 <<< 24)) % 2 ^ 32 := by
    intro he
    apply hne
    rw [he, Spec_le32_join t0 t1 t2 t3 h0 h1 h2 h3]
  rw [if_neg hcond, Comm_SendAck_bytes] at h
  rw [List.append_assoc]
  have hh : Comm_FeedBytes crc32 RxCtx.initial
      ([0x55, 0xAA, cmd, seq, payload.length % 256, payload.length / 256] ++
        (payload ++ [t0, t1, t2, t3])) =
      (s2, [CommEvent.Transmit (Spec_Frame crc32 0x06 0 [COMM_STATUS_FRAME_CRC, cmd, seq])]) := h
  rw [hh]
  exact ⟨rfl, hst⟩

theorem crc_mismatch_witness :
    (Comm_FeedBytes (fun l => l.sum * 16777259 + 5) RxCtx.initial
        ([0x55, 0xAA, 3, 7, [1, 2].length % 256, [1, 2].length / 256] ++ [1, 2] ++
          [0, 0, 0, 0])).2 =
        [CommEvent.Transmit (Spec_Frame (fun l => l.sum * 16777259 + 5) 0x06 0 [0x01, 3, 7])] ∧
      (Comm_FeedBytes (fun l => l.sum * 16777259 + 5) RxCtx.initial
        ([0x55, 0xAA, 3, 7, [1, 2].length % 256, [1, 2].length / 256] ++ [1, 2] ++
          [0, 0, 0, 0])).1.rx_state = RX_STATE_HEAD1 :=
  crc_mismatch (fun l => l.sum * 16777259 + 5) 3 7 [1, 2] 0 0 0 0 (by decide) (by decide)
    (by decide) (by decide) (by decide) (by decide)

/-- C15, evaluated at the failing input: two valid frames of length 0 in a
row, `cmd = 2, seq = 7` and then `cmd = 3, seq = 7`.  The first is dispatched
and leaves `crc_index = 4`; `RX_STATE_LEN_H` enters `RX_STATE_CRC0` for a
length of 0 without resetting `crc_index` (only `RX_STATE_DATA` resets it), so
for the second frame the CRC decision is taken on the first trailer byte
(seven bytes into the frame), against the trailer bytes of the first frame,
and a CRC-error acknowledgement is transmitted; the second frame is never
dispatched, although the same bytes fed to the initial receiver are. -/
theorem crc_decision_after_zero_length_frame :
    (Comm_FeedBytes (fun l => l.sum * 16777259 + 5) RxCtx.initial
        (Comm_SendFrame (fun l => l.sum * 16777259 + 5) 2 7 (some []) 0)).2 =
        [CommEvent.HandlePacket 2 7 [] 0] ∧
      (Comm_FeedBytes (fun l => l.sum * 16777259 + 5) RxCtx.initial
        (Comm_SendFrame (fun l => l.sum * 16777259 + 5) 2 7 (some []) 0)).1.crc_index = 4 ∧
      (Comm_FeedBytes (fun l => l.sum * 16777259 + 5) RxCtx.initial
        (Comm_SendFrame (fun l => l.sum * 16777259 + 5) 3 7 (some []) 0)).2 =
        [CommEvent.HandlePacket 3 7 [] 0] ∧
      (Comm_FeedBytes (fun l => l.sum * 16777259 + 5) RxCtx.initial
        (Comm_SendFrame (fun l => l.sum * 16777259 + 5) 2 7 (some []) 0 ++
          (Comm_SendFrame (fun l => l.sum * 16777259 + 5) 3 7 (some []) 0).take 6)).1.rx_state =
        RX_STATE_CRC0 ∧
      (Comm_FeedBytes (fun l => l.sum * 16777259 + 5) RxCtx.initial
        (Comm_SendFrame (fun l => l.sum * 16777259 + 5) 2 7 (some []) 0 ++
          (Comm_SendFrame (fun l => l.sum * 16777259 + 5) 3 7 (some []) 0).take 7)).2 =
        [CommEvent.HandlePacket 2 7 [] 0,
          CommEvent.Transmit
            (Comm_SendAck (fun l => l.sum * 16777259 + 5) 3 7 COMM_STATUS_FRAME_CRC)] ∧
      (Comm_FeedBytes (fun l => l.sum * 16777259 + 5) RxCtx.initial
        (Comm_SendFrame (fun l => l.sum * 16777259 + 5) 2 7 (some []) 0 ++
          (Comm_SendFrame (fun l => l.sum * 16777259 + 5) 3 7 (some []) 0).take 7)).1.rx_state =
        RX_STATE_HEAD1 ∧
      (Comm_FeedBytes (fun l => l.sum * 16777259 + 5) RxCtx.initial
        (Comm_SendFrame (fun l => l.sum * 16777259 + 5) 2 7 (some []) 0 ++
          Comm_SendFrame (fun l => l.sum * 16777259 + 5) 3 7 (some []) 0)).2 =
        [CommEvent.HandlePacket 2 7 [] 0,
          CommEvent.Transmit
            (Comm_SendAck (fun l => l.sum * 16777259 + 5) 3 7 COMM_STATUS_FRAME_CRC)] := by
  refine ⟨by decide, by decide, by decide, by decide, by decide, by decide, by decide⟩

/-! ## Metadata records written by the update manager -/

/-- The loop of `Update_ReceiveChunk` logs no call of `FlashCV_WriteMeta`. -/
theorem Update_ReceiveChunk_loop_writes {W : Type} (H : Hw W) (data : List Nat) (len : Nat)
    (addr i : Nat) (m : Sys W) (r : BootMeta_t)
    (h : HwCall.FlashCV_WriteMeta r ∈ (Update_ReceiveChunk_loop H data len addr i m).2.calls) :
    HwCall.FlashCV_WriteMeta r ∈ m.calls := by
  induction addr, i, m using Update_ReceiveChunk_loop.induct H data len with
  | case1 addr i m hi x hx =>
    rw [Update_ReceiveChunk_loop, if_pos hi] at h
    simp only [] at h
    rw [if_pos hx] at h
    simpa [Sys.HAL_FLASH_Lock, Sys.HAL_FLASH_Program] using h
  | case2 addr i m hi x hx ih =>
    rw [Update_ReceiveChunk_loop, if_pos hi] at h
    simp only [] at h
    rw [if_neg hx] at h
    have h2 := ih h
    have hx2 : x.2.calls =
        m.calls ++ [HwCall.HAL_FLASH_Program addr (Update_ReceiveChunk_word data len i)] := rfl
    rw [hx2] at h2
    simpa using h2
  | case3 addr i m hi =>
    rw [Update_ReceiveChunk_loop, if_neg hi] at h
    exact h

/-- A call of `FlashCV_WriteMeta` logged after one operation of the update
manager was logged before it, or the operation is `Update_ProcessInIdle`,
armed and in `UPROC_WRITE_META`, and the record is the `VALID` record of the
session. -/
theorem Update_step_writes {W : Type} (H : Hw W) (op : UpdateOp) (x : UpdateVars × Sys W)
    (r : BootMeta_t) (h : HwCall.FlashCV_WriteMeta r ∈ (Update_step H op x).2.calls) :
    HwCall.FlashCV_WriteMeta r ∈ x.2.calls ∨
      (op = UpdateOp.ProcessInIdle ∧ x.1.g_finish_request ≠ 0 ∧
        x.1.g_proc_state = UPROC_WRITE_META ∧
        r = { flag := UPGRADE_FLAG_VALID, image_size := x.1.g_ctx.total_size,
              image_crc := x.1.g_ctx.image_crc, version := x.1.g_ctx.version,
              reserved := [0, 0, 0, 0] }) := by
  cases op with
  | Start t c v =>
    left
    simp only [Update_step] at h
    rcases Update_Start_cases H t c v x.1 x.2 with
      ⟨_, he⟩ | ⟨_, _, _, he⟩ | ⟨_, _, _, he⟩ <;> rw [he] at h
    · exact h
    all_goals
      simp only [Update_EraseDownloadArea, Sys.HAL_FLASH_Lock, Sys.HAL_FLASHEx_Erase,
        Sys.HAL_FLASH_Unlock] at h
      split at h
      · simpa using h
      · split at h <;> simpa using h
  | ReceiveChunk o d l =>
    left
    simp only [Update_step] at h
    rcases Update_ReceiveChunk_cases H o d l x.1 x.2 with
      ⟨_, he⟩ | ⟨d1, _, _, _, _, ⟨st, m2, hl, _, he⟩ | ⟨m2, hl, he⟩⟩ <;> rw [he] at h
    · exact h
    · have h2 := Update_ReceiveChunk_loop_writes H d1 l _ 0 (Sys.HAL_FLASH_Unlock H x.2) r
        (by rw [hl]; exact h)
      simpa [Sys.HAL_FLASH_Unlock] using h2
    · have h1 : HwCall.FlashCV_WriteMeta r ∈ m2.calls := by
        simpa [Sys.HAL_FLASH_Lock] using h
      have h2 := Update_ReceiveChunk_loop_writes H d1 l _ 0 (Sys.HAL_FLASH_Unlock H x.2) r
        (by rw [hl]; exact h1)
      simpa [Sys.HAL_FLASH_Unlock] using h2
  | RequestFinish => exact Or.inl h
  | ProcessInIdle =>
    simp only [Update_step, Update_ProcessInIdle] at h
    by_cases ha : x.1.g_finish_request = 0
    · rw [if_pos ha] at h
      exact Or.inl h
    · rw [if_neg ha] at h
      cases hp : x.1.g_proc_state <;> rw [hp] at h <;> simp only [] at h
      · left
        simpa using h
      · left
        split at h <;> simpa [Sys.FlashCV_CalcCRC] using h
      · split at h
        all_goals
          simp only [Sys.FlashCV_WriteMeta, List.mem_append, List.mem_singleton,
            HwCall.FlashCV_WriteMeta.injEq] at h
          rcases h with h | h
          · exact Or.inl h
          · exact Or.inr ⟨rfl, ha, rfl, h⟩
      · left
        simpa [Sys.NVIC_SystemReset] using h

/-- While a session is receiving or the deferred finisher is armed,
`total_size` is a size `Update_Start` accepted; every operation keeps it so. -/
theorem Update_step_accepted {W : Type} (H : Hw W) (op : UpdateOp) (x : UpdateVars × Sys W)
    (h : x.1.g_ctx.state = UPDATE_RECEIVING ∨ x.1.g_finish_request ≠ 0 →
      x.1.g_ctx.total_size ≠ 0 ∧
        (FLASH_DOWNLOAD_START_ADDR + x.1.g_ctx.total_size) % 2 ^ 32
          ≤ (FLASH_DOWNLOAD_END_ADDR + 1) % 2 ^ 32) :
    (Update_step H op x).1.g_ctx.state = UPDATE_RECEIVING ∨
        (Update_step H op x).1.g_finish_request ≠ 0 →
      (Update_step H op x).1.g_ctx.total_size ≠ 0 ∧
        (FLASH_DOWNLOAD_START_ADDR + (Update_step H op x).1.g_ctx.total_size) % 2 ^ 32
          ≤ (FLASH_DOWNLOAD_END_ADDR + 1) % 2 ^ 32 := by
  cases op with
  | Start t c v =>
    simp only [Update_step]
    rcases Update_Start_cases H t c v x.1 x.2 with
      ⟨_, he⟩ | ⟨h0, hr, _, he⟩ | ⟨h0, hr, _, he⟩ <;> rw [he]
    · exact h
    · exact fun _ => ⟨h0, hr⟩
    · exact fun _ => ⟨h0, hr⟩
  | ReceiveChunk o d l =>
    simp only [Update_step]
    rcases Update_ReceiveChunk_frame H o d l x.1 x.2 with he | he <;> rw [he] <;> exact h
  | RequestFinish =>
    simp only [Update_step]
    unfold Update_RequestFinish
    by_cases h1 : x.1.g_ctx.state = UPDATE_RECEIVING
    · by_cases h2 : x.1.g_ctx.received_size = x.1.g_ctx.total_size
      · rw [if_neg (not_not.mpr h1), if_neg (not_not.mpr h2)]
        exact fun _ => h (Or.inl h1)
      · rw [if_neg (not_not.mpr h1), if_pos h2]
        exact h
    · rw [if_pos h1]
      exact h
  | ProcessInIdle =>
    simp only [Update_step]
    by_cases ha : x.1.g_finish_request = 0
    · rw [Update_ProcessInIdle_unarmed H x.1 x.2 ha]
      exact h
    · have hacc := h (Or.inr ha)
      intro _
      unfold Update_ProcessInIdle
      rw [if_neg ha]
      cases x.1.g_proc_state <;> simp only []
      · exact hacc
      · split <;> exact hacc
      · split <;> exact hacc
      · exact hacc

/-- Every record a run of operations writes, from variables whose
`total_size` is an accepted size while receiving or armed, is a `VALID`
record whose `image_size` is a size `Update_Start` accepted. -/
theorem Update_run_writes_accepted {W : Type} (H : Hw W) (ops : List UpdateOp) :
    ∀ x : UpdateVars × Sys W,
      (x.1.g_ctx.state = UPDATE_RECEIVING ∨ x.1.g_finish_request ≠ 0 →
        x.1.g_ctx.total_size ≠ 0 ∧
          (FLASH_DOWNLOAD_START_ADDR + x.1.g_ctx.total_size) % 2 ^ 32
            ≤ (FLASH_DOWNLOAD_END_ADDR + 1) % 2 ^ 32) →
      ∀ r : BootMeta_t, HwCall.FlashCV_WriteMeta r ∈ (Update_run H ops x).2.calls →
        HwCall.FlashCV_WriteMeta r ∈ x.2.calls ∨
          (r.flag = UPGRADE_FLAG_VALID ∧ r.image_size ≠ 0 ∧
            (FLASH_DOWNLOAD_START_ADDR + r.image_size) % 2 ^ 32
              ≤ (FLASH_DOWNLOAD_END_ADDR + 1) % 2 ^ 32) := by
  induction ops with
  | nil => intro x _ r h; exact Or.inl h
  | cons op rest ih =>
    intro x hx r h
    rcases ih (Update_step H op x) (Update_step_accepted H op x hx) r h with h1 | h1
    · rcases Update_step_writes H op x r h1 with h2 | ⟨_, ha, _, hr⟩
      · exact Or.inl h2
      · have hacc := hx (Or.inr ha)
        rw [hr]
        exact Or.inr ⟨rfl, hacc.1, hacc.2⟩
    · exact Or.inr h1

/-- C16, counterexample.  On a hardware whose operations all succeed and
whose CRC unit answers 9: `Update_Start(0x20000, 9, 7)`, a chunk of one byte
at offset `0x1FFFF`, `Update_RequestFinish` and two calls of
`Update_ProcessInIdle`, from the initial variables, write the record
`{VALID, image_size = 0x20000, image_crc = 9, version = 7}`.  Its size is
within the download region (`0x40000`) but exceeds the capacity `0x18000` of
the application region, the bound `Bootloader_CheckAndUpgrade` enforces. -/
theorem metadata_size_invariant_counterexample :
    (Update_run (simHw 9)
        [UpdateOp.Start 0x20000 9 7, UpdateOp.ReceiveChunk 0x1FFFF (some [1]) 1,
          UpdateOp.RequestFinish, UpdateOp.ProcessInIdle, UpdateOp.ProcessInIdle]
        (UpdateVars.initial,
          { w := { flag := UPGRADE_FLAG_EMPTY, image_size := 0, image_crc := 0, version := 0,
                   reserved := [0, 0, 0, 0] }, calls := [] })).2.calls =
        [HwCall.HAL_FLASH_Unlock, HwCall.HAL_FLASHEx_Erase FLASH_SECTOR_5 2,
          HwCall.HAL_FLASH_Lock, HwCall.HAL_FLASH_Unlock,
          HwCall.HAL_FLASH_Program 0x0803FFFF 0xFFFFFF01, HwCall.HAL_FLASH_Lock,
          HwCall.FlashCV_CalcCRC FLASH_DOWNLOAD_START_ADDR 0x20000,
          HwCall.FlashCV_WriteMeta
            { flag := UPGRADE_FLAG_VALID, image_size := 0x20000, image_crc := 9, version := 7,
              reserved := [0, 0, 0, 0] }] ∧
      ¬ ((0x20000 : Nat) ≤ 0x18000) ∧ (0x20000 : Nat) ≤ 0x40000 ∧
      FLASH_APP_END_ADDR + 1 - FLASH_APP_START_ADDR = 0x18000 ∧
      Bootloader_size_rejected 0x20000 := by
  refine ⟨?_, by decide, by decide, by decide, by decide⟩
  simp [Update_run, Update_step, UpdateVars.initial, Update_Start, Update_EraseDownloadArea,
    Update_RequestFinish, Update_ProcessInIdle, Update_ReceiveChunk, Update_ReceiveChunk_loop,
    Update_ReceiveChunk_word, Update_ReceiveChunk_copy, Sys.HAL_FLASH_Program,
    Sys.HAL_FLASH_Unlock, Sys.HAL_FLASH_Lock, Sys.HAL_FLASHEx_Erase, Sys.FlashCV_CalcCRC,
    Sys.FlashCV_WriteMeta, simHw, FLASH_DOWNLOAD_START_ADDR, FLASH_DOWNLOAD_END_ADDR,
    FLASH_SECTOR_5]

/-- C16, amended (metadata size invariant).  Whatever calls of `Update_Start`,
`Update_ReceiveChunk`, `Update_RequestFinish` and `Update_ProcessInIdle` are
made, in any order and with any arguments, from the initial variables and on
any hardware, every record handed to `FlashCV_WriteMeta` has flag `VALID` and
an `image_size` that passed the size check of `Update_Start`: it is not 0 and
the 32-bit sum `FLASH_DOWNLOAD_START_ADDR + image_size` does not exceed the
end of the download region, which for every size below `0xF7FE0000` means
`image_size ≤ 0x40000`.  (No bound by the capacity `0x18000` of the
application region holds; that check is made by `Bootloader_CheckAndUpgrade`
alone.) -/
theorem metadata_size_invariant {W : Type} (H : Hw W) (ops : List UpdateOp) (m0 : Sys W)
    (r : BootMeta_t) (hnew : HwCall.FlashCV_WriteMeta r ∉ m0.calls)
    (h : HwCall.FlashCV_WriteMeta r ∈ (Update_run H ops (UpdateVars.initial, m0)).2.calls) :
    r.flag = UPGRADE_FLAG_VALID ∧ 0 < r.image_size ∧
      (FLASH_DOWNLOAD_START_ADDR + r.image_size) % 2 ^ 32
        ≤ (FLASH_DOWNLOAD_END_ADDR + 1) % 2 ^ 32 ∧
      (r.image_size < 0xF7FE0000 → r.image_size ≤ 0x40000) := by
  have hinit : (UpdateVars.initial, m0).1.g_ctx.state = UPDATE_RECEIVING ∨
      (UpdateVars.initial, m0).1.g_finish_request ≠ 0 →
      (UpdateVars.initial, m0).1.g_ctx.total_size ≠ 0 ∧
        (FLASH_DOWNLOAD_START_ADDR + (UpdateVars.initial, m0).1.g_ctx.total_size) % 2 ^ 32
          ≤ (FLASH_DOWNLOAD_END_ADDR + 1) % 2 ^ 32 := by
    intro hc
    rcases hc with hc | hc
    · cases hc
    · exact absurd rfl hc
  rcases Update_run_writes_accepted H ops (UpdateVars.initial, m0) hinit r h with h1 | ⟨hf, h0, hr⟩
  · exact absurd h1 hnew
  · refine ⟨hf, Nat.pos_of_ne_zero h0, hr, ?_⟩
    intro hlt
    unfold FLASH_DOWNLOAD_START_ADDR FLASH_DOWNLOAD_END_ADDR at hr
    omega

theorem metadata_size_invariant_witness :
    (⟨UPGRADE_FLAG_VALID, 2, 9, 7, [0, 0, 0, 0]⟩ : BootMeta_t).flag = UPGRADE_FLAG_VALID ∧
      0 < (⟨UPGRADE_FLAG_VALID, 2, 9, 7, [0, 0, 0, 0]⟩ : BootMeta_t).image_size ∧
      (FLASH_DOWNLOAD_START_ADDR +
          (⟨UPGRADE_FLAG_VALID, 2, 9, 7, [0, 0, 0, 0]⟩ : BootMeta_t).image_size) % 2 ^ 32
        ≤ (FLASH_DOWNLOAD_END_ADDR + 1) % 2 ^ 32 ∧
      ((⟨UPGRADE_FLAG_VALID, 2, 9, 7, [0, 0, 0, 0]⟩ : BootMeta_t).image_size < 0xF7FE0000 →
        (⟨UPGRADE_FLAG_VALID, 2, 9, 7, [0, 0, 0, 0]⟩ : BootMeta_t).image_size ≤ 0x40000) :=
  metadata_size_invariant (simHw 9)
    [UpdateOp.Start 2 9 7, UpdateOp.ReceiveChunk 0 (some [1, 2]) 2, UpdateOp.RequestFinish,
      UpdateOp.ProcessInIdle, UpdateOp.ProcessInIdle]
    ⟨⟨UPGRADE_FLAG_EMPTY, 0, 0, 0, [0, 0, 0, 0]⟩, []⟩
    ⟨UPGRADE_FLAG_VALID, 2, 9, 7, [0, 0, 0, 0]⟩
    (by simp)
    (by
      simp [Update_run, Update_step, UpdateVars.initial, Update_Start, Update_EraseDownloadArea,
        Update_RequestFinish, Update_ProcessInIdle, Update_ReceiveChunk,
        Update_ReceiveChunk_loop, Update_ReceiveChunk_word, Update_ReceiveChunk_copy,
        Sys.HAL_FLASH_Program, Sys.HAL_FLASH_Unlock, Sys.HAL_FLASH_Lock, Sys.HAL_FLASHEx_Erase,
        Sys.FlashCV_CalcCRC, Sys.FlashCV_WriteMeta, simHw, FLASH_DOWNLOAD_START_ADDR,
        FLASH_DOWNLOAD_END_ADDR, FLASH_SECTOR_5])

/-! ## After a successful finish request -/

/-- One operation other than `Update_Start`, with a finish request pending:
the request is still pending, with the same image and the same hardware
state; or `Update_ProcessInIdle` aborted it (CRC mismatch or failed metadata
write); or `Update_ProcessInIdle` wrote the record of the image and reached
`UPROC_DONE`, the session record unchanged. -/
theorem Update_step_pending {W : Type} (H : Hw W) (T C V : Nat) (op : UpdateOp)
    (x : UpdateVars × Sys W) (hno : Update_noStart [op]) (hp : Update_Pending H T C V x) :
    (Update_Pending H T C V (Update_step H op x) ∧ (Update_step H op x).2.w = x.2.w ∧
        (Update_step H op x).1.g_ctx = x.1.g_ctx) ∨
      (op = UpdateOp.ProcessInIdle ∧ (Update_step H op x).1.g_finish_request = 0 ∧
        (Update_step H op x).1.g_ctx.state = UPDATE_IDLE ∧
        (Update_step H op x).1.g_proc_state = UPROC_IDLE ∧
        ((x.1.g_proc_state = UPROC_VERIFYING ∧
            H.FlashCV_CalcCRC FLASH_DOWNLOAD_START_ADDR T x.2.w ≠ C) ∨
          (x.1.g_proc_state = UPROC_WRITE_META ∧
            (H.FlashCV_WriteMeta
              { flag := UPGRADE_FLAG_VALID, image_size := T, image_crc := C, version := V,
                reserved := [0, 0, 0, 0] } x.2.w).1 ≠ HAL_OK))) ∨
      (op = UpdateOp.ProcessInIdle ∧ x.1.g_proc_state = UPROC_WRITE_META ∧
        (Update_step H op x).1 = { x.1 with g_proc_state := UPROC_DONE } ∧
        (Update_step H op x).2.calls = x.2.calls ++
          [HwCall.FlashCV_WriteMeta
            { flag := UPGRADE_FLAG_VALID, image_size := T, image_crc := C, version := V,
              reserved := [0, 0, 0, 0] }]) := by
  obtain ⟨ha, hs, hT, hC, hV, hproc⟩ := hp
  have hnr : x.1.g_ctx.state ≠ UPDATE_RECEIVING := by rw [hs]; decide
  cases op with
  | Start t c v => exact absurd hno (by simp [Update_noStart])
  | ReceiveChunk o d l =>
    left
    have he : Update_ReceiveChunk H o d l x.1 x.2 = (HAL_ERROR, x.1, x.2) := by
      unfold Update_ReceiveChunk
      rw [if_pos hnr]
    have hstep : Update_step H (UpdateOp.ReceiveChunk o d l) x = x := by
      simp only [Update_step, he]
    rw [hstep]
    exact ⟨⟨ha, hs, hT, hC, hV, hproc⟩, rfl, rfl⟩
  | RequestFinish =>
    left
    have he : Update_RequestFinish x.1 = (HAL_ERROR, x.1) := by
      unfold Update_RequestFinish
      rw [if_pos hnr]
    have hstep : Update_step H UpdateOp.RequestFinish x = x := by
      simp only [Update_step, he]
    rw [hstep]
    exact ⟨⟨ha, hs, hT, hC, hV, hproc⟩, rfl, rfl⟩
  | ProcessInIdle =>
    rcases hproc with hv | ⟨hw, hcrc⟩
    · by_cases hc : H.FlashCV_CalcCRC FLASH_DOWNLOAD_START_ADDR T x.2.w = C
      · have hstep : Update_step H UpdateOp.ProcessInIdle x =
            ({ x.1 with g_crc_calc := C, g_proc_state := UPROC_WRITE_META },
              { w := x.2.w
                calls := x.2.calls ++ [HwCall.FlashCV_CalcCRC FLASH_DOWNLOAD_START_ADDR T] }) := by
          simp [Update_step, Update_ProcessInIdle, Sys.FlashCV_CalcCRC, ha, hv, hT, hC, hc]
        rw [hstep]
        exact Or.inl ⟨⟨ha, hs, hT, hC, hV, Or.inr ⟨rfl, hc⟩⟩, rfl, rfl⟩
      · have hstep : Update_step H UpdateOp.ProcessInIdle x =
            ({ x.1 with
                g_crc_calc := H.FlashCV_CalcCRC FLASH_DOWNLOAD_START_ADDR T x.2.w
                g_finish_request := 0
                g_proc_state := UPROC_IDLE
                g_ctx := { x.1.g_ctx with state := UPDATE_IDLE } },
              { w := x.2.w
                calls := x.2.calls ++ [HwCall.FlashCV_CalcCRC FLASH_DOWNLOAD_START_ADDR T] }) := by
          simp [Update_step, Update_ProcessInIdle, Sys.FlashCV_CalcCRC, ha, hv, hT, hC, hc]
        rw [hstep]
        exact Or.inr (Or.inl ⟨rfl, rfl, rfl, rfl, Or.inl ⟨hv, hc⟩⟩)
    · by_cases hst : (H.FlashCV_WriteMeta
          { flag := UPGRADE_FLAG_VALID, image_size := T, image_crc := C, version := V,
            reserved := [0, 0, 0, 0] } x.2.w).1 = HAL_OK
      · have hstep : Update_step H UpdateOp.ProcessInIdle x =
            ({ x.1 with g_proc_state := UPROC_DONE },
              { w := (H.FlashCV_WriteMeta
                  { flag := UPGRADE_FLAG_VALID, image_size := T, image_crc := C, version := V,
                    reserved := [0, 0, 0, 0] } x.2.w).2
                calls := x.2.calls ++
                  [HwCall.FlashCV_WriteMeta
                    { flag := UPGRADE_FLAG_VALID, image_size := T, image_crc := C, version := V,
                      reserved := [0, 0, 0, 0] }] }) := by
          simp [Update_step, Update_ProcessInIdle, Sys.FlashCV_WriteMeta, ha, hw, hT, hC, hV, hst]
        rw [hstep]
        exact Or.inr (Or.inr ⟨rfl, hw, rfl, rfl⟩)
      · have hstep : Update_step H UpdateOp.ProcessInIdle x =
            ({ x.1 with
                g_finish_request := 0
                g_proc_state := UPROC_IDLE
                g_ctx := { x.1.g_ctx with state := UPDATE_IDLE } },
              { w := (H.FlashCV_WriteMeta
                  { flag := UPGRADE_FLAG_VALID, image_size := T, image_crc := C, version := V,
                    reserved := [0, 0, 0, 0] } x.2.w).2
                calls := x.2.calls ++
                  [HwCall.FlashCV_WriteMeta
                    { flag := UPGRADE_FLAG_VALID, image_size := T, image_crc := C, version := V,
                      reserved := [0, 0, 0, 0] }] }) := by
          simp [Update_step, Update_ProcessInIdle, Sys.FlashCV_WriteMeta, ha, hw, hT, hC, hV, hst]
        rw [hstep]
        exact Or.inr (Or.inl ⟨rfl, rfl, rfl, rfl, Or.inr ⟨hw, hst⟩⟩)

/-- Once the finish request is over (the finisher disarmed, or `UPROC_DONE`
reached) and no session is receiving, an operation other than `Update_Start`
keeps it so. -/
theorem Update_step_settled {W : Type} (H : Hw W) (op : UpdateOp) (x : UpdateVars × Sys W)
    (hno : Update_noStart [op]) (hnr : x.1.g_ctx.state ≠ UPDATE_RECEIVING)
    (hd : x.1.g_finish_request = 0 ∨ x.1.g_proc_state = UPROC_DONE) :
    (Update_step H op x).1.g_ctx.state ≠ UPDATE_RECEIVING ∧
      ((Update_step H op x).1.g_finish_request = 0 ∨
        (Update_step H op x).1.g_proc_state = UPROC_DONE) := by
  cases op with
  | Start t c v => exact absurd hno (by simp [Update_noStart])
  | ReceiveChunk o d l =>
    have he : Update_ReceiveChunk H o d l x.1 x.2 = (HAL_ERROR, x.1, x.2) := by
      unfold Update_ReceiveChunk
      rw [if_pos hnr]
    have hstep : Update_step H (UpdateOp.ReceiveChunk o d l) x = x := by
      simp only [Update_step, he]
    rw [hstep]
    exact ⟨hnr, hd⟩
  | RequestFinish =>
    have he : Update_RequestFinish x.1 = (HAL_ERROR, x.1) := by
      unfold Update_RequestFinish
      rw [if_pos hnr]
    have hstep : Update_step H UpdateOp.RequestFinish x = x := by
      simp only [Update_step, he]
    rw [hstep]
    exact ⟨hnr, hd⟩
  | ProcessInIdle =>
    simp only [Update_step]
    by_cases ha : x.1.g_finish_request = 0
    · rw [Update_ProcessInIdle_unarmed H x.1 x.2 ha]
      exact ⟨hnr, hd⟩
    · have hdone : x.1.g_proc_state = UPROC_DONE := hd.resolve_left ha
      have hstep : Update_ProcessInIdle H x.1 x.2 =
          ({ x.1 with g_ctx := { x.1.g_ctx with state := UPDATE_FINISHED },
                      g_finish_request := 0 }, Sys.NVIC_SystemReset x.2) := by
        simp [Update_ProcessInIdle, ha, hdone]
      rw [hstep]
      exact ⟨fun h => UpdateState_t.noConfusion h, Or.inl rfl⟩

/-- The head and the tail of a list without `Update_Start`. -/
theorem Update_noStart_cons (op : UpdateOp) (rest : List UpdateOp)
    (h : Update_noStart (op :: rest)) : Update_noStart [op] ∧ Update_noStart rest := by
  cases op <;> simp [Update_noStart] at h ⊢ <;> exact h

/-- Records written in a run without `Update_Start`, from a pending finish
request for the image `(T, C, V)` on hardware state `w0` (or from a finish
request that is over): every record handed to `FlashCV_WriteMeta` is the
`VALID` record of `(T, C, V)`, and the CRC of the first `T` bytes of the
download region on `w0` is `C`. -/
theorem Update_run_pending_writes {W : Type} (H : Hw W) (T C V : Nat) (w0 : W)
    (base : List HwCall) (ops : List UpdateOp) :
    ∀ y : UpdateVars × Sys W, Update_noStart ops →
      ((Update_Pending H T C V y ∧ y.2.w = w0) ∨
        (y.1.g_ctx.state ≠ UPDATE_RECEIVING ∧
          (y.1.g_finish_request = 0 ∨ y.1.g_proc_state = UPROC_DONE))) →
      (∀ r : BootMeta_t, HwCall.FlashCV_WriteMeta r ∈ y.2.calls →
        HwCall.FlashCV_WriteMeta r ∈ base ∨
          (r = { flag := UPGRADE_FLAG_VALID, image_size := T, image_crc := C, version := V,
                 reserved := [0, 0, 0, 0] } ∧
            H.FlashCV_CalcCRC FLASH_DOWNLOAD_START_ADDR T w0 = C)) →
      ∀ r : BootMeta_t, HwCall.FlashCV_WriteMeta r ∈ (Update_run H ops y).2.calls →
        HwCall.FlashCV_WriteMeta r ∈ base ∨
          (r = { flag := UPGRADE_FLAG_VALID, image_size := T, image_crc := C, version := V,
                 reserved := [0, 0, 0, 0] } ∧
            H.FlashCV_CalcCRC FLASH_DOWNLOAD_START_ADDR T w0 = C) := by
  induction ops with
  | nil => intro y _ _ hq r h; exact hq r h
  | cons op rest ih =>
    intro y hno hst hq r h
    obtain ⟨hno1, hno2⟩ := Update_noStart_cons op rest hno
    refine ih (Update_step H op y) hno2 ?_ ?_ r h
    · rcases hst with ⟨hp, hw⟩ | ⟨hnr, hd⟩
      · rcases Update_step_pending H T C V op y hno1 hp with
          ⟨hp2, hw2, _⟩ | ⟨_, ha, hs, _, _⟩ | ⟨_, _, he, _⟩
        · exact Or.inl ⟨hp2, hw2.trans hw⟩
        · refine Or.inr ⟨?_, Or.inl ha⟩
          rw [hs]
          exact fun h => UpdateState_t.noConfusion h
        · refine Or.inr ⟨?_, Or.inr (by rw [he])⟩
          rw [he]
          show y.1.g_ctx.state ≠ UPDATE_RECEIVING
          rw [hp.2.1]
          exact fun h => UpdateState_t.noConfusion h
      · exact Or.inr (Update_step_settled H op y hno1 hnr hd)
    · intro r2 h2
      rcases Update_step_writes H op y r2 h2 with h3 | ⟨_, ha, hwm, hr⟩
      · exact hq r2 h3
      · rcases hst with ⟨hp, hw⟩ | ⟨_, hd⟩
        · obtain ⟨_, _, hT, hC, hV, hproc⟩ := hp
          rcases hproc with hv | ⟨_, hcrc⟩
          · rw [hv] at hwm
            cases hwm
          · right
            rw [hr, hT, hC, hV, ← hw]
            exact ⟨rfl, hcrc⟩
        · rcases hd with hd | hd
          · exact absurd hd ha
          · rw [hd] at hwm
            cases hwm

/-- C17, counterexample.  On a hardware whose operations all succeed and
whose CRC unit answers 9, a session for `total_size = 2`, `image_crc = 9`,
`version = 7` receives its two bytes and `Update_RequestFinish` succeeds.
`Update_Start(4, 5, 8)`, which has no check of the state, then replaces
`total_size`, `image_crc` and `version` and sets the state to
`UPDATE_RECEIVING`, although `Update_ProcessInIdle` has neither aborted nor
reached `UPROC_DONE` (it has not run); the finisher stays armed.  With a call
of `Update_ProcessInIdle` before and after that `Update_Start`, the record
written is `{VALID, image_size = 4, image_crc = 5, version = 8}`, while the
only CRC computed was that of 2 bytes, compared with 9. -/
theorem no_cancellation_after_finish_counterexample :
    (Update_RequestFinish
        (Update_run (simHw 9) [UpdateOp.Start 2 9 7, UpdateOp.ReceiveChunk 0 (some [1, 2]) 2]
          (UpdateVars.initial,
            { w := { flag := UPGRADE_FLAG_EMPTY, image_size := 0, image_crc := 0, version := 0,
                     reserved := [0, 0, 0, 0] }, calls := [] })).1).1 = HAL_OK ∧
      (Update_run (simHw 9)
        [UpdateOp.Start 2 9 7, UpdateOp.ReceiveChunk 0 (some [1, 2]) 2, UpdateOp.RequestFinish]
        (UpdateVars.initial,
          { w := { flag := UPGRADE_FLAG_EMPTY, image_size := 0, image_crc := 0, version := 0,
                   reserved := [0, 0, 0, 0] }, calls := [] })).1 =
        { g_ctx := { state := UPDATE_FINISH_REQUESTED, total_size := 2, image_crc := 9,
                     version := 7, received_size := 2 },
          g_finish_request := 1, g_proc_state := UPROC_VERIFYING, g_crc_calc := 0 } ∧
      (Update_run (simHw 9)
        [UpdateOp.Start 2 9 7, UpdateOp.ReceiveChunk 0 (some [1, 2]) 2, UpdateOp.RequestFinish,
          UpdateOp.Start 4 5 8]
        (UpdateVars.initial,
          { w := { flag := UPGRADE_FLAG_EMPTY, image_size := 0, image_crc := 0, version := 0,
                   reserved := [0, 0, 0, 0] }, calls := [] })).1 =
        { g_ctx := { state := UPDATE_RECEIVING, total_size := 4, image_crc := 5,
                     version := 8, received_size := 0 },
          g_finish_request := 1, g_proc_state := UPROC_VERIFYING, g_crc_calc := 0 } ∧
      (Update_run (simHw 9)
        [UpdateOp.Start 2 9 7, UpdateOp.ReceiveChunk 0 (some [1, 2]) 2, UpdateOp.RequestFinish,
          UpdateOp.ProcessInIdle, UpdateOp.Start 4 5 8, UpdateOp.ProcessInIdle]
        (UpdateVars.initial,
          { w := { flag := UPGRADE_FLAG_EMPTY, image_size := 0, image_crc := 0, version := 0,
                   reserved := [0, 0, 0, 0] }, calls := [] })).2.calls =
        [HwCall.HAL_FLASH_Unlock, HwCall.HAL_FLASHEx_Erase FLASH_SECTOR_5 2,
          HwCall.HAL_FLASH_Lock, HwCall.HAL_FLASH_Unlock,
          HwCall.HAL_FLASH_Program 0x08020000 0xFFFF0201, HwCall.HAL_FLASH_Lock,
          HwCall.FlashCV_CalcCRC FLASH_DOWNLOAD_START_ADDR 2,
          HwCall.HAL_FLASH_Unlock, HwCall.HAL_FLASHEx_Erase FLASH_SECTOR_5 2,
          HwCall.HAL_FLASH_Lock,
          HwCall.FlashCV_WriteMeta
            { flag := UPGRADE_FLAG_VALID, image_size := 4, image_crc := 5, version := 8,
              reserved := [0, 0, 0, 0] }] ∧
      (∀ w : BootMeta_t, (simHw 9).FlashCV_CalcCRC FLASH_DOWNLOAD_START_ADDR 4 w ≠ 5) := by
  refine ⟨?_, ?_, ?_, ?_, fun w => by simp [simHw]⟩ <;>
    simp [Update_run, Update_step, UpdateVars.initial, Update_Start, Update_EraseDownloadArea,
      Update_RequestFinish, Update_ProcessInIdle, Update_ReceiveChunk, Update_ReceiveChunk_loop,
      Update_ReceiveChunk_word, Update_ReceiveChunk_copy, Sys.HAL_FLASH_Program,
      Sys.HAL_FLASH_Unlock, Sys.HAL_FLASH_Lock, Sys.HAL_FLASHEx_Erase, Sys.FlashCV_CalcCRC,
      Sys.FlashCV_WriteMeta, simHw, FLASH_DOWNLOAD_START_ADDR, FLASH_DOWNLOAD_END_ADDR,
      FLASH_SECTOR_5]

/-- C17, amended (no cancellation after `Update_RequestFinish`, as long as
`Update_Start` is not called).  When `Update_RequestFinish` returns `HAL_OK`,
a finish request is pending for the `total_size`, `image_crc` and `version`
of the session.  Every later call of `Update_ReceiveChunk`,
`Update_RequestFinish` or `Update_ProcessInIdle`, with any arguments, made
while it is pending either leaves it pending (state
`UPDATE_FINISH_REQUESTED`, the session record and the hardware state
unchanged), or is the `Update_ProcessInIdle` that aborts (CRC mismatch or
failed metadata write), or is the `Update_ProcessInIdle` that writes the
record and reaches `UPROC_DONE`, the session record unchanged.  Consequently
every record handed to `FlashCV_WriteMeta` in such a run is the `VALID`
record with exactly that `total_size`, `image_crc` and `version`, and the
CRC of the first `total_size` bytes of the download region is `image_crc`. -/
theorem no_cancellation_after_finish {W : Type} (H : Hw W) (s0 : UpdateVars) (m : Sys W)
    (hfin : (Update_RequestFinish s0).1 = HAL_OK) :
    Update_Pending H s0.g_ctx.total_size s0.g_ctx.image_crc s0.g_ctx.version
        ((Update_RequestFinish s0).2, m) ∧
      (∀ (op : UpdateOp) (x : UpdateVars × Sys W), Update_noStart [op] →
        Update_Pending H s0.g_ctx.total_size s0.g_ctx.image_crc s0.g_ctx.version x →
        (Update_Pending H s0.g_ctx.total_size s0.g_ctx.image_crc s0.g_ctx.version
              (Update_step H op x) ∧
            (Update_step H op x).2.w = x.2.w ∧ (Update_step H op x).1.g_ctx = x.1.g_ctx) ∨
          (op = UpdateOp.ProcessInIdle ∧ (Update_step H op x).1.g_finish_request = 0 ∧
            (Update_step H op x).1.g_ctx.state = UPDATE_IDLE ∧
            (Update_step H op x).1.g_proc_state = UPROC_IDLE ∧
            ((x.1.g_proc_state = UPROC_VERIFYING ∧
                H.FlashCV_CalcCRC FLASH_DOWNLOAD_START_ADDR s0.g_ctx.total_size x.2.w ≠
                  s0.g_ctx.image_crc) ∨
              (x.1.g_proc_state = UPROC_WRITE_META ∧
                (H.FlashCV_WriteMeta
                  { flag := UPGRADE_FLAG_VALID, image_size := s0.g_ctx.total_size,
                    image_crc := s0.g_ctx.image_crc, version := s0.g_ctx.version,
                    reserved := [0, 0, 0, 0] } x.2.w).1 ≠ HAL_OK))) ∨
          (op = UpdateOp.ProcessInIdle ∧ x.1.g_proc_state = UPROC_WRITE_META ∧
            (Update_step H op x).1 = { x.1 with g_proc_state := UPROC_DONE } ∧
            (Update_step H op x).2.calls = x.2.calls ++
              [HwCall.FlashCV_WriteMeta
                { flag := UPGRADE_FLAG_VALID, image_size := s0.g_ctx.total_size,
                  image_crc := s0.g_ctx.image_crc, version := s0.g_ctx.version,
                  reserved := [0, 0, 0, 0] }])) ∧
      (∀ (ops : List UpdateOp) (r : BootMeta_t), Update_noStart ops →
        HwCall.FlashCV_WriteMeta r ∈
          (Update_run H ops ((Update_RequestFinish s0).2, m)).2.calls →
        HwCall.FlashCV_WriteMeta r ∈ m.calls ∨
          (r = { flag := UPGRADE_FLAG_VALID, image_size := s0.g_ctx.total_size,
                 image_crc := s0.g_ctx.image_crc, version := s0.g_ctx.version,
                 reserved := [0, 0, 0, 0] } ∧
            H.FlashCV_CalcCRC FLASH_DOWNLOAD_START_ADDR s0.g_ctx.total_size m.w =
              s0.g_ctx.image_crc)) := by
  obtain ⟨_, _, hs3⟩ := Update_RequestFinish_ok s0 (Update_RequestFinish s0).2
    (Prod.ext hfin rfl)
  have hpend : Update_Pending H s0.g_ctx.total_size s0.g_ctx.image_crc s0.g_ctx.version
      ((Update_RequestFinish s0).2, m) := by
    rw [hs3]
    exact ⟨fun h => Nat.one_ne_zero h, rfl, rfl, rfl, rfl, Or.inl rfl⟩
  refine ⟨hpend, ?_, ?_⟩
  · intro op x hno hp
    exact Update_step_pending H _ _ _ op x hno hp
  · intro ops r hno h
    exact Update_run_pending_writes H _ _ _ m.w m.calls ops _ hno (Or.inl ⟨hpend, rfl⟩)
      (fun r2 h2 => Or.inl h2) r h

theorem no_cancellation_after_finish_witness :
    Update_Pending (simHw 9) 2 9 7
      ((Update_RequestFinish
          { g_ctx := { state := UPDATE_RECEIVING, total_size := 2, image_crc := 9,
                       version := 7, received_size := 2 },
            g_finish_request := 0, g_proc_state := UPROC_IDLE, g_crc_calc := 0 }).2,
        { w := { flag := UPGRADE_FLAG_EMPTY, image_size := 0, image_crc := 0, version := 0,
                 reserved := [0, 0, 0, 0] }, calls := [] }) :=
  (no_cancellation_after_finish (simHw 9)
    { g_ctx := { state := UPDATE_RECEIVING, total_size := 2, image_crc := 9,
                 version := 7, received_size := 2 },
      g_finish_request := 0, g_proc_state := UPROC_IDLE, g_crc_calc := 0 }
    { w := { flag := UPGRADE_FLAG_EMPTY, image_size := 0, image_crc := 0, version := 0,
             reserved := [0, 0, 0, 0] }, calls := [] }
    (by decide)).1

/-! ## Erase before copy -/

/-- C18 (erase before copy), with the body of `FlashCV_CopyImageToApp`
modelled from the specification.  For every hardware and every stored record,
the steps one run of `Bootloader_CheckAndUpgrade` takes on the execution
region are none at all; or the erase alone, when `FlashCV_EraseAppArea`
reports a status other than `HAL_OK`: the copy is then not started, and the
run ends on the return of `FlashCV_CopyImageToApp` without a CRC of the
application region and without `FlashCV_ClearMetaFlag`; or the erase, reported
`HAL_OK`, followed by the copy of `image_size` bytes.  So whenever a run
copies, the erase of that same run came first and succeeded. -/
theorem erase_before_copy {W : Type} (H : Hw W) (copy : Nat → W → HAL_StatusTypeDef × W)
    (m : Sys (W × List Spec_CommitStep)) :
    ((Bootloader_CheckAndUpgrade (Spec_CommitHw H copy) m).w.2 = m.w.2 ∨
        ((H.FlashCV_EraseAppArea m.w.1).1 ≠ HAL_OK ∧
          (Bootloader_CheckAndUpgrade (Spec_CommitHw H copy) m).w.2 =
            m.w.2 ++ [Spec_CommitStep.EraseExecutionRegion] ∧
          (Bootloader_CheckAndUpgrade (Spec_CommitHw H copy) m).calls =
            m.calls ++ [HwCall.FlashCV_ReadMeta,
              HwCall.FlashCV_CalcCRC FLASH_DOWNLOAD_START_ADDR
                (H.FlashCV_ReadMeta m.w.1).image_size,
              HwCall.FlashCV_CopyImageToApp (H.FlashCV_ReadMeta m.w.1).image_size]) ∨
        ((H.FlashCV_EraseAppArea m.w.1).1 = HAL_OK ∧
          (Bootloader_CheckAndUpgrade (Spec_CommitHw H copy) m).w.2 =
            m.w.2 ++ [Spec_CommitStep.EraseExecutionRegion,
              Spec_CommitStep.CopyStagingToExecution (H.FlashCV_ReadMeta m.w.1).image_size])) ∧
      (∀ (size : Nat) (before after : List Spec_CommitStep),
        (Bootloader_CheckAndUpgrade (Spec_CommitHw H copy) m).w.2 =
            m.w.2 ++ before ++ [Spec_CommitStep.CopyStagingToExecution size] ++ after →
          before = [Spec_CommitStep.EraseExecutionRegion] ∧
            (H.FlashCV_EraseAppArea m.w.1).1 = HAL_OK) := by
  have hcases : (Bootloader_CheckAndUpgrade (Spec_CommitHw H copy) m).w.2 = m.w.2 ∨
        ((H.FlashCV_EraseAppArea m.w.1).1 ≠ HAL_OK ∧
          (Bootloader_CheckAndUpgrade (Spec_CommitHw H copy) m).w.2 =
            m.w.2 ++ [Spec_CommitStep.EraseExecutionRegion] ∧
          (Bootloader_CheckAndUpgrade (Spec_CommitHw H copy) m).calls =
            m.calls ++ [HwCall.FlashCV_ReadMeta,
              HwCall.FlashCV_CalcCRC FLASH_DOWNLOAD_START_ADDR
                (H.FlashCV_ReadMeta m.w.1).image_size,
              HwCall.FlashCV_CopyImageToApp (H.FlashCV_ReadMeta m.w.1).image_size]) ∨
        ((H.FlashCV_EraseAppArea m.w.1).1 = HAL_OK ∧
          (Bootloader_CheckAndUpgrade (Spec_CommitHw H copy) m).w.2 =
            m.w.2 ++ [Spec_CommitStep.EraseExecutionRegion,
              Spec_CommitStep.CopyStagingToExecution
                (H.FlashCV_ReadMeta m.w.1).image_size]) := by
    by_cases he : (H.FlashCV_EraseAppArea m.w.1).1 = HAL_OK
    · rcases Bootloader_CheckAndUpgrade_cases (Spec_CommitHw H copy) m with
        ⟨_, h⟩ | ⟨_, _, h⟩ | ⟨_, _, _, h⟩ | ⟨_, _, _, _, h⟩ | ⟨_, _, _, _, _, h⟩ |
        ⟨_, _, _, _, _, h⟩
      · exact Or.inl (by rw [h])
      · exact Or.inl (by rw [h])
      · exact Or.inl (by rw [h])
      · refine Or.inr (Or.inr ⟨he, ?_⟩)
        rw [h]
        simp [Spec_CommitHw, Spec_FlashCV_CopyImageToApp, he]
      · refine Or.inr (Or.inr ⟨he, ?_⟩)
        rw [h]
        simp [Spec_CommitHw, Spec_FlashCV_CopyImageToApp, he]
      · refine Or.inr (Or.inr ⟨he, ?_⟩)
        rw [h]
        simp [Spec_CommitHw, Spec_FlashCV_CopyImageToApp, he]
    · have hst : ∀ n : Nat, ((Spec_CommitHw H copy).FlashCV_CopyImageToApp n m.w).1 =
          (H.FlashCV_EraseAppArea m.w.1).1 := by
        intro n
        simp [Spec_CommitHw, Spec_FlashCV_CopyImageToApp, he]
      rcases Bootloader_CheckAndUpgrade_cases (Spec_CommitHw H copy) m with
        ⟨_, h⟩ | ⟨_, _, h⟩ | ⟨_, _, _, h⟩ | ⟨_, _, _, _, h⟩ | ⟨_, _, _, hok, _⟩ |
        ⟨_, _, _, hok, _⟩
      · exact Or.inl (by rw [h])
      · exact Or.inl (by rw [h])
      · exact Or.inl (by rw [h])
      · refine Or.inr (Or.inl ⟨he, ?_, ?_⟩)
        · rw [h]
          simp [Spec_CommitHw, Spec_FlashCV_CopyImageToApp, he]
        · rw [h]
          rfl
      · rw [hst] at hok
        exact absurd hok he
      · rw [hst] at hok
        exact absurd hok he
  refine ⟨hcases, ?_⟩
  intro size before after hrun
  rcases hcases with h | ⟨_, h, _⟩ | ⟨he, h⟩
  · rw [h] at hrun
    have h3 := congrArg List.length hrun
    simp only [List.length_append, List.length_cons, List.length_nil] at h3
    omega
  · rw [h, List.append_assoc, List.append_assoc] at hrun
    have h2 := List.append_cancel_left hrun
    rcases before with _ | ⟨b, rest⟩
    · simp at h2
    · have h3 := congrArg List.length h2
      simp only [List.length_append, List.length_cons, List.length_nil] at h3
      omega
  · rw [h, List.append_assoc, List.append_assoc] at hrun
    have h2 := List.append_cancel_left hrun
    rcases before with _ | ⟨b, _ | ⟨b2, rest⟩⟩
    · simp at h2
    · simp at h2
      exact ⟨by rw [h2.1], he⟩
    · have h3 := congrArg List.length h2
      simp only [List.length_append, List.length_cons, List.length_nil] at h3
      omega

/-! ## Chunk programming -/

/-- C20, counterexample.  A session is receiving (`total_size = 100`,
`received_size = 52`) when `Update_Start(8, 9, 7)` is called and the erase of
the download region fails: the call returns `HAL_ERROR`, yet the session
record is not the one before the call: the state is `UPDATE_IDLE` and
`total_size`, `image_crc`, `version`, `received_size` are `8, 9, 7, 0`. -/
theorem session_atomic_on_error_counterexample :
    (Update_Start (failHw 9) 8 9 7
        { g_ctx := { state := UPDATE_RECEIVING, total_size := 100, image_crc := 1, version := 1,
                     received_size := 52 },
          g_finish_request := 0, g_proc_state := UPROC_IDLE, g_crc_calc := 0 }
        { w := { flag := UPGRADE_FLAG_EMPTY, image_size := 0, image_crc := 0, version := 0,
                 reserved := [0, 0, 0, 0] }, calls := [] }).1 = HAL_ERROR ∧
      (Update_Start (failHw 9) 8 9 7
        { g_ctx := { state := UPDATE_RECEIVING, total_size := 100, image_crc := 1, version := 1,
                     received_size := 52 },
          g_finish_request := 0, g_proc_state := UPROC_IDLE, g_crc_calc := 0 }
        { w := { flag := UPGRADE_FLAG_EMPTY, image_size := 0, image_crc := 0, version := 0,
                 reserved := [0, 0, 0, 0] }, calls := [] }).2.1.g_ctx =
        { state := UPDATE_IDLE, total_size := 8, image_crc := 9, version := 7,
          received_size := 0 } ∧
      (Update_Start (failHw 9) 8 9 7
        { g_ctx := { state := UPDATE_RECEIVING, total_size := 100, image_crc := 1, version := 1,
                     received_size := 52 },
          g_finish_request := 0, g_proc_state := UPROC_IDLE, g_crc_calc := 0 }
        { w := { flag := UPGRADE_FLAG_EMPTY, image_size := 0, image_crc := 0, version := 0,
                 reserved := [0, 0, 0, 0] }, calls := [] }).2.1.g_ctx ≠
        { state := UPDATE_RECEIVING, total_size := 100, image_crc := 1, version := 1,
          received_size := 52 } := by
  refine ⟨by decide, by decide, by decide⟩

/-- C20, amended (session operations on error).  For every prior value of the
variables, every argument and every outcome of the flash primitives: a call of
`Update_ReceiveChunk` or `Update_RequestFinish` that returns a status other
than `HAL_OK` leaves the session record, the armed flag and the deferred
sub-state as they were; so does a call of `Update_Start` that fails one of its
two parameter checks.  A call of `Update_Start` that passes them and returns a
status other than `HAL_OK` returns the status of the failed erase of the
download region and leaves the session record as `UPDATE_IDLE` with the
`total_size`, `image_crc` and `version` of the call and `received_size = 0`,
the armed flag and the deferred sub-state as they were. -/
theorem session_operations_on_error {W : Type} (H : Hw W) (total_size crc version : Nat)
    (offset : Nat) (data : Option (List Nat)) (len : Nat) (s : UpdateVars) (m : Sys W) :
    ((Update_ReceiveChunk H offset data len s m).1 ≠ HAL_OK →
        (Update_ReceiveChunk H offset data len s m).2.1 = s) ∧
      ((Update_RequestFinish s).1 ≠ HAL_OK → (Update_RequestFinish s).2 = s) ∧
      ((total_size = 0 ∨
          (FLASH_DOWNLOAD_START_ADDR + total_size) % 2 ^ 32
            > (FLASH_DOWNLOAD_END_ADDR + 1) % 2 ^ 32) →
        (Update_Start H total_size crc version s m).1 = HAL_ERROR ∧
          (Update_Start H total_size crc version s m).2.1 = s) ∧
      (¬ (total_size = 0 ∨
          (FLASH_DOWNLOAD_START_ADDR + total_size) % 2 ^ 32
            > (FLASH_DOWNLOAD_END_ADDR + 1) % 2 ^ 32) →
        (Update_Start H total_size crc version s m).1 ≠ HAL_OK →
        (Update_Start H total_size crc version s m).1 = (Update_EraseDownloadArea H m).1 ∧
          (Update_Start H total_size crc version s m).2.1 =
            { s with g_ctx := { state := UPDATE_IDLE, total_size := total_size,
                                image_crc := crc, version := version, received_size := 0 } }) := by
  refine ⟨?_, ?_, ?_, ?_⟩
  · intro hne
    rcases Update_ReceiveChunk_cases H offset data len s m with
      ⟨_, he⟩ | ⟨d, _, _, _, _, ⟨st, m2, _, _, he⟩ | ⟨m2, _, he⟩⟩
    · rw [he]
    · rw [he]
    · rw [he] at hne
      exact absurd rfl hne
  · intro hne
    unfold Update_RequestFinish at hne ⊢
    by_cases h1 : s.g_ctx.state = UPDATE_RECEIVING
    · by_cases h2 : s.g_ctx.received_size = s.g_ctx.total_size
      · simp [h1, h2] at hne
      · simp [h1, h2]
    · simp [h1]
  · intro hbad
    rcases Update_Start_cases H total_size crc version s m with
      ⟨_, he⟩ | ⟨h0, hr, _, _⟩ | ⟨h0, hr, _, _⟩
    · rw [he]
      exact ⟨rfl, rfl⟩
    · rcases hbad with h | h
      · exact absurd h h0
      · omega
    · rcases hbad with h | h
      · exact absurd h h0
      · omega
  · intro hgood hne
    rcases Update_Start_cases H total_size crc version s m with
      ⟨hbad, _⟩ | ⟨_, _, _, he⟩ | ⟨_, _, _, he⟩
    · exact absurd hbad hgood
    · rw [he]
      exact ⟨rfl, rfl⟩
    · rw [he] at hne
      exact absurd rfl hne

theorem session_operations_on_error_witness :
    (Update_Start (failHw 9) 8 9 7
        { g_ctx := { state := UPDATE_RECEIVING, total_size := 100, image_crc := 1, version := 1,
                     received_size := 52 },
          g_finish_request := 0, g_proc_state := UPROC_IDLE, g_crc_calc := 0 }
        { w := { flag := UPGRADE_FLAG_EMPTY, image_size := 0, image_crc := 0, version := 0,
                 reserved := [0, 0, 0, 0] }, calls := [] }).1 =
        (Update_EraseDownloadArea (failHw 9)
          { w := { flag := UPGRADE_FLAG_EMPTY, image_size := 0, image_crc := 0, version := 0,
                   reserved := [0, 0, 0, 0] }, calls := [] }).1 ∧
      (Update_Start (failHw 9) 8 9 7
        { g_ctx := { state := UPDATE_RECEIVING, total_size := 100, image_crc := 1, version := 1,
                     received_size := 52 },
          g_finish_request := 0, g_proc_state := UPROC_IDLE, g_crc_calc := 0 }
        { w := { flag := UPGRADE_FLAG_EMPTY, image_size := 0, image_crc := 0, version := 0,
                 reserved := [0, 0, 0, 0] }, calls := [] }).2.1 =
        { g_ctx := { state := UPDATE_IDLE, total_size := 8, image_crc := 9, version := 7,
                     received_size := 0 },
          g_finish_request := 0, g_proc_state := UPROC_IDLE, g_crc_calc := 0 } :=
  (session_operations_on_error (failHw 9) 8 9 7 0 none 0
    { g_ctx := { state := UPDATE_RECEIVING, total_size := 100, image_crc := 1, version := 1,
                 received_size := 52 },
      g_finish_request := 0, g_proc_state := UPROC_IDLE, g_crc_calc := 0 }
    { w := { flag := UPGRADE_FLAG_EMPTY, image_size := 0, image_crc := 0, version := 0,
             reserved := [0, 0, 0, 0] }, calls := [] }).2.2.2 (by decide) (by decide)

/-! ## Where a chunk is programmed -/

/-- For a `total_size` within the capacity of the download region, a chunk
with `offset + len ≤ total_size` and an `offset` that is a multiple of 4 has
every word of the specification inside the download region. -/
theorem Spec_ChunkProgram_in_region (offset : Nat) (data : List Nat) (len k total_size : Nat)
    (htot : total_size ≤ FLASH_DOWNLOAD_END_ADDR + 1 - FLASH_DOWNLOAD_START_ADDR)
    (hsum : offset + len ≤ total_size) (hal : offset % 4 = 0) (hk : k < (len + 3) / 4) :
    ∃ a : Nat, Spec_ChunkProgram offset data len k =
        HwCall.HAL_FLASH_Program a (Spec_ChunkWord data len k) ∧
      FLASH_DOWNLOAD_START_ADDR ≤ a ∧ a + 3 ≤ FLASH_DOWNLOAD_END_ADDR := by
  unfold FLASH_DOWNLOAD_END_ADDR FLASH_DOWNLOAD_START_ADDR at *
  refine ⟨(0x08020000 + offset + 4 * k) % 2 ^ 32, rfl, ?_, ?_⟩ <;> omega

/-- C21, evaluated at two failing inputs, on a hardware whose operations all
succeed.  After `Update_Start(100, 9, 7)` has returned `HAL_OK`, the chunk
`offset = 0xFFFFFFFF`, `len = 2` passes the range check, whose 32-bit sum
`offset + len` is 1, and `Update_ReceiveChunk` returns `HAL_OK` after
programming a word at `0x0801FFFF`, the last byte of the application region,
below the download region.  After `Update_Start(0x40000, 9, 7)` has returned
`HAL_OK`, the chunk `offset = 0x3FFFF`, `len = 1` is programmed as a word at
`0x0805FFFF`, the last byte of the download region, so that its three padding
bytes lie beyond the region. -/
theorem chunk_write_outside_staging :
    (Update_Start (simHw 9) 100 9 7 UpdateVars.initial
        { w := { flag := UPGRADE_FLAG_EMPTY, image_size := 0, image_crc := 0, version := 0,
                 reserved := [0, 0, 0, 0] }, calls := [] }).1 = HAL_OK ∧
      (Update_ReceiveChunk (simHw 9) 0xFFFFFFFF (some [1, 2]) 2
        (Update_Start (simHw 9) 100 9 7 UpdateVars.initial
          { w := { flag := UPGRADE_FLAG_EMPTY, image_size := 0, image_crc := 0, version := 0,
                   reserved := [0, 0, 0, 0] }, calls := [] }).2.1
        (Update_Start (simHw 9) 100 9 7 UpdateVars.initial
          { w := { flag := UPGRADE_FLAG_EMPTY, image_size := 0, image_crc := 0, version := 0,
                   reserved := [0, 0, 0, 0] }, calls := [] }).2.2).1 = HAL_OK ∧
      (Update_run (simHw 9)
        [UpdateOp.Start 100 9 7, UpdateOp.ReceiveChunk 0xFFFFFFFF (some [1, 2]) 2]
        (UpdateVars.initial,
          { w := { flag := UPGRADE_FLAG_EMPTY, image_size := 0, image_crc := 0, version := 0,
                   reserved := [0, 0, 0, 0] }, calls := [] })).2.calls =
        [HwCall.HAL_FLASH_Unlock, HwCall.HAL_FLASHEx_Erase FLASH_SECTOR_5 2,
          HwCall.HAL_FLASH_Lock, HwCall.HAL_FLASH_Unlock,
          HwCall.HAL_FLASH_Program 0x0801FFFF 0xFFFF0201, HwCall.HAL_FLASH_Lock] ∧
      (FLASH_APP_START_ADDR ≤ 0x0801FFFF ∧ 0x0801FFFF ≤ FLASH_APP_END_ADDR ∧
        0x0801FFFF < FLASH_DOWNLOAD_START_ADDR) ∧
      (Update_Start (simHw 9) 0x40000 9 7 UpdateVars.initial
        { w := { flag := UPGRADE_FLAG_EMPTY, image_size := 0, image_crc := 0, version := 0,
                 reserved := [0, 0, 0, 0] }, calls := [] }).1 = HAL_OK ∧
      (Update_ReceiveChunk (simHw 9) 0x3FFFF (some [1]) 1
        (Update_Start (simHw 9) 0x40000 9 7 UpdateVars.initial
          { w := { flag := UPGRADE_FLAG_EMPTY, image_size := 0, image_crc := 0, version := 0,
                   reserved := [0, 0, 0, 0] }, calls := [] }).2.1
        (Update_Start (simHw 9) 0x40000 9 7 UpdateVars.initial
          { w := { flag := UPGRADE_FLAG_EMPTY, image_size := 0, image_crc := 0, version := 0,
                   reserved := [0, 0, 0, 0] }, calls := [] }).2.2).1 = HAL_OK ∧
      (Update_run (simHw 9)
        [UpdateOp.Start 0x40000 9 7, UpdateOp.ReceiveChunk 0x3FFFF (some [1]) 1]
        (UpdateVars.initial,
          { w := { flag := UPGRADE_FLAG_EMPTY, image_size := 0, image_crc := 0, version := 0,
                   reserved := [0, 0, 0, 0] }, calls := [] })).2.calls =
        [HwCall.HAL_FLASH_Unlock, HwCall.HAL_FLASHEx_Erase FLASH_SECTOR_5 2,
          HwCall.HAL_FLASH_Lock, HwCall.HAL_FLASH_Unlock,
          HwCall.HAL_FLASH_Program 0x0805FFFF 0xFFFFFF01, HwCall.HAL_FLASH_Lock] ∧
      (0x0805FFFF ≤ FLASH_DOWNLOAD_END_ADDR ∧ FLASH_DOWNLOAD_END_ADDR < 0x0805FFFF + 3) := by
  refine ⟨?_, ?_, ?_, by decide, ?_, ?_, ?_, by decide⟩ <;>
    simp [Update_run, Update_step, UpdateVars.initial, Update_Start, Update_EraseDownloadArea,
      Update_ReceiveChunk, Update_ReceiveChunk_loop, Update_ReceiveChunk_word,
      Update_ReceiveChunk_copy, Sys.HAL_FLASH_Program, Sys.HAL_FLASH_Unlock,
      Sys.HAL_FLASH_Lock, Sys.HAL_FLASHEx_Erase, simHw, FLASH_DOWNLOAD_START_ADDR,
      FLASH_DOWNLOAD_END_ADDR, FLASH_SECTOR_5]

/-! ## The trailer buffer -/

/-- After any frame dispatched from the initial receiver, the header of a
frame of length 0 leaves the receiver in `RX_STATE_CRC0` with `crc_index = 4`:
the first trailer byte of that frame is stored at `crc_bytes[4]`. -/
theorem Comm_FeedBytes_zero_length_header (crc32 : List Nat → Nat) (cmd seq : Nat)
    (payload : List Nat) (cmd2 seq2 : Nat) (hlen : payload.length ≤ COMM_MAX_PAYLOAD_LEN) :
    ∃ s : RxCtx,
      Comm_FeedBytes crc32 RxCtx.initial
          (Comm_SendFrame crc32 cmd seq (some payload) payload.length ++
            [COMM_HEAD1, COMM_HEAD2, cmd2, seq2, 0, 0]) =
        (s, [CommEvent.HandlePacket cmd seq payload payload.length]) ∧
      s.rx_state = RX_STATE_CRC0 ∧ s.crc_index = 4 ∧ s.crc_bytes.length = 4 := by
  obtain ⟨s2, h, hst, hci, hcb, _⟩ := Comm_FeedBytes_frame crc32 RxCtx.initial cmd seq payload
    rfl (fun _ => rfl) (by simp [RxCtx.initial]) (by simp [RxCtx.initial]) hlen
  have hh : Comm_FeedBytes crc32 s2 [COMM_HEAD1, COMM_HEAD2, cmd2, seq2, 0, 0] =
      ({ s2 with rx_cmd := cmd2, rx_seq := seq2, rx_len := 0, rx_index := 0,
                 rx_state := RX_STATE_CRC0 }, []) :=
    Comm_FeedBytes_header crc32 s2 cmd2 seq2 0 hst (Nat.zero_le _)
  rw [Comm_FeedBytes_append, h]
  simp only []
  rw [hh]
  exact ⟨_, rfl, rfl, hci, hcb⟩

/-- C22, evaluated at the failing input: the bytes of the frame `cmd = 2`,
`seq = 7` of length 0, followed by the six header bytes of a second frame of
length 0.  The first frame is dispatched; its four trailer bytes were stored
at the indices 0 to 3 and left `crc_index = 4`.  `RX_STATE_LEN_H` enters
`RX_STATE_CRC0` for the second frame without resetting `crc_index`, so the
receiver waits for the first trailer byte with `crc_index = 4`, the
4-byte `crc_bytes` having no such cell; in the model, which leaves that store
out, the byte then raises `crc_index` to 5. -/
theorem trailer_store_out_of_range :
    (Comm_FeedBytes (fun l => l.sum * 16777259 + 5) RxCtx.initial
        (Comm_SendFrame (fun l => l.sum * 16777259 + 5) 2 7 (some []) 0 ++
          [0x55, 0xAA, 3, 7, 0, 0])).2 = [CommEvent.HandlePacket 2 7 [] 0] ∧
      (Comm_FeedBytes (fun l => l.sum * 16777259 + 5) RxCtx.initial
        (Comm_SendFrame (fun l => l.sum * 16777259 + 5) 2 7 (some []) 0 ++
          [0x55, 0xAA, 3, 7, 0, 0])).1.rx_state = RX_STATE_CRC0 ∧
      (Comm_FeedBytes (fun l => l.sum * 16777259 + 5) RxCtx.initial
        (Comm_SendFrame (fun l => l.sum * 16777259 + 5) 2 7 (some []) 0 ++
          [0x55, 0xAA, 3, 7, 0, 0])).1.crc_index = 4 ∧
      (Comm_FeedBytes (fun l => l.sum * 16777259 + 5) RxCtx.initial
        (Comm_SendFrame (fun l => l.sum * 16777259 + 5) 2 7 (some []) 0 ++
          [0x55, 0xAA, 3, 7, 0, 0])).1.crc_bytes.length = 4 ∧
      (Comm_FeedBytes (fun l => l.sum * 16777259 + 5) RxCtx.initial
        (Comm_SendFrame (fun l => l.sum * 16777259 + 5) 2 7 (some []) 0 ++
          [0x55, 0xAA, 3, 7, 0, 0, 0x11])).1.crc_index = 5 := by
  refine ⟨by decide, by decide, by decide, by decide, by decide⟩

/-! ## Stores within the receiver arrays -/

/-- Feeding `xs ++ ys` stores within the arrays exactly when feeding `xs`
does and feeding `ys` from the state reached does. -/
theorem Comm_FeedInRange_append (crc32 : List Nat → Nat) (xs ys : List Nat) :
    ∀ s : RxCtx, Comm_FeedInRange crc32 s (xs ++ ys) ↔
      Comm_FeedInRange crc32 s xs ∧ Comm_FeedInRange crc32 (Comm_FeedBytes crc32 s xs).1 ys := by
  induction xs with
  | nil => intro s; simp [Comm_FeedInRange, Comm_FeedBytes]
  | cons x rest ih =>
    intro s
    rw [List.cons_append]
    show Comm_StoreInRange s ∧
        Comm_FeedInRange crc32 (Comm_OnByteReceived crc32 s x).1 (rest ++ ys) ↔
      (Comm_StoreInRange s ∧ Comm_FeedInRange crc32 (Comm_OnByteReceived crc32 s x).1 rest) ∧
        Comm_FeedInRange crc32
          (Comm_FeedBytes crc32 (Comm_OnByteReceived crc32 s x).1 rest).1 ys
    rw [ih, and_assoc]

/-- The six header bytes of a frame, from `RX_STATE_HEAD1`, store into no
array. -/
theorem Comm_FeedInRange_header (crc32 : List Nat → Nat) (s : RxCtx) (cmd seq lo hi : Nat)
    (hst : s.rx_state = RX_STATE_HEAD1) :
    Comm_FeedInRange crc32 s [COMM_HEAD1, COMM_HEAD2, cmd, seq, lo, hi] := by
  simp [Comm_FeedInRange, Comm_StoreInRange, Comm_OnByteReceived, hst]

/-- The payload bytes of a frame of at most `COMM_MAX_PAYLOAD_LEN` bytes are
stored inside `rx_buf`. -/
theorem Comm_FeedInRange_data (crc32 : List Nat → Nat) (xs : List Nat) :
    ∀ s : RxCtx, s.rx_state = RX_STATE_DATA → s.rx_index + xs.length = s.rx_len →
      s.rx_len ≤ COMM_MAX_PAYLOAD_LEN → Comm_FeedInRange crc32 s xs := by
  induction xs with
  | nil => intro s _ _ _; trivial
  | cons x rest ih =>
    intro s hst hlen hmax
    simp only [List.length_cons] at hlen
    have hn : s.rx_len ≤ 1024 := hmax
    refine ⟨⟨fun _ => by unfold COMM_MAX_PAYLOAD_LEN; omega, fun h => ?_⟩, ?_⟩
    · rw [hst] at h
      simp at h
    · cases rest with
      | nil => trivial
      | cons y rest2 =>
        simp only [List.length_cons] at hlen
        have hmod : (s.rx_index + 1) % 65536 = s.rx_index + 1 := Nat.mod_eq_of_lt (by omega)
        have hstep : Comm_OnByteReceived crc32 s x =
            ({ s with rx_buf := s.rx_buf.set s.rx_index x, rx_index := s.rx_index + 1 }, []) := by
          simp [Comm_OnByteReceived, hst, hmod]
          omega
        rw [hstep]
        exact ih _ hst (by simp only [List.length_cons]; omega) hmax

/-- Four trailer bytes received from `crc_index = 0` are stored inside
`crc_bytes`. -/
theorem Comm_FeedInRange_trailer (crc32 : List Nat → Nat) (s : RxCtx) (c0 c1 c2 c3 : Nat)
    (hst : s.rx_state = RX_STATE_CRC0) (hci : s.crc_index = 0) :
    Comm_FeedInRange crc32 s [c0, c1, c2, c3] := by
  rcases s with ⟨st, cmd, seq, len, buf, idx, cb, ci⟩
  simp only at hst hci
  subst hst hci
  simp [Comm_FeedInRange, Comm_StoreInRange, Comm_OnByteReceived]

/-- A complete frame with any four trailer bytes, fed to a receiver that waits
in `RX_STATE_HEAD1` (with `crc_index = 0` when the payload is empty), is
stored within the arrays at every byte. -/
theorem Comm_FeedInRange_frame (crc32 : List Nat → Nat) (s : RxCtx) (cmd seq : Nat)
    (payload : List Nat) (t0 t1 t2 t3 : Nat) (hst : s.rx_state = RX_STATE_HEAD1)
    (hci : payload = [] → s.crc_index = 0) (hbuf : s.rx_buf.length = COMM_MAX_PAYLOAD_LEN)
    (hlen : payload.length ≤ COMM_MAX_PAYLOAD_LEN) :
    Comm_FeedInRange crc32 s
      ([COMM_HEAD1, COMM_HEAD2, cmd, seq, (payload.length &&& 0xFF) % 256,
          (payload.length >>> 8) % 256] ++ (payload ++ [t0, t1, t2, t3])) := by
  have hn : payload.length ≤ 1024 := hlen
  have hhead := Comm_FeedBytes_header crc32 s cmd seq payload.length hst hlen
  rw [Comm_FeedInRange_append, hhead]
  refine ⟨Comm_FeedInRange_header crc32 s cmd seq _ _ hst, ?_⟩
  by_cases hp : payload = []
  · have hc0 : s.crc_index = 0 := hci hp
    subst hp
    exact Comm_FeedInRange_trailer crc32 _ t0 t1 t2 t3 rfl hc0
  · have hpos0 : payload.length ≠ 0 := fun h => hp (List.length_eq_zero.mp h)
    simp only [if_neg hpos0]
    obtain ⟨buf, _, _, hb3⟩ := Comm_FeedBytes_data crc32 payload
      { s with rx_cmd := cmd, rx_seq := seq, rx_len := payload.length, rx_index := 0,
               rx_state := RX_STATE_DATA }
      rfl hp (by simp) (by simpa [hbuf] using hlen) (by simp only []; omega)
    rw [Comm_FeedInRange_append, hb3]
    exact ⟨Comm_FeedInRange_data crc32 payload _ rfl (by simp) hlen,
      Comm_FeedInRange_trailer crc32 _ t0 t1 t2 t3 rfl rfl⟩

/-- Bytes without a header pair, fed to a receiver that waits in
`RX_STATE_HEAD1`, store into no array. -/
theorem Comm_FeedInRange_scan (crc32 : List Nat → Nat) (s : RxCtx)
    (hst : s.rx_state = RX_STATE_HEAD1) (g : List Nat) :
    Spec_NoHeadPair g → Comm_FeedInRange crc32 s g := by
  induction g using List.reverseRecOn with
  | nil => intro _; trivial
  | append_singleton g x ih =>
    intro hno
    have hno1 : Spec_NoHeadPair g :=
      fun h => hno (List.IsInfix.trans h (List.infix_append' [] g [x]))
    obtain ⟨st, he, hcase⟩ := Comm_FeedBytes_scan crc32 s hst g hno1
    rw [Comm_FeedInRange_append, he]
    refine ⟨ih hno1, ?_, trivial⟩
    rcases hcase with h1 | ⟨h2, _⟩
    · subst h1
      exact ⟨fun h => RxState_t.noConfusion h, fun h => by simp at h⟩
    · subst h2
      exact ⟨fun h => RxState_t.noConfusion h, fun h => by simp at h⟩

/-- The frames `Comm_SendFrame` emits, fed to the initial receiver after any
preamble without a header pair that leaves it in `RX_STATE_HEAD1`, are stored
within the arrays at every byte: on these inputs the C program makes no
out-of-range store. -/
theorem Comm_FeedInRange_fresh_frame (crc32 : List Nat → Nat) (cmd seq : Nat)
    (payload : List Nat) (g : List Nat) (hlen : payload.length ≤ COMM_MAX_PAYLOAD_LEN)
    (hno : Spec_NoHeadPair g)
    (hg : (Comm_FeedBytes crc32 RxCtx.initial g).1.rx_state = RX_STATE_HEAD1) :
    Comm_FeedInRange crc32 RxCtx.initial
      (g ++ Comm_SendFrame crc32 cmd seq (some payload) payload.length) := by
  obtain ⟨st, he, _⟩ := Comm_FeedBytes_scan crc32 RxCtx.initial rfl g hno
  rw [he] at hg
  have hst : st = RX_STATE_HEAD1 := hg
  subst hst
  have he1 : Comm_FeedBytes crc32 RxCtx.initial g = (RxCtx.initial, []) := he
  rw [Comm_FeedInRange_append, he1, Comm_SendFrame_bytes crc32 cmd seq payload hlen]
  exact ⟨Comm_FeedInRange_scan crc32 RxCtx.initial rfl g hno,
    Comm_FeedInRange_frame crc32 RxCtx.initial cmd seq payload _ _ _ _ rfl (fun _ => rfl)
      (by simp [RxCtx.initial]) hlen⟩

/-- Where the stores leave the arrays: after the frame `cmd = 2`, `seq = 7` of
length 0, the six header bytes of a second frame of length 0 are still
received without an out-of-range store, and the first trailer byte of that
frame is not. -/
theorem Comm_FeedInRange_zero_length_after_frame :
    Comm_FeedInRange (fun l => l.sum * 16777259 + 5) RxCtx.initial
        (Comm_SendFrame (fun l => l.sum * 16777259 + 5) 2 7 (some []) 0 ++
          [0x55, 0xAA, 3, 7, 0, 0]) ∧
      ¬ Comm_FeedInRange (fun l => l.sum * 16777259 + 5) RxCtx.initial
        (Comm_SendFrame (fun l => l.sum * 16777259 + 5) 2 7 (some []) 0 ++
          [0x55, 0xAA, 3, 7, 0, 0, 0x11]) := by
  refine ⟨by decide, by decide⟩

end IAP
